import Mathlib

/-!
# goframework-goredis: named Redis instances built from string maps

A shallow embedding of `redis.go` (the options translator) and `helper.go`
(the package-level registry functions) together with the library routines
they call (`strconv.ParseInt`, `strconv.ParseBool`, `time.ParseDuration`,
`strings.Split`, `cast.ToInt`, `cast.ToDuration`, `cast.ToBool`).

Go strings are Lean strings, read character by character; every byte test of
the Go routines is on ASCII bytes, so the character view agrees with the byte
view on valid UTF-8.  Go `int`, `int64` and `time.Duration` are `Int`, reduced
with `wrapInt64` wherever the Go arithmetic can overflow; `uint64` is `Nat`
with an explicit `% 2 ^ 64`.  `cast.ToInt` is the one of cast v1.5 to v1.7,
which trims a zero decimal part before `strconv.ParseInt`.

The registry behind `redispool` is package `github.com/kordar/godb`, which is
not among the sources: its operations are modelled from section 4.1 of the
specification.  What the host decides (the number of logical processors, the
float64 rounding inside `time.ParseDuration`, the result of closing a client,
the panics of `redis.NewUniversalClient` other than the one for a negative
pool size of the single-node client) is a parameter, `Env`.
-/

namespace GoRedis

/-! ## Machine integers and outcomes -/

/-- Two's-complement reduction of an integer to 64 bits (Go `int` on a 64-bit host). -/
def wrapInt64 (x : Int) : Int := (x + 2 ^ 63) % 2 ^ 64 - 2 ^ 63

/-- How a Go call ends: it returns a value or it panics. -/
inductive Outcome (α : Type) where
  | returned (v : α)
  | panicked (msg : String)
  deriving DecidableEq

/-- Whether the call ended in a panic. -/
def Outcome.isPanic {α : Type} : Outcome α → Bool
  | .returned _ => false
  | .panicked _ => true

/-! ## strconv -/

/-- The two errors of `strconv.NumError`: `ErrSyntax` and `ErrRange`. -/
inductive NumError where
  | ErrSyntax
  | ErrRange
  deriving DecidableEq

/-- Function `lower` of strconv: `c | ('x' - 'X')`. -/
def lower (c : Char) : Nat := c.toNat ||| 0x20

/-- The loop of `strconv.ParseUint` with bitSize 64: digits accumulate in `n`,
`underscores` records whether a `_` was skipped (`base0` allows them). -/
def parseUintLoop (base : Nat) (base0 : Bool) :
    List Char → Nat → Bool → (Nat × Bool) × Option NumError
  | [], n, underscores => ((n, underscores), none)
  | c :: cs, n, underscores =>
    if c = '_' ∧ base0 = true then parseUintLoop base base0 cs n true
    else
      let d : Option Nat :=
        if 48 ≤ c.toNat ∧ c.toNat ≤ 57 then some (c.toNat - 48)
        else if 97 ≤ lower c ∧ lower c ≤ 122 then some (lower c - 97 + 10)
        else none
      match d with
      | none => ((0, underscores), some NumError.ErrSyntax)
      | some d =>
        if d ≥ base then ((0, underscores), some NumError.ErrSyntax)
        else if n ≥ (2 ^ 64 - 1) / base + 1 then
          ((2 ^ 64 - 1, underscores), some NumError.ErrRange)
        else
          let n0 := n * base
          let n1 := (n0 + d) % 2 ^ 64
          if n1 < n0 ∨ n1 > 2 ^ 64 - 1 then
            ((2 ^ 64 - 1, underscores), some NumError.ErrRange)
          else parseUintLoop base base0 cs n1 underscores

/-- The scan of `strconv.underscoreOK` over the number proper; `i` is the last
character class seen (`'^'`, `'0'`, `'_'` or `'!'`). -/
def underscoreScan (hex : Bool) : List Char → Char → Bool
  | [], i => i != '_'
  | c :: cs, i =>
    if (48 ≤ c.toNat ∧ c.toNat ≤ 57) ∨ (hex = true ∧ 97 ≤ lower c ∧ lower c ≤ 102) then
      underscoreScan hex cs '0'
    else if c = '_' then
      if i != '0' then false else underscoreScan hex cs '_'
    else if i = '_' then false
    else underscoreScan hex cs '!'

/-- Function `strconv.underscoreOK`: underscores only separate digits. -/
def underscoreOK (s : List Char) : Bool :=
  let s := match s with
    | c :: cs => if c = '-' ∨ c = '+' then cs else s
    | [] => s
  match s with
  | c0 :: c1 :: rest =>
    if c0 = '0' ∧ (lower c1 = 98 ∨ lower c1 = 111 ∨ lower c1 = 120) then
      underscoreScan (lower c1 == 120) rest '0'
    else underscoreScan false s '^'
  | _ => underscoreScan false s '^'

/-- Function `strconv.ParseUint(s, 0, 64)`: the value and the error returned. -/
def ParseUint (s : List Char) : Nat × Option NumError :=
  match s with
  | [] => (0, some NumError.ErrSyntax)
  | c0 :: rest =>
    let bs : Nat × List Char :=
      if c0 = '0' then
        match rest with
        | c1 :: c2 :: more =>
          if lower c1 = 98 then (2, c2 :: more)
          else if lower c1 = 111 then (8, c2 :: more)
          else if lower c1 = 120 then (16, c2 :: more)
          else (8, rest)
        | _ => (8, rest)
      else (10, s)
    match parseUintLoop bs.1 true bs.2 0 false with
    | (r, some e) => (r.1, some e)
    | ((n, underscores), none) =>
      if underscores = true ∧ underscoreOK s = false then (0, some NumError.ErrSyntax)
      else (n, none)

/-- Function `strconv.ParseInt(s, 0, 0)` on a 64-bit host. -/
def ParseInt (s : List Char) : Int × Option NumError :=
  match s with
  | [] => (0, some NumError.ErrSyntax)
  | c0 :: rest =>
    let neg : Bool := c0 = '-'
    let s1 := if c0 = '+' then rest else if c0 = '-' then rest else s
    match ParseUint s1 with
    | (_, some NumError.ErrSyntax) => (0, some NumError.ErrSyntax)
    | (un, _) =>
      if neg = false ∧ un ≥ 2 ^ 63 then ((2 : Int) ^ 63 - 1, some NumError.ErrRange)
      else if neg = true ∧ un > 2 ^ 63 then (-(2 : Int) ^ 63, some NumError.ErrRange)
      else (if neg then -(un : Int) else (un : Int), none)

/-- Function `strconv.ParseBool`. -/
def ParseBool (str : String) : Bool × Option NumError :=
  if str = "1" ∨ str = "t" ∨ str = "T" ∨ str = "TRUE" ∨ str = "true" ∨ str = "True" then
    (true, none)
  else if str = "0" ∨ str = "f" ∨ str = "F" ∨ str = "FALSE" ∨ str = "false"
      ∨ str = "False" then
    (false, none)
  else (false, some NumError.ErrSyntax)

/-! ## strings -/

/-- Function `strings.Split(s, ",")` on the characters of `s`: one more piece
than there are commas, so the result is never empty. -/
def splitComma : List Char → List (List Char)
  | [] => [[]]
  | c :: cs =>
    if c = ',' then [] :: splitComma cs
    else
      match splitComma cs with
      | piece :: pieces => (c :: piece) :: pieces
      | [] => [[c]]

/-- Function `strings.Split(s, ",")`. -/
def Split (s : String) : List String := (splitComma s.data).map String.mk

/-! ## go-redis: options -/

/-- A `*tls.Config` that is not nil, known by its identity. -/
structure TLSConfig where
  ref : Nat
  deriving DecidableEq

/-- A dial function that is not nil, known by its identity. -/
structure DialerFunc where
  ref : Nat
  deriving DecidableEq

/-- A connect hook that is not nil, known by its identity. -/
structure OnConnectFunc where
  ref : Nat
  deriving DecidableEq

/-- The fields of `redis.UniversalOptions` that `NewRedisConnIns` writes. A
field left out of a record gets the zero value of its Go type; a nil pointer
or nil function is `none`. -/
structure UniversalOptions where
  Addrs : List String := []
  ClientName : String := ""
  DB : Int := 0
  Dialer : Option DialerFunc := none
  OnConnect : Option OnConnectFunc := none
  Protocol : Int := 0
  Username : String := ""
  Password : String := ""
  SentinelUsername : String := ""
  SentinelPassword : String := ""
  MaxRetries : Int := 0
  MinRetryBackoff : Int := 0
  MaxRetryBackoff : Int := 0
  DialTimeout : Int := 0
  ReadTimeout : Int := 0
  WriteTimeout : Int := 0
  ContextTimeoutEnabled : Bool := false
  PoolFIFO : Bool := false
  PoolSize : Int := 0
  PoolTimeout : Int := 0
  MinIdleConns : Int := 0
  MaxIdleConns : Int := 0
  ConnMaxIdleTime : Int := 0
  ConnMaxLifetime : Int := 0
  TLSConfig : Option TLSConfig := none
  MaxRedirects : Int := 0
  ReadOnly : Bool := false
  RouteByLatency : Bool := false
  RouteRandomly : Bool := false
  MasterName : String := ""
  deriving DecidableEq

/-! ## time -/

/-- Host facts the translation depends on and the source does not fix. -/
structure Env where
  /-- Value returned by `runtime.GOMAXPROCS(-1)`. -/
  GOMAXPROCS : Int
  /-- Float64 expression `uint64(float64(f) * (float64(unit) / scale))` of
  `time.ParseDuration`, for a fraction `f` read from `digits` decimals. -/
  float64Frac : Nat → Nat → Nat → Nat
  /-- Error, if any, that `Close` of the go-redis client with the given
  identity returns. -/
  closeError : Nat → Option String
  /-- Whether `redis.NewUniversalClient` panics on the given options on this
  host with its version of go-redis, where `newClientPanic` below does not
  settle it: a pool too large to allocate, a failover client asked to route by
  latency, and so on. -/
  newClientPanics : UniversalOptions → Bool

/-- Constant `time.Millisecond`, in nanoseconds. -/
def Millisecond : Int := 1000000

/-- Constant `time.Second`, in nanoseconds. -/
def Second : Int := 1000000000

/-- Function `leadingInt` of package time: the leading digits as a number, the
rest of the string, and whether the number overflowed. -/
def leadingInt : List Char → Nat → Nat × List Char × Bool
  | [], x => (x, [], false)
  | c :: cs, x =>
    if c.toNat < 48 ∨ c.toNat > 57 then (x, c :: cs, false)
    else if x > 2 ^ 63 / 10 then (0, [], true)
    else
      let x1 := x * 10 + c.toNat - 48
      if x1 > 2 ^ 63 then (0, [], true) else leadingInt cs x1

/-- Function `leadingFraction` of package time: the digits after the point as a
number `x` with the count of digits kept (the scale is ten to that count), and
the rest of the string. -/
def leadingFraction : List Char → Nat → Nat → Bool → Nat × Nat × List Char
  | [], x, digits, _ => (x, digits, [])
  | c :: cs, x, digits, overflow =>
    if c.toNat < 48 ∨ c.toNat > 57 then (x, digits, c :: cs)
    else if overflow = true then leadingFraction cs x digits overflow
    else if x > (2 ^ 63 - 1) / 10 then leadingFraction cs x digits true
    else
      let y := x * 10 + c.toNat - 48
      if y > 2 ^ 63 then leadingFraction cs x digits true
      else leadingFraction cs y (digits + 1) overflow

/-- Table `unitMap` of package time. -/
def unitMap (u : List Char) : Option Nat :=
  if u = ['n', 's'] then some 1
  else if u = ['u', 's'] then some 1000
  else if u = [Char.ofNat 0xB5, 's'] then some 1000
  else if u = [Char.ofNat 0x3BC, 's'] then some 1000
  else if u = ['m', 's'] then some 1000000
  else if u = ['s'] then some 1000000000
  else if u = ['m'] then some 60000000000
  else if u = ['h'] then some 3600000000000
  else none

/-- The unit of one duration term: the characters up to the next `.` or digit. -/
def spanUnit : List Char → List Char × List Char
  | [] => ([], [])
  | c :: cs =>
    if c = '.' ∨ (48 ≤ c.toNat ∧ c.toNat ≤ 57) then ([], c :: cs)
    else ((c :: (spanUnit cs).1), (spanUnit cs).2)

/-- The optional fraction of one duration term, `(\.[0-9]*)?`: the digits after
the point as a number, their count, the rest of the string, and whether any
digit was consumed (`post`). -/
def fractionPart (s : List Char) : Nat × Nat × List Char × Bool :=
  match s with
  | '.' :: s2 =>
    let fr := leadingFraction s2 0 0 false
    (fr.1, fr.2.1, fr.2.2, s2.length != fr.2.2.length)
  | _ => (0, 0, s, false)

/-- One round of the `for s != ""` loop of `time.ParseDuration`, on the string
left and the duration `d` summed so far: the string left after the term and the
new sum, or `none` where Go returns an error. -/
def parseDurationTerm (env : Env) (s : List Char) (d : Nat) : Option (List Char × Nat) :=
  match s with
  | [] => none
  | c :: cs =>
    if ¬ (c = '.' ∨ (48 ≤ c.toNat ∧ c.toNat ≤ 57)) then none
    else
      match leadingInt (c :: cs) 0 with
      | (_, _, true) => none
      | (v, s1, false) =>
        let pre : Bool := (c :: cs).length != s1.length
        let f := (fractionPart s1).1
        let digits := (fractionPart s1).2.1
        let s3 := (fractionPart s1).2.2.1
        let post := (fractionPart s1).2.2.2
        if pre = false ∧ post = false then none
        else
          let u := (spanUnit s3).1
          let s4 := (spanUnit s3).2
          if u = [] then none
          else
            match unitMap u with
            | none => none
            | some unit =>
              if v > 2 ^ 63 / unit then none
              else
                let v1 := v * unit
                if f > 0 then
                  let v2 := (v1 + env.float64Frac f unit digits) % 2 ^ 64
                  if v2 > 2 ^ 63 then none
                  else
                    let d1 := (d + v2) % 2 ^ 64
                    if d1 > 2 ^ 63 then none else some (s4, d1)
                else
                  let d1 := (d + v1) % 2 ^ 64
                  if d1 > 2 ^ 63 then none else some (s4, d1)

/-- The `for s != ""` loop of `time.ParseDuration`; `none` is the error return.
Each round leaves a shorter string, so a fuel equal to the length of the string
is never used up (`parseDurationLoop_fuel`). -/
def parseDurationLoop (env : Env) : Nat → List Char → Nat → Option Nat
  | _, [], d => some d
  | 0, _ :: _, _ => none
  | fuel + 1, c :: cs, d =>
    match parseDurationTerm env (c :: cs) d with
    | none => none
    | some (rest, d1) => parseDurationLoop env fuel rest d1

/-- Function `time.ParseDuration`: the duration in nanoseconds, `none` when Go
returns an error (the duration returned with an error is always 0). -/
def ParseDuration (env : Env) (s : String) : Option Int :=
  let cs := s.data
  let neg : Bool := match cs with
    | c :: _ => c = '-'
    | [] => false
  let s1 := match cs with
    | c :: rest => if c = '-' ∨ c = '+' then rest else cs
    | [] => cs
  if s1 = ['0'] then some 0
  else if s1 = [] then none
  else
    match parseDurationLoop env s1.length s1 0 with
    | none => none
    | some d =>
      if neg = true then some (wrapInt64 (-(d : Int)))
      else if d > 2 ^ 63 - 1 then none
      else some (d : Int)

/-! ## github.com/spf13/cast, on string arguments -/

/-- Function `trimZeroDecimal` of cast, scanning from the end: a tail of zeros
after a point is cut together with the point (`"12.00"` becomes `"12"`). The
argument is the string reversed; the result is in reading order. -/
def trimZeroDecimalRev (orig : List Char) : List Char → Bool → List Char
  | [], _ => orig
  | c :: before, foundZero =>
    if c = '.' then
      if foundZero = true then before.reverse else trimZeroDecimalRev orig before foundZero
    else if c = '0' then trimZeroDecimalRev orig before true
    else orig

/-- Function `trimZeroDecimal` of cast. -/
def trimZeroDecimal (s : List Char) : List Char := trimZeroDecimalRev s s.reverse false

/-- Function `cast.ToInt` on a string: `strconv.ParseInt(trimZeroDecimal(s), 0, 0)`,
and 0 when that returns an error. -/
def ToInt (s : String) : Int :=
  match ParseInt (trimZeroDecimal s.data) with
  | (v, none) => v
  | (_, some _) => 0

/-- Function `cast.ToDuration` on a string: a string holding none of the
characters of `"nsuµmh"` gets the unit `ns` appended; on a parse error the
result is 0. -/
def ToDuration (env : Env) (s : String) : Int :=
  let r :=
    if s.data.any (fun c => c = 'n' ∨ c = 's' ∨ c = 'u' ∨ c = Char.ofNat 0xB5 ∨ c = 'm' ∨ c = 'h')
    then ParseDuration env s
    else ParseDuration env (s ++ "ns")
  match r with
  | some d => d
  | none => 0

/-- Function `cast.ToBool` on a string: `strconv.ParseBool`, false on error. -/
def ToBool (s : String) : Bool := (ParseBool s).1

/-- Function `cast.ToString` on a string. -/
def ToString (s : String) : String := s

/-! ## go-redis: clients -/

/-- A `redis.UniversalClient` made by `redis.NewUniversalClient`: the identity
of the client object and the options it was made from. -/
structure UniversalClient where
  id : Nat
  options : UniversalOptions
  deriving DecidableEq

/-- The panic, if any, with which `redis.NewUniversalClient` ends on the given
options. Without a master name and with at most one address it builds the
single-node client, whose connection pool is made at once with
`make(chan struct{}, PoolSize)`: a negative PoolSize panics there
(`makechan: size out of range`). Every other case is left to the host. -/
def newClientPanic (env : Env) (option : UniversalOptions) : Option String :=
  if option.MasterName = "" ∧ option.Addrs.length ≤ 1 ∧ option.PoolSize < 0 then
    some "makechan: size out of range"
  else if env.newClientPanics option = true then some "redis.NewUniversalClient"
  else none

/-- Function `redis.NewUniversalClient`: it panics, or returns a new client
object, never nil, that holds the options; `fresh` is the identity the new
object gets. -/
def NewUniversalClient (env : Env) (option : UniversalOptions) (fresh : Nat) :
    Outcome UniversalClient :=
  match newClientPanic env option with
  | some msg => .panicked msg
  | none => .returned { id := fresh, options := option }

/-! ## redis.go -/

/-- A Go `map[string]string`, as its key/value entries (the first entry of a
key counts); the nil map and the empty map are both `[]`. -/
abbrev Cfg := List (String × String)

/-- The comma-ok read `v, ok := cfg[key]`. -/
def cfgLookup (cfg : Cfg) (key : String) : Option String := List.lookup key cfg

/-- The plain read `cfg[key]`: the empty string for a missing key. -/
def cfgIndex (cfg : Cfg) (key : String) : String := (cfgLookup cfg key).getD ""

/-- Type `RedisConnIns` of redis.go. -/
structure RedisConnIns where
  name : String
  ins : UniversalClient
  deriving DecidableEq

/-- Function `intValue` of redis.go. -/
def intValue (cfg : Cfg) (key : String) (defaultValue : Int) : Int :=
  match cfgLookup cfg key with
  | some v => ToInt v
  | none => defaultValue

/-- Function `durationValue` of redis.go. -/
def durationValue (env : Env) (cfg : Cfg) (key : String) (defaultValue : Int) : Int :=
  match cfgLookup cfg key with
  | some v => ToDuration env v
  | none => defaultValue

/-- The statement of redis.go lines 107 to 110: `if cfg["poolSize"] != ""`, then
`options.PoolSize` is assigned. -/
def assignPoolSize (env : Env) (cfg : Cfg) (options : UniversalOptions) : UniversalOptions :=
  if cfgIndex cfg "poolSize" ≠ "" then
    { options with PoolSize := wrapInt64 (ToInt (cfgIndex cfg "poolSize") * env.GOMAXPROCS) }
  else options

/-- The statement of redis.go lines 114 to 116: `if cfg["poolTimeout"] != ""`, then
`options.PoolTimeout` is assigned. -/
def assignPoolTimeout (env : Env) (cfg : Cfg) (options : UniversalOptions) : UniversalOptions :=
  if cfgIndex cfg "poolTimeout" ≠ "" then
    { options with PoolTimeout := ToDuration env (cfgIndex cfg "poolTimeout") }
  else options

/-- The statement of redis.go lines 120 to 122: `if cfg["minIdleConns"] != ""`, then
`options.MinIdleConns` is assigned. -/
def assignMinIdleConns (cfg : Cfg) (options : UniversalOptions) : UniversalOptions :=
  if cfgIndex cfg "minIdleConns" ≠ "" then
    { options with MinIdleConns := ToInt (cfgIndex cfg "minIdleConns") }
  else options

/-- The statement of redis.go lines 126 to 128: `if cfg["maxIdleConns"] != ""`, then
`options.MaxIdleConns` is assigned. -/
def assignMaxIdleConns (cfg : Cfg) (options : UniversalOptions) : UniversalOptions :=
  if cfgIndex cfg "maxIdleConns" ≠ "" then
    { options with MaxIdleConns := ToInt (cfgIndex cfg "maxIdleConns") }
  else options

/-- The statement of redis.go lines 133 to 135: `if cfg["connMaxIdleTime"] != ""`, then
`options.ConnMaxIdleTime` is assigned. -/
def assignConnMaxIdleTime (env : Env) (cfg : Cfg) (options : UniversalOptions) : UniversalOptions :=
  if cfgIndex cfg "connMaxIdleTime" ≠ "" then
    { options with ConnMaxIdleTime := ToDuration env (cfgIndex cfg "connMaxIdleTime") }
  else options

/-- The statement of redis.go lines 141 to 143: `if cfg["connMaxLifetime"] != ""`, then
`options.ConnMaxLifetime` is assigned. -/
def assignConnMaxLifetime (env : Env) (cfg : Cfg) (options : UniversalOptions) : UniversalOptions :=
  if cfgIndex cfg "connMaxLifetime" ≠ "" then
    { options with ConnMaxLifetime := ToDuration env (cfgIndex cfg "connMaxLifetime") }
  else options

/-- The statement of redis.go lines 147 to 149: `if tLSConfig != nil`, then
`options.TLSConfig = tLSConfig`. -/
def assignTLSConfig (tLSConfig : Option TLSConfig) (options : UniversalOptions) : UniversalOptions :=
  match tLSConfig with
  | some v => { options with TLSConfig := some v }
  | none => options

/-- The statement of redis.go lines 152 to 154: `if cfg["maxRedirects"] != ""`, then
`options.MaxRedirects` is assigned. -/
def assignMaxRedirects (cfg : Cfg) (options : UniversalOptions) : UniversalOptions :=
  if cfgIndex cfg "maxRedirects" ≠ "" then
    { options with MaxRedirects := ToInt (cfgIndex cfg "maxRedirects") }
  else options

/-- The statement of redis.go lines 156 to 158: `if cfg["readOnly"] != ""`, then
`options.ReadOnly` is assigned. -/
def assignReadOnly (cfg : Cfg) (options : UniversalOptions) : UniversalOptions :=
  if cfgIndex cfg "readOnly" ≠ "" then
    { options with ReadOnly := ToBool (cfgIndex cfg "readOnly") }
  else options

/-- The statement of redis.go lines 159 to 161: `if cfg["routeByLatency"] != ""`, then
`options.RouteByLatency` is assigned. -/
def assignRouteByLatency (cfg : Cfg) (options : UniversalOptions) : UniversalOptions :=
  if cfgIndex cfg "routeByLatency" ≠ "" then
    { options with RouteByLatency := ToBool (cfgIndex cfg "routeByLatency") }
  else options

/-- The statement of redis.go lines 162 to 164: `if cfg["routeRandomly"] != ""`, then
`options.RouteRandomly` is assigned. -/
def assignRouteRandomly (cfg : Cfg) (options : UniversalOptions) : UniversalOptions :=
  if cfgIndex cfg "routeRandomly" ≠ "" then
    { options with RouteRandomly := ToBool (cfgIndex cfg "routeRandomly") }
  else options

/-- The statement of redis.go lines 167 to 169: `if cfg["masterName"] != ""`, then
`options.MasterName` is assigned. -/
def assignMasterName (cfg : Cfg) (options : UniversalOptions) : UniversalOptions :=
  if cfgIndex cfg "masterName" ≠ "" then
    { options with MasterName := ToString (cfgIndex cfg "masterName") }
  else options

/-- The statement of redis.go lines 170 to 172: `if cfg["protocol"] != ""`, then
`options.Protocol` is assigned. -/
def assignProtocol (cfg : Cfg) (options : UniversalOptions) : UniversalOptions :=
  if cfgIndex cfg "protocol" ≠ "" then
    { options with Protocol := ToInt (cfgIndex cfg "protocol") }
  else options

/-- The statement of redis.go lines 173 to 175: `if cfg["sentinelUsername"] != ""`, then
`options.SentinelUsername` is assigned. -/
def assignSentinelUsername (cfg : Cfg) (options : UniversalOptions) : UniversalOptions :=
  if cfgIndex cfg "sentinelUsername" ≠ "" then
    { options with SentinelUsername := ToString (cfgIndex cfg "sentinelUsername") }
  else options

/-- The statement of redis.go lines 176 to 178: `if cfg["sentinelPassword"] != ""`, then
`options.SentinelPassword` is assigned. -/
def assignSentinelPassword (cfg : Cfg) (options : UniversalOptions) : UniversalOptions :=
  if cfgIndex cfg "sentinelPassword" ≠ "" then
    { options with SentinelPassword := ToString (cfgIndex cfg "sentinelPassword") }
  else options

/-- The statement of redis.go lines 180 to 182: `if dialer != nil`, then
`options.Dialer = dialer`. -/
def assignDialer (dialer : Option DialerFunc) (options : UniversalOptions) : UniversalOptions :=
  match dialer with
  | some v => { options with Dialer := some v }
  | none => options

/-- The statement of redis.go lines 184 to 186: `if onConnect != nil`, then
`options.OnConnect = onConnect`. -/
def assignOnConnect (onConnect : Option OnConnectFunc) (options : UniversalOptions) : UniversalOptions :=
  match onConnect with
  | some v => { options with OnConnect := some v }
  | none => options

/-- The local variable `options` of `NewRedisConnIns` where it is handed to
`NewRedisConnInsWithRedisOption`: the composite literal of redis.go lines 42 to
103, then the conditional assignments of lines 105 to 186 in their order. -/
def NewRedisConnIns_options (env : Env) (cfg : Cfg) (tLSConfig : Option TLSConfig)
    (dialer : Option DialerFunc) (onConnect : Option OnConnectFunc) : UniversalOptions :=
  let options : UniversalOptions :=
    { Addrs := Split (cfgIndex cfg "addr")
      ClientName := ToString (cfgIndex cfg "clientName")
      DB := ToInt (cfgIndex cfg "db")
      Username := ToString (cfgIndex cfg "username")
      Password := ToString (cfgIndex cfg "password")
      MaxRetries := intValue cfg "maxRetries" 3
      MinRetryBackoff := durationValue env cfg "minRetryBackoff" (8 * Millisecond)
      MaxRetryBackoff := durationValue env cfg "maxRetryBackoff" (512 * Millisecond)
      DialTimeout := durationValue env cfg "dialTimeout" (5 * Second)
      ReadTimeout := durationValue env cfg "readTimeout" (3 * Second)
      WriteTimeout := durationValue env cfg "writeTimeout" (3 * Second)
      ContextTimeoutEnabled := ToBool (cfgIndex cfg "contextTimeoutEnabled")
      PoolFIFO := ToBool (cfgIndex cfg "poolFIFO") }
  let options := assignPoolSize env cfg options
  let options := assignPoolTimeout env cfg options
  let options := assignMinIdleConns cfg options
  let options := assignMaxIdleConns cfg options
  let options := assignConnMaxIdleTime env cfg options
  let options := assignConnMaxLifetime env cfg options
  let options := assignTLSConfig tLSConfig options
  let options := assignMaxRedirects cfg options
  let options := assignReadOnly cfg options
  let options := assignRouteByLatency cfg options
  let options := assignRouteRandomly cfg options
  let options := assignMasterName cfg options
  let options := assignProtocol cfg options
  let options := assignSentinelUsername cfg options
  let options := assignSentinelPassword cfg options
  let options := assignDialer dialer options
  let options := assignOnConnect onConnect options
  options

/-- Method `RedisConnIns.GetName`. -/
def RedisConnIns.GetName (c : RedisConnIns) : String := c.name

/-- Method `RedisConnIns.GetInstance`. -/
def RedisConnIns.GetInstance (c : RedisConnIns) : UniversalClient := c.ins

/-- Method `RedisConnIns.Close`: the error of closing the client, if any. -/
def RedisConnIns.Close (env : Env) (c : RedisConnIns) : Option String :=
  env.closeError c.ins.id

/-! ## The registry: package godb -/

/-- Modelled from the spec: the error kinds of the registry (section 7); the
package `github.com/kordar/godb` that raises them is not among the sources. -/
inductive RegistryError where
  | DuplicateNameError (name : String)
  | NotFoundError (name : String)
  | CloseError (name : String) (msg : String)
  deriving DecidableEq

/-- Modelled from the spec: the type of the registry returned by
`godb.NewDbPool`, missing from the sources; section 3 makes it a mapping from
name to registered instance, kept here as entries with distinct names. -/
structure DbPool where
  instances : List (String × RedisConnIns)
  deriving DecidableEq

/-- Modelled from the spec: function `godb.NewDbPool`, missing from the
sources; the registry starts empty. -/
def NewDbPool : DbPool := { instances := [] }

/-- Modelled from the spec: method `Has` of the godb registry, missing from the
sources; the pure existence check of section 4.1. -/
def DbPool.Has (p : DbPool) (name : String) : Bool :=
  (List.lookup name p.instances).isSome

/-- Modelled from the spec: the retrieval `Get` of section 4.1, missing from
the sources; it fails with `NotFoundError` if no instance is registered under
the name. -/
def DbPool.Get (p : DbPool) (name : String) : Except RegistryError RedisConnIns :=
  match List.lookup name p.instances with
  | some ins => .ok ins
  | none => .error (RegistryError.NotFoundError name)

/-- Modelled from the spec: method `Handle` of the godb registry, missing from
the sources, which helper.go calls for one `interface{}` result: the raw client
of the instance that `Get` finds, and the nil interface (`none`) when `Get`
fails, there being no second result to carry the error. -/
def DbPool.Handle (p : DbPool) (name : String) : Option UniversalClient :=
  match p.Get name with
  | .ok ins => some ins.GetInstance
  | .error _ => none

/-- Modelled from the spec: method `Add` of the godb registry, missing from the
sources; it fails with `DuplicateNameError` if the name of the instance is
already registered, and registers the instance otherwise (section 4.1). -/
def DbPool.Add (p : DbPool) (ins : RedisConnIns) : DbPool × Option RegistryError :=
  if p.Has ins.GetName = true then (p, some (RegistryError.DuplicateNameError ins.GetName))
  else ({ instances := (ins.GetName, ins) :: p.instances }, none)

/-- Modelled from the spec: method `Remove` of the godb registry, missing from
the sources; a registered name has its handle closed and its mapping removed,
a close failure is reported and does not keep the mapping, and an absent name
is a no-op (section 4.1). The second component is the failure reported. -/
def DbPool.Remove (env : Env) (p : DbPool) (name : String) : DbPool × Option RegistryError :=
  match List.lookup name p.instances with
  | none => (p, none)
  | some ins =>
    ({ instances := p.instances.filter (fun e => e.1 != name) },
      (ins.Close env).map (RegistryError.CloseError name))

/-- Number of registered instances. -/
def DbPool.size (p : DbPool) : Nat := p.instances.length

/-! ## redis.go and helper.go: the stateful part -/

/-- The state the package functions act on: the package variable `redispool`
and the number of client objects made so far, which is the identity of the
next one. -/
structure World where
  redispool : DbPool
  clients : Nat
  deriving DecidableEq

/-- The state at package initialisation: `redispool = godb.NewDbPool()`. -/
def World.init : World := { redispool := NewDbPool, clients := 0 }

/-- Function `NewRedisConnInsWithRedisOption` of redis.go: a panic inside
`redis.NewUniversalClient` passes through, there being no `recover`; the
pointer returned otherwise is `some`, a nil pointer would be `none`. -/
def NewRedisConnInsWithRedisOption (env : Env) (name : String) (option : UniversalOptions)
    (w : World) : Outcome (Option RedisConnIns) × World :=
  match NewUniversalClient env option w.clients with
  | .panicked msg => (.panicked msg, w)
  | .returned client =>
    (.returned (some { name := name, ins := client }), { w with clients := w.clients + 1 })

/-- Function `NewRedisConnIns` of redis.go. -/
def NewRedisConnIns (env : Env) (name : String) (cfg : Cfg) (tLSConfig : Option TLSConfig)
    (dialer : Option DialerFunc) (onConnect : Option OnConnectFunc) (w : World) :
    Outcome (Option RedisConnIns) × World :=
  NewRedisConnInsWithRedisOption env name
    (NewRedisConnIns_options env cfg tLSConfig dialer onConnect) w

/-- Function `GetRedisClient` of helper.go: the type assertion
`redispool.Handle(db).(redis.UniversalClient)` has no comma-ok form, so it
panics on the nil interface. -/
def GetRedisClient (db : String) (w : World) : Outcome UniversalClient :=
  match w.redispool.Handle db with
  | some client => .returned client
  | none => .panicked "interface conversion: interface is nil, not redis.UniversalClient"

/-- Function `AddRedisInstancesArgs` of helper.go; `dbs` lists the entries of
the Go map in the order the `range` loop visits them. The result holds the
errors passed to `logger.Warnf`, how the call ended, and the state afterwards:
a panic of `NewRedisConnIns` ends the loop, there being no `recover`, and the
entries not yet visited are not added. -/
def AddRedisInstancesArgs (env : Env) (dbs : List (String × Cfg)) (tls : Option TLSConfig)
    (dialer : Option DialerFunc) (onConnect : Option OnConnectFunc) (w : World) :
    (List RegistryError × Outcome Unit) × World :=
  match dbs with
  | [] => (([], .returned ()), w)
  | (db, cfg) :: rest =>
    match NewRedisConnIns env db cfg tls dialer onConnect w with
    | (.panicked msg, w1) => (([], .panicked msg), w1)
    | (.returned none, w1) => AddRedisInstancesArgs env rest tls dialer onConnect w1
    | (.returned (some ins), w1) =>
      match w1.redispool.Add ins with
      | (pool, some err) =>
        let r := AddRedisInstancesArgs env rest tls dialer onConnect { w1 with redispool := pool }
        ((err :: r.1.1, r.1.2), r.2)
      | (pool, none) =>
        AddRedisInstancesArgs env rest tls dialer onConnect { w1 with redispool := pool }

/-- Function `AddRedisInstances` of helper.go. -/
def AddRedisInstances (env : Env) (dbs : List (String × Cfg)) (w : World) :
    (List RegistryError × Outcome Unit) × World :=
  AddRedisInstancesArgs env dbs none none none w

/-- Function `AddRedisInstanceArgs` of helper.go: the error returned, or the
panic of `NewRedisConnIns` or of calling `GetName` through a nil pointer, and
the state afterwards. -/
def AddRedisInstanceArgs (env : Env) (db : String) (cfg : Cfg) (tls : Option TLSConfig)
    (dialer : Option DialerFunc) (onConnect : Option OnConnectFunc) (w : World) :
    Outcome (Option RegistryError) × World :=
  match NewRedisConnIns env db cfg tls dialer onConnect w with
  | (.panicked msg, w1) => (.panicked msg, w1)
  | (.returned none, w1) =>
    (.panicked "invalid memory address or nil pointer dereference", w1)
  | (.returned (some ins), w1) =>
    let r := w1.redispool.Add ins
    (.returned r.2, { w1 with redispool := r.1 })

/-- Function `AddRedisInstance` of helper.go. -/
def AddRedisInstance (env : Env) (db : String) (cfg : Cfg) (w : World) :
    Outcome (Option RegistryError) × World :=
  AddRedisInstanceArgs env db cfg none none none w

/-- Function `AddRedisInstanceWithRedisOptions` of helper.go. -/
def AddRedisInstanceWithRedisOptions (env : Env) (db : String) (option : UniversalOptions)
    (w : World) : Outcome (Option RegistryError) × World :=
  match NewRedisConnInsWithRedisOption env db option w with
  | (.panicked msg, w1) => (.panicked msg, w1)
  | (.returned none, w1) =>
    (.panicked "invalid memory address or nil pointer dereference", w1)
  | (.returned (some ins), w1) =>
    let r := w1.redispool.Add ins
    (.returned r.2, { w1 with redispool := r.1 })

/-- Function `RemoveRedisInstance` of helper.go: it has no result, whatever
`redispool.Remove` reports is dropped. -/
def RemoveRedisInstance (env : Env) (db : String) (w : World) : World :=
  { w with redispool := (w.redispool.Remove env db).1 }

/-- Function `HasRedisInstance` of helper.go; `redispool` is set when the
package is initialised and never assigned again, so `redispool != nil` holds. -/
def HasRedisInstance (db : String) (w : World) : Bool :=
  w.redispool.Has db

/-! ## Inputs of the test and of the examples -/

/-- The configuration map of `TestRedis` in redis_test.go. -/
def testCfg : Cfg := [("addr", "xxxxxx"), ("db", "2"), ("password", "xxxxx")]

/-- A host with four logical processors on which `redis.NewUniversalClient`
panics only where `newClientPanic` says it must and clients close without
error; the fraction of a duration is computed exactly. -/
def hostFour : Env :=
  { GOMAXPROCS := 4, float64Frac := fun f unit digits => f * unit / 10 ^ digits,
    closeError := fun _ => none, newClientPanics := fun _ => false }

/-- A host on which every `Close` of a client fails. -/
def hostCloseFails : Env :=
  { GOMAXPROCS := 4, float64Frac := fun f unit digits => f * unit / 10 ^ digits,
    closeError := fun _ => some "use of closed network connection",
    newClientPanics := fun _ => false }


/-- A map whose poolSize resolves to a negative PoolSize, on which the
single-node client cannot be built. -/
def negativePoolCfg : Cfg := [("poolSize", "-3")]

/-! ## Sequences of calls -/

/-- A call of one of the package functions that change the registry. -/
inductive Call where
  | AddArgs (db : String) (cfg : Cfg) (tls : Option TLSConfig) (dialer : Option DialerFunc)
      (onConnect : Option OnConnectFunc)
  | AddManyArgs (dbs : List (String × Cfg)) (tls : Option TLSConfig)
      (dialer : Option DialerFunc) (onConnect : Option OnConnectFunc)
  | AddWithRedisOptions (db : String) (option : UniversalOptions)
  | Remove (db : String)

/-- The state after a call, whether the call returned or panicked. -/
def Call.run (env : Env) (c : Call) (w : World) : World :=
  match c with
  | .AddArgs db cfg tls dialer onConnect =>
    (AddRedisInstanceArgs env db cfg tls dialer onConnect w).2
  | .AddManyArgs dbs tls dialer onConnect =>
    (AddRedisInstancesArgs env dbs tls dialer onConnect w).2
  | .AddWithRedisOptions db option => (AddRedisInstanceWithRedisOptions env db option w).2
  | .Remove db => RemoveRedisInstance env db w

/-- Whether a call asks to add an instance under `name`. -/
def Call.adds (name : String) (c : Call) : Bool :=
  match c with
  | .AddArgs db _ _ _ _ => db == name
  | .AddManyArgs dbs _ _ _ => (dbs.map Prod.fst).contains name
  | .AddWithRedisOptions db _ => db == name
  | .Remove _ => false

/-- The state after a sequence of calls, first call first. -/
def runCalls (env : Env) (calls : List Call) (w : World) : World :=
  calls.foldl (fun w c => c.run env w) w

/-! ## Vocabulary of the claims about the translation -/

/-- The comma-separated segment number `i` of a string, counted from 0: the
characters after comma number `i` (from the start of the string for `i = 0`)
up to the next comma or the end of the string. -/
def segment : List Char → Nat → List Char
  | [], _ => []
  | c :: cs, 0 => if c = ',' then [] else c :: segment cs 0
  | c :: cs, i + 1 => if c = ',' then segment cs i else segment cs (i + 1)

/-- The Go assignment `cfg[key] = value`. -/
def cfgSet (cfg : Cfg) (key value : String) : Cfg := (key, value) :: cfg

/-- The Go statement `delete(cfg, key)`. -/
def cfgDelete (cfg : Cfg) (key : String) : Cfg := cfg.filter (fun e => e.1 != key)

/-- The keys `NewRedisConnIns` reads with the comma-ok form, through
`intValue` and `durationValue`. -/
def presenceKeys : List String :=
  ["maxRetries", "minRetryBackoff", "maxRetryBackoff", "dialTimeout", "readTimeout",
    "writeTimeout"]

/-- The keys `NewRedisConnIns` reads behind a test `cfg[key] != ""`. -/
def guardedKeys : List String :=
  ["poolSize", "poolTimeout", "minIdleConns", "maxIdleConns", "connMaxIdleTime",
    "connMaxLifetime", "maxRedirects", "readOnly", "routeByLatency", "routeRandomly",
    "masterName", "protocol", "sentinelUsername", "sentinelPassword"]

/-- The keys `NewRedisConnIns` reads with a plain `cfg[key]` and no test. -/
def plainKeys : List String :=
  ["addr", "clientName", "db", "username", "password", "contextTimeoutEnabled", "poolFIFO"]

/-- The recognized option names: every key `NewRedisConnIns` reads. -/
def recognizedKeys : List String := plainKeys ++ presenceKeys ++ guardedKeys

/-- Function `cast.ToIntE` on a string: the integer, or `none` where cast
returns an error (the value does not parse as an integer). -/
def ToIntE (s : String) : Option Int :=
  match ParseInt (trimZeroDecimal s.data) with
  | (v, none) => some v
  | (_, some _) => none

/-- Function `cast.ToDurationE` on a string: the duration, or `none` where cast
returns an error (the value does not parse as a duration). -/
def ToDurationE (env : Env) (s : String) : Option Int :=
  if s.data.any (fun c => c = 'n' ∨ c = 's' ∨ c = 'u' ∨ c = Char.ofNat 0xB5 ∨ c = 'm' ∨ c = 'h')
  then ParseDuration env s
  else ParseDuration env (s ++ "ns")

/-- A map in which each of the seven integer and duration keys holds a value
that does not parse. -/
def malformedCfg : Cfg :=
  [("maxRetries", "three"), ("db", "1.5"), ("minRetryBackoff", "8 ms"),
    ("maxRetryBackoff", "fast"), ("dialTimeout", "5x"), ("readTimeout", "3sec"),
    ("writeTimeout", "--1")]

/-! ## The loop of `time.ParseDuration` never runs out of fuel -/

theorem leadingInt_length : ∀ (s : List Char) (x : Nat),
    (leadingInt s x).2.1.length ≤ s.length := by
  intro s
  induction s with
  | nil => intro x; simp [leadingInt]
  | cons c cs ih =>
    intro x
    rw [leadingInt]
    split
    · simp
    · split
      · simp
      · simp only []
        split
        · simp
        · exact Nat.le_succ_of_le (ih _)

theorem leadingFraction_length : ∀ (s : List Char) (x digits : Nat) (overflow : Bool),
    (leadingFraction s x digits overflow).2.2.length ≤ s.length := by
  intro s
  induction s with
  | nil => intro x digits overflow; simp [leadingFraction]
  | cons c cs ih =>
    intro x digits overflow
    rw [leadingFraction]
    split
    · simp
    · split
      · exact Nat.le_succ_of_le (ih _ _ _)
      · split
        · exact Nat.le_succ_of_le (ih _ _ _)
        · simp only []
          split
          · exact Nat.le_succ_of_le (ih _ _ _)
          · exact Nat.le_succ_of_le (ih _ _ _)

theorem fractionPart_length (s : List Char) : (fractionPart s).2.2.1.length ≤ s.length := by
  unfold fractionPart
  split
  · simp only [List.length_cons]
    exact Nat.le_succ_of_le (leadingFraction_length _ _ _ _)
  · simp

theorem spanUnit_length : ∀ (s : List Char),
    (spanUnit s).1.length + (spanUnit s).2.length = s.length := by
  intro s
  induction s with
  | nil => simp [spanUnit]
  | cons c cs ih =>
    rw [spanUnit]
    split
    · simp
    · simp only [List.length_cons]
      omega

/-- A round of the loop that succeeds leaves a shorter string. -/
theorem parseDurationTerm_shorter (env : Env) (s : List Char) (d : Nat)
    (rest : List Char) (d1 : Nat) (h : parseDurationTerm env s d = some (rest, d1)) :
    rest.length < s.length := by
  unfold parseDurationTerm at h
  split at h
  · cases h
  · rename_i c cs
    split at h
    · cases h
    · split at h
      · cases h
      · rename_i v s1 hli
        have h1 : s1.length ≤ (c :: cs).length := by
          have := leadingInt_length (c :: cs) 0
          rw [hli] at this
          exact this
        have h2 := fractionPart_length s1
        have h3 := spanUnit_length (fractionPart s1).2.2.1
        have key : (spanUnit (fractionPart s1).2.2.1).1 ≠ [] →
            (spanUnit (fractionPart s1).2.2.1).2.length < (c :: cs).length := by
          intro hu
          have : 0 < (spanUnit (fractionPart s1).2.2.1).1.length := List.length_pos.2 hu
          omega
        simp only [] at h
        split at h
        · cases h
        · split at h
          · cases h
          · rename_i hu
            split at h
            · cases h
            · split at h
              · cases h
              · split at h
                · split at h
                  · cases h
                  · split at h
                    · cases h
                    · injection h with h
                      injection h with hr _
                      rw [← hr]
                      exact key hu
                · split at h
                  · cases h
                  · injection h with h
                    injection h with hr _
                    rw [← hr]
                    exact key hu

/-- Any fuel that is at least the length of the string gives the same result: the loop
stops because the string is used up or a round fails, never for want of fuel. -/
theorem parseDurationLoop_fuel (env : Env) (fuel1 : Nat) :
    ∀ (fuel2 : Nat) (s : List Char) (d : Nat), s.length ≤ fuel1 → s.length ≤ fuel2 →
      parseDurationLoop env fuel1 s d = parseDurationLoop env fuel2 s d := by
  induction fuel1 with
  | zero =>
    intro fuel2 s d h1 _
    have : s = [] := List.length_eq_zero.1 (Nat.le_zero.1 h1)
    subst this
    cases fuel2 <;> rfl
  | succ f1 ih =>
    intro fuel2 s d h1 h2
    cases s with
    | nil => cases fuel2 <;> rfl
    | cons c cs =>
      cases fuel2 with
      | zero => simp at h2
      | succ f2 =>
        rw [parseDurationLoop, parseDurationLoop]
        cases hterm : parseDurationTerm env (c :: cs) d with
        | none => rfl
        | some r =>
          obtain ⟨rest, d1⟩ := r
          have hlt := parseDurationTerm_shorter env (c :: cs) d rest d1 hterm
          simp only [List.length_cons] at hlt h1 h2
          exact ih f2 rest d1 (by omega) (by omega)

/-! ## The registry: lookups after adding and removing -/

theorem lookup_filter_ne (name k : String) (l : List (String × RedisConnIns)) :
    List.lookup k (l.filter (fun e => e.1 != name)) =
      if k = name then none else List.lookup k l := by
  induction l with
  | nil => simp
  | cons e l ih =>
    obtain ⟨a, v⟩ := e
    by_cases ha : a = name
    · subst ha
      by_cases hk : k = a
      · subst hk
        simp [List.filter, ih]
      · have hka : (k == a) = false := by simpa using hk
        simp [List.filter, ih, List.lookup, hk, hka]
    · have hne : (a != name) = true := by simpa using ha
      by_cases hk : k = a
      · subst hk
        simp [List.filter, hne, List.lookup, ha]
      · have hka : (k == a) = false := by simpa using hk
        simp [List.filter, hne, List.lookup, hka, ih]

theorem filter_ne_of_lookup_none (name : String) (l : List (String × RedisConnIns))
    (h : List.lookup name l = none) : l.filter (fun e => e.1 != name) = l := by
  induction l with
  | nil => rfl
  | cons e l ih =>
    obtain ⟨a, v⟩ := e
    by_cases ha : name = a
    · subst ha
      simp [List.lookup] at h
    · have hka : (name == a) = false := by simpa using ha
      have hne : (a != name) = true := by simpa using (Ne.symm ha)
      simp only [List.lookup, hka] at h
      simp [List.filter, hne, ih h]

theorem Has_eq_false_iff (p : DbPool) (name : String) :
    p.Has name = false ↔ List.lookup name p.instances = none := by
  unfold DbPool.Has
  cases List.lookup name p.instances <;> simp

theorem Has_eq_true_iff (p : DbPool) (name : String) :
    p.Has name = true ↔ ∃ ins, List.lookup name p.instances = some ins := by
  unfold DbPool.Has
  cases List.lookup name p.instances <;> simp

theorem NewRedisConnIns_returns (env : Env) (name : String) (cfg : Cfg) (t : Option TLSConfig)
    (d : Option DialerFunc) (o : Option OnConnectFunc) (w : World)
    (hret : newClientPanic env (NewRedisConnIns_options env cfg t d o) = none) :
    NewRedisConnIns env name cfg t d o w =
      (.returned (some { name := name,
                         ins := { id := w.clients,
                                  options := NewRedisConnIns_options env cfg t d o } }),
       { w with clients := w.clients + 1 }) := by
  simp [NewRedisConnIns, NewRedisConnInsWithRedisOption, NewUniversalClient, hret]

theorem NewRedisConnIns_panics (env : Env) (name : String) (cfg : Cfg) (t : Option TLSConfig)
    (d : Option DialerFunc) (o : Option OnConnectFunc) (w : World) (msg : String)
    (hp : newClientPanic env (NewRedisConnIns_options env cfg t d o) = some msg) :
    NewRedisConnIns env name cfg t d o w = (.panicked msg, w) := by
  simp [NewRedisConnIns, NewRedisConnInsWithRedisOption, NewUniversalClient, hp]

theorem AddRedisInstanceArgs_fresh (env : Env) (db : String) (cfg : Cfg) (t : Option TLSConfig)
    (d : Option DialerFunc) (o : Option OnConnectFunc) (w : World)
    (hret : newClientPanic env (NewRedisConnIns_options env cfg t d o) = none)
    (h : HasRedisInstance db w = false) :
    AddRedisInstanceArgs env db cfg t d o w =
      (.returned none,
       { redispool :=
           { instances :=
               (db, { name := db,
                      ins := { id := w.clients,
                               options := NewRedisConnIns_options env cfg t d o } }) ::
                 w.redispool.instances },
         clients := w.clients + 1 }) := by
  unfold HasRedisInstance at h
  simp [AddRedisInstanceArgs, NewRedisConnIns_returns env db cfg t d o w hret, DbPool.Add,
    RedisConnIns.GetName, h]

theorem AddRedisInstanceArgs_dup (env : Env) (db : String) (cfg : Cfg) (t : Option TLSConfig)
    (d : Option DialerFunc) (o : Option OnConnectFunc) (w : World)
    (hret : newClientPanic env (NewRedisConnIns_options env cfg t d o) = none)
    (h : HasRedisInstance db w = true) :
    AddRedisInstanceArgs env db cfg t d o w =
      (.returned (some (RegistryError.DuplicateNameError db)),
       { redispool := w.redispool, clients := w.clients + 1 }) := by
  unfold HasRedisInstance at h
  simp [AddRedisInstanceArgs, NewRedisConnIns_returns env db cfg t d o w hret, DbPool.Add,
    RedisConnIns.GetName, h]

theorem AddRedisInstanceArgs_panic (env : Env) (db : String) (cfg : Cfg) (t : Option TLSConfig)
    (d : Option DialerFunc) (o : Option OnConnectFunc) (w : World) (msg : String)
    (hp : newClientPanic env (NewRedisConnIns_options env cfg t d o) = some msg) :
    AddRedisInstanceArgs env db cfg t d o w = (.panicked msg, w) := by
  simp [AddRedisInstanceArgs, NewRedisConnIns_panics env db cfg t d o w msg hp]

/-- If `AddRedisInstanceArgs` returns, then `redis.NewUniversalClient` did not panic. -/
theorem newClientPanic_of_returned (env : Env) (db : String) (cfg : Cfg)
    (t : Option TLSConfig) (d : Option DialerFunc) (o : Option OnConnectFunc) (w : World)
    (e : Option RegistryError)
    (h : (AddRedisInstanceArgs env db cfg t d o w).1 = .returned e) :
    newClientPanic env (NewRedisConnIns_options env cfg t d o) = none := by
  cases hp : newClientPanic env (NewRedisConnIns_options env cfg t d o) with
  | none => rfl
  | some msg =>
    rw [AddRedisInstanceArgs_panic env db cfg t d o w msg hp] at h
    cases h

theorem GetRedisClient_cons_self (db : String) (ins : RedisConnIns)
    (l : List (String × RedisConnIns)) (n : Nat) :
    GetRedisClient db { redispool := { instances := (db, ins) :: l }, clients := n } =
      .returned ins.ins := by
  simp [GetRedisClient, DbPool.Handle, DbPool.Get, List.lookup, RedisConnIns.GetInstance]

theorem Has_cons_self (db : String) (ins : RedisConnIns) (l : List (String × RedisConnIns)) :
    DbPool.Has { instances := (db, ins) :: l } db = true := by
  simp [DbPool.Has, List.lookup]

theorem HasRedisInstance_cons_self (db : String) (ins : RedisConnIns)
    (l : List (String × RedisConnIns)) (n : Nat) :
    HasRedisInstance db { redispool := { instances := (db, ins) :: l }, clients := n } = true :=
  Has_cons_self db ins l

/-! ## The batch loop of `AddRedisInstancesArgs` -/

theorem AddRedisInstancesArgs_cons_fresh (env : Env) (db : String) (cfg : Cfg)
    (rest : List (String × Cfg)) (t : Option TLSConfig) (d : Option DialerFunc)
    (o : Option OnConnectFunc) (w : World)
    (hret : newClientPanic env (NewRedisConnIns_options env cfg t d o) = none)
    (h : HasRedisInstance db w = false) :
    AddRedisInstancesArgs env ((db, cfg) :: rest) t d o w =
      AddRedisInstancesArgs env rest t d o
        { redispool :=
            { instances :=
                (db, { name := db,
                       ins := { id := w.clients,
                                options := NewRedisConnIns_options env cfg t d o } }) ::
                  w.redispool.instances },
          clients := w.clients + 1 } := by
  unfold HasRedisInstance at h
  rw [AddRedisInstancesArgs]
  simp [NewRedisConnIns_returns env db cfg t d o w hret, DbPool.Add, RedisConnIns.GetName, h]

theorem AddRedisInstancesArgs_cons_dup (env : Env) (db : String) (cfg : Cfg)
    (rest : List (String × Cfg)) (t : Option TLSConfig) (d : Option DialerFunc)
    (o : Option OnConnectFunc) (w : World)
    (hret : newClientPanic env (NewRedisConnIns_options env cfg t d o) = none)
    (h : HasRedisInstance db w = true) :
    AddRedisInstancesArgs env ((db, cfg) :: rest) t d o w =
      ((RegistryError.DuplicateNameError db ::
          (AddRedisInstancesArgs env rest t d o
            { redispool := w.redispool, clients := w.clients + 1 }).1.1,
        (AddRedisInstancesArgs env rest t d o
            { redispool := w.redispool, clients := w.clients + 1 }).1.2),
        (AddRedisInstancesArgs env rest t d o
            { redispool := w.redispool, clients := w.clients + 1 }).2) := by
  unfold HasRedisInstance at h
  rw [AddRedisInstancesArgs]
  simp [NewRedisConnIns_returns env db cfg t d o w hret, DbPool.Add, RedisConnIns.GetName, h]

theorem AddRedisInstancesArgs_cons_panic (env : Env) (db : String) (cfg : Cfg)
    (rest : List (String × Cfg)) (t : Option TLSConfig) (d : Option DialerFunc)
    (o : Option OnConnectFunc) (w : World) (msg : String)
    (hp : newClientPanic env (NewRedisConnIns_options env cfg t d o) = some msg) :
    AddRedisInstancesArgs env ((db, cfg) :: rest) t d o w = (([], .panicked msg), w) := by
  rw [AddRedisInstancesArgs]
  simp [NewRedisConnIns_panics env db cfg t d o w msg hp]

/-- A name registered before the batch keeps its instance, also when the batch panics. -/
theorem batch_keeps (env : Env) (t : Option TLSConfig) (d : Option DialerFunc)
    (o : Option OnConnectFunc) (dbs : List (String × Cfg)) :
    ∀ (w : World) (n : String) (ins : RedisConnIns),
      List.lookup n w.redispool.instances = some ins →
      List.lookup n (AddRedisInstancesArgs env dbs t d o w).2.redispool.instances = some ins := by
  induction dbs with
  | nil => intro w n ins h; simpa [AddRedisInstancesArgs] using h
  | cons e rest ih =>
    obtain ⟨db, cfg⟩ := e
    intro w n ins h
    cases hp : newClientPanic env (NewRedisConnIns_options env cfg t d o) with
    | some msg =>
      rw [AddRedisInstancesArgs_cons_panic env db cfg rest t d o w msg hp]
      exact h
    | none =>
      by_cases hd : HasRedisInstance db w = true
      · rw [AddRedisInstancesArgs_cons_dup env db cfg rest t d o w hp hd]
        exact ih _ n ins h
      · have hf : HasRedisInstance db w = false := by simpa using hd
        rw [AddRedisInstancesArgs_cons_fresh env db cfg rest t d o w hp hf]
        apply ih
        have hne : n ≠ db := by
          intro hEq
          subst hEq
          have := (Has_eq_false_iff _ _).1 hf
          rw [this] at h
          cases h
        have hb : (n == db) = false := by simpa using hne
        simp [List.lookup, hb, h]

/-- A name that is neither registered nor a key of the batch stays unregistered. -/
theorem batch_adds_no_other (env : Env) (t : Option TLSConfig) (d : Option DialerFunc)
    (o : Option OnConnectFunc) (dbs : List (String × Cfg)) :
    ∀ (w : World) (n : String),
      List.lookup n w.redispool.instances = none → n ∉ dbs.map Prod.fst →
      List.lookup n (AddRedisInstancesArgs env dbs t d o w).2.redispool.instances = none := by
  induction dbs with
  | nil => intro w n h _; simpa [AddRedisInstancesArgs] using h
  | cons e rest ih =>
    obtain ⟨db, cfg⟩ := e
    intro w n h hn
    have hne : n ≠ db := by
      intro hEq; apply hn; simp [hEq]
    have hrest : n ∉ rest.map Prod.fst := by
      intro hm; apply hn; simp only [List.map_cons, List.mem_cons]; exact Or.inr hm
    cases hp : newClientPanic env (NewRedisConnIns_options env cfg t d o) with
    | some msg =>
      rw [AddRedisInstancesArgs_cons_panic env db cfg rest t d o w msg hp]
      exact h
    | none =>
      by_cases hd : HasRedisInstance db w = true
      · rw [AddRedisInstancesArgs_cons_dup env db cfg rest t d o w hp hd]
        exact ih _ n h hrest
      · have hf : HasRedisInstance db w = false := by simpa using hd
        rw [AddRedisInstancesArgs_cons_fresh env db cfg rest t d o w hp hf]
        apply ih _ n _ hrest
        have hb : (n == db) = false := by simpa using hne
        simp [List.lookup, hb, h]

/-- When no entry of the batch makes `redis.NewUniversalClient` panic, a key that was not
registered gets the instance made from its own map. -/
theorem batch_adds_key (env : Env) (t : Option TLSConfig) (d : Option DialerFunc)
    (o : Option OnConnectFunc) (dbs : List (String × Cfg)) :
    ∀ (w : World) (n : String) (cfg : Cfg),
      (∀ e ∈ dbs, newClientPanic env (NewRedisConnIns_options env e.2 t d o) = none) →
      (dbs.map Prod.fst).Nodup →
      (n, cfg) ∈ dbs → List.lookup n w.redispool.instances = none →
      ∃ id, List.lookup n (AddRedisInstancesArgs env dbs t d o w).2.redispool.instances =
        some { name := n,
               ins := { id := id, options := NewRedisConnIns_options env cfg t d o } } := by
  induction dbs with
  | nil => intro w n cfg _ _ hm; cases hm
  | cons e rest ih =>
    obtain ⟨db, cfg0⟩ := e
    intro w n cfg hall hnd hm h
    have hp0 := hall (db, cfg0) (List.mem_cons_self _ _)
    have hallr : ∀ e ∈ rest, newClientPanic env (NewRedisConnIns_options env e.2 t d o) = none :=
      fun e he => hall e (List.mem_cons_of_mem _ he)
    simp only [List.map_cons, List.nodup_cons] at hnd
    rcases List.mem_cons.1 hm with heq | hin
    · obtain ⟨h1, h2⟩ := Prod.mk.inj heq
      subst h1; subst h2
      have hf : HasRedisInstance n w = false := (Has_eq_false_iff _ _).2 h
      rw [AddRedisInstancesArgs_cons_fresh env n cfg rest t d o w hp0 hf]
      refine ⟨w.clients, ?_⟩
      apply batch_keeps
      simp [List.lookup]
    · have hne : n ≠ db := by
        intro hEq
        apply hnd.1
        rw [← hEq]
        exact List.mem_map_of_mem Prod.fst hin
      have hb : (n == db) = false := by simpa using hne
      by_cases hd : HasRedisInstance db w = true
      · rw [AddRedisInstancesArgs_cons_dup env db cfg0 rest t d o w hp0 hd]
        exact ih _ n cfg hallr hnd.2 hin h
      · have hf : HasRedisInstance db w = false := by simpa using hd
        rw [AddRedisInstancesArgs_cons_fresh env db cfg0 rest t d o w hp0 hf]
        apply ih _ n cfg hallr hnd.2 hin
        simp [List.lookup, hb, h]

/-- When no entry of the batch makes `redis.NewUniversalClient` panic, the call returns, and
every entry reaches `Add`: one client is made per entry, and each entry either registers
an instance or has its error logged. -/
theorem batch_every_entry_reaches_Add (env : Env) (t : Option TLSConfig)
    (d : Option DialerFunc) (o : Option OnConnectFunc) (dbs : List (String × Cfg)) :
    ∀ (w : World),
      (∀ e ∈ dbs, newClientPanic env (NewRedisConnIns_options env e.2 t d o) = none) →
      (AddRedisInstancesArgs env dbs t d o w).1.2 = .returned () ∧
      (AddRedisInstancesArgs env dbs t d o w).1.1.length +
          (AddRedisInstancesArgs env dbs t d o w).2.redispool.size =
        w.redispool.size + dbs.length ∧
      (AddRedisInstancesArgs env dbs t d o w).2.clients = w.clients + dbs.length := by
  induction dbs with
  | nil => intro w _; simp [AddRedisInstancesArgs]
  | cons e rest ih =>
    obtain ⟨db, cfg⟩ := e
    intro w hall
    have hp0 := hall (db, cfg) (List.mem_cons_self _ _)
    have hallr : ∀ e ∈ rest, newClientPanic env (NewRedisConnIns_options env e.2 t d o) = none :=
      fun e he => hall e (List.mem_cons_of_mem _ he)
    by_cases hd : HasRedisInstance db w = true
    · rw [AddRedisInstancesArgs_cons_dup env db cfg rest t d o w hp0 hd]
      have := ih { redispool := w.redispool, clients := w.clients + 1 } hallr
      simp only [List.length_cons] at this ⊢
      refine ⟨this.1, ?_, ?_⟩ <;> omega
    · have hf : HasRedisInstance db w = false := by simpa using hd
      rw [AddRedisInstancesArgs_cons_fresh env db cfg rest t d o w hp0 hf]
      have := ih
        { redispool :=
            { instances :=
                (db, { name := db,
                       ins := { id := w.clients,
                                options := NewRedisConnIns_options env cfg t d o } }) ::
                  w.redispool.instances },
          clients := w.clients + 1 } hallr
      simp only [List.length_cons, DbPool.size] at this ⊢
      refine ⟨this.1, ?_, ?_⟩ <;> omega

/-- When no entry of the batch makes `redis.NewUniversalClient` panic, the batch registers
one instance for each key that was not registered, and warns once for each key that was. -/
theorem batch_counts (env : Env) (t : Option TLSConfig) (d : Option DialerFunc)
    (o : Option OnConnectFunc) (dbs : List (String × Cfg)) :
    ∀ (w : World),
      (∀ e ∈ dbs, newClientPanic env (NewRedisConnIns_options env e.2 t d o) = none) →
      (dbs.map Prod.fst).Nodup →
      (AddRedisInstancesArgs env dbs t d o w).2.redispool.size =
          w.redispool.size + (dbs.filter (fun e => !HasRedisInstance e.1 w)).length ∧
      (AddRedisInstancesArgs env dbs t d o w).1.1.length =
          (dbs.filter (fun e => HasRedisInstance e.1 w)).length := by
  induction dbs with
  | nil => intro w _ _; simp [AddRedisInstancesArgs]
  | cons e rest ih =>
    obtain ⟨db, cfg⟩ := e
    intro w hall hnd
    have hp0 := hall (db, cfg) (List.mem_cons_self _ _)
    have hallr : ∀ e ∈ rest, newClientPanic env (NewRedisConnIns_options env e.2 t d o) = none :=
      fun e he => hall e (List.mem_cons_of_mem _ he)
    simp only [List.map_cons, List.nodup_cons] at hnd
    by_cases hd : HasRedisInstance db w = true
    · rw [AddRedisInstancesArgs_cons_dup env db cfg rest t d o w hp0 hd]
      have := ih { redispool := w.redispool, clients := w.clients + 1 } hallr hnd.2
      simp only [HasRedisInstance] at this hd ⊢
      simp [List.filter, hd, this.1, this.2]
    · have hf : HasRedisInstance db w = false := by simpa using hd
      rw [AddRedisInstancesArgs_cons_fresh env db cfg rest t d o w hp0 hf]
      have key := ih
        { redispool :=
            { instances :=
                (db, { name := db,
                       ins := { id := w.clients,
                                options := NewRedisConnIns_options env cfg t d o } }) ::
                  w.redispool.instances },
          clients := w.clients + 1 } hallr hnd.2
      have hsame : ∀ e ∈ rest,
          DbPool.Has
            { instances :=
                (db, { name := db,
                       ins := { id := w.clients,
                                options := NewRedisConnIns_options env cfg t d o } }) ::
                  w.redispool.instances } e.1 = w.redispool.Has e.1 := by
        intro e he
        have hne : e.1 ≠ db := by
          intro hEq
          apply hnd.1
          rw [← hEq]
          exact List.mem_map_of_mem Prod.fst he
        have hb : (e.1 == db) = false := by simpa using hne
        simp [DbPool.Has, List.lookup, hb]
      have hfa : rest.filter (fun e => !HasRedisInstance e.1
            { redispool :=
                { instances :=
                    (db, { name := db,
                           ins := { id := w.clients,
                                    options := NewRedisConnIns_options env cfg t d o } }) ::
                      w.redispool.instances },
              clients := w.clients + 1 })
          = rest.filter (fun e => !HasRedisInstance e.1 w) := by
        apply List.filter_congr
        intro e he
        simp only [HasRedisInstance]
        rw [hsame e he]
      have hfb : rest.filter (fun e => HasRedisInstance e.1
            { redispool :=
                { instances :=
                    (db, { name := db,
                           ins := { id := w.clients,
                                    options := NewRedisConnIns_options env cfg t d o } }) ::
                      w.redispool.instances },
              clients := w.clients + 1 })
          = rest.filter (fun e => HasRedisInstance e.1 w) := by
        apply List.filter_congr
        intro e he
        simp only [HasRedisInstance]
        rw [hsame e he]
      rw [hfa, hfb] at key
      rw [key.1, key.2]
      simp only [HasRedisInstance] at hf ⊢
      simp [List.filter, hf, DbPool.size]
      omega

/-! ## Removal and call sequences -/

theorem RemoveRedisInstance_absent (env : Env) (db : String) (w : World)
    (h : HasRedisInstance db w = false) : RemoveRedisInstance env db w = w := by
  have hl : List.lookup db w.redispool.instances = none := (Has_eq_false_iff _ _).1 h
  simp [RemoveRedisInstance, DbPool.Remove, hl]

theorem lookup_RemoveRedisInstance (env : Env) (db k : String) (w : World) :
    List.lookup k (RemoveRedisInstance env db w).redispool.instances =
      if k = db then none else List.lookup k w.redispool.instances := by
  unfold RemoveRedisInstance DbPool.Remove
  cases hl : List.lookup db w.redispool.instances with
  | none =>
    by_cases hk : k = db
    · subst hk; simp [hl]
    · simp [hk]
  | some ins => simpa using lookup_filter_ne db k w.redispool.instances

theorem AddRedisInstanceWithRedisOptions_lookup (env : Env) (db : String)
    (option : UniversalOptions) (w : World) (n : String) (hne : n ≠ db) :
    List.lookup n (AddRedisInstanceWithRedisOptions env db option w).2.redispool.instances =
      List.lookup n w.redispool.instances := by
  have hb : (n == db) = false := by simpa using hne
  unfold AddRedisInstanceWithRedisOptions NewRedisConnInsWithRedisOption NewUniversalClient
    DbPool.Add
  cases newClientPanic env option with
  | some msg => rfl
  | none =>
    by_cases hd : w.redispool.Has db = true
    · simp [RedisConnIns.GetName, hd]
    · have hf : w.redispool.Has db = false := by simpa using hd
      simp [RedisConnIns.GetName, hf, List.lookup, hb]

theorem AddRedisInstanceArgs_lookup (env : Env) (db : String) (cfg : Cfg)
    (t : Option TLSConfig) (d : Option DialerFunc) (o : Option OnConnectFunc)
    (w : World) (n : String) (hne : n ≠ db) :
    List.lookup n (AddRedisInstanceArgs env db cfg t d o w).2.redispool.instances =
      List.lookup n w.redispool.instances := by
  have hb : (n == db) = false := by simpa using hne
  cases hp : newClientPanic env (NewRedisConnIns_options env cfg t d o) with
  | some msg => rw [AddRedisInstanceArgs_panic env db cfg t d o w msg hp]
  | none =>
    by_cases hd : HasRedisInstance db w = true
    · rw [AddRedisInstanceArgs_dup env db cfg t d o w hp hd]
    · have hf : HasRedisInstance db w = false := by simpa using hd
      rw [AddRedisInstanceArgs_fresh env db cfg t d o w hp hf]
      simp [List.lookup, hb]

/-- A call that does not add `name` leaves `name` unregistered. -/
theorem Call.run_keeps_absent (env : Env) (name : String) (c : Call) (w : World)
    (hc : c.adds name = false) (h : HasRedisInstance name w = false) :
    HasRedisInstance name (c.run env w) = false := by
  have hl : List.lookup name w.redispool.instances = none := (Has_eq_false_iff _ _).1 h
  apply (Has_eq_false_iff _ _).2
  cases c with
  | AddArgs db cfg t d o =>
    have hne : name ≠ db := by
      intro hEq; subst hEq; simp [Call.adds] at hc
    simp only [Call.run]
    rw [AddRedisInstanceArgs_lookup env db cfg t d o w name hne]
    exact hl
  | AddManyArgs dbs t d o =>
    have hnot : name ∉ dbs.map Prod.fst := by
      intro hm
      have : (dbs.map Prod.fst).contains name = true := by
        simpa using hm
      simp only [Call.adds] at hc
      rw [this] at hc
      cases hc
    simp only [Call.run]
    exact batch_adds_no_other env t d o dbs w name hl hnot
  | AddWithRedisOptions db option =>
    have hne : name ≠ db := by
      intro hEq; subst hEq; simp [Call.adds] at hc
    simp only [Call.run]
    rw [AddRedisInstanceWithRedisOptions_lookup env db option w name hne]
    exact hl
  | Remove db =>
    simp only [Call.run]
    rw [lookup_RemoveRedisInstance]
    split
    · rfl
    · exact hl

/-- A name that no call of a sequence adds is unregistered after the sequence. -/
theorem runCalls_keeps_absent (env : Env) (name : String) (calls : List Call) :
    ∀ (w : World), (∀ c ∈ calls, Call.adds name c = false) →
      HasRedisInstance name w = false →
      HasRedisInstance name (runCalls env calls w) = false := by
  induction calls with
  | nil => intro w _ h; exact h
  | cons c rest ih =>
    intro w hall h
    have h1 := Call.run_keeps_absent env name c w (hall c (List.mem_cons_self _ _)) h
    have := ih (c.run env w) (fun c' hc' => hall c' (List.mem_cons_of_mem _ hc')) h1
    simpa [runCalls] using this

theorem length_filter_split (p : String × Cfg → Bool) (l : List (String × Cfg)) :
    (l.filter p).length + (l.filter (fun e => !p e)).length = l.length := by
  induction l with
  | nil => rfl
  | cons e l ih =>
    by_cases hp : p e = true
    · simp [List.filter, hp]; omega
    · have hf : p e = false := by simpa using hp
      simp [List.filter, hf]; omega

/-! ## The resolved options, field by field -/

theorem assignPoolSize_eq (env : Env) (cfg : Cfg) (options : UniversalOptions) :
    assignPoolSize env cfg options =
      { options with PoolSize :=
          if cfgIndex cfg "poolSize" ≠ "" then wrapInt64 (ToInt (cfgIndex cfg "poolSize") * env.GOMAXPROCS)
          else options.PoolSize } := by
  unfold assignPoolSize
  split <;> rfl

theorem assignPoolTimeout_eq (env : Env) (cfg : Cfg) (options : UniversalOptions) :
    assignPoolTimeout env cfg options =
      { options with PoolTimeout :=
          if cfgIndex cfg "poolTimeout" ≠ "" then ToDuration env (cfgIndex cfg "poolTimeout")
          else options.PoolTimeout } := by
  unfold assignPoolTimeout
  split <;> rfl

theorem assignMinIdleConns_eq (cfg : Cfg) (options : UniversalOptions) :
    assignMinIdleConns cfg options =
      { options with MinIdleConns :=
          if cfgIndex cfg "minIdleConns" ≠ "" then ToInt (cfgIndex cfg "minIdleConns")
          else options.MinIdleConns } := by
  unfold assignMinIdleConns
  split <;> rfl

theorem assignMaxIdleConns_eq (cfg : Cfg) (options : UniversalOptions) :
    assignMaxIdleConns cfg options =
      { options with MaxIdleConns :=
          if cfgIndex cfg "maxIdleConns" ≠ "" then ToInt (cfgIndex cfg "maxIdleConns")
          else options.MaxIdleConns } := by
  unfold assignMaxIdleConns
  split <;> rfl

theorem assignConnMaxIdleTime_eq (env : Env) (cfg : Cfg) (options : UniversalOptions) :
    assignConnMaxIdleTime env cfg options =
      { options with ConnMaxIdleTime :=
          if cfgIndex cfg "connMaxIdleTime" ≠ "" then ToDuration env (cfgIndex cfg "connMaxIdleTime")
          else options.ConnMaxIdleTime } := by
  unfold assignConnMaxIdleTime
  split <;> rfl

theorem assignConnMaxLifetime_eq (env : Env) (cfg : Cfg) (options : UniversalOptions) :
    assignConnMaxLifetime env cfg options =
      { options with ConnMaxLifetime :=
          if cfgIndex cfg "connMaxLifetime" ≠ "" then ToDuration env (cfgIndex cfg "connMaxLifetime")
          else options.ConnMaxLifetime } := by
  unfold assignConnMaxLifetime
  split <;> rfl

theorem assignTLSConfig_eq (v : Option TLSConfig) (options : UniversalOptions) :
    assignTLSConfig v options =
      { options with TLSConfig := match v with
          | some x => some x
          | none => options.TLSConfig } := by
  cases v <;> rfl

theorem assignMaxRedirects_eq (cfg : Cfg) (options : UniversalOptions) :
    assignMaxRedirects cfg options =
      { options with MaxRedirects :=
          if cfgIndex cfg "maxRedirects" ≠ "" then ToInt (cfgIndex cfg "maxRedirects")
          else options.MaxRedirects } := by
  unfold assignMaxRedirects
  split <;> rfl

theorem assignReadOnly_eq (cfg : Cfg) (options : UniversalOptions) :
    assignReadOnly cfg options =
      { options with ReadOnly :=
          if cfgIndex cfg "readOnly" ≠ "" then ToBool (cfgIndex cfg "readOnly")
          else options.ReadOnly } := by
  unfold assignReadOnly
  split <;> rfl

theorem assignRouteByLatency_eq (cfg : Cfg) (options : UniversalOptions) :
    assignRouteByLatency cfg options =
      { options with RouteByLatency :=
          if cfgIndex cfg "routeByLatency" ≠ "" then ToBool (cfgIndex cfg "routeByLatency")
          else options.RouteByLatency } := by
  unfold assignRouteByLatency
  split <;> rfl

theorem assignRouteRandomly_eq (cfg : Cfg) (options : UniversalOptions) :
    assignRouteRandomly cfg options =
      { options with RouteRandomly :=
          if cfgIndex cfg "routeRandomly" ≠ "" then ToBool (cfgIndex cfg "routeRandomly")
          else options.RouteRandomly } := by
  unfold assignRouteRandomly
  split <;> rfl

theorem assignMasterName_eq (cfg : Cfg) (options : UniversalOptions) :
    assignMasterName cfg options =
      { options with MasterName :=
          if cfgIndex cfg "masterName" ≠ "" then ToString (cfgIndex cfg "masterName")
          else options.MasterName } := by
  unfold assignMasterName
  split <;> rfl

theorem assignProtocol_eq (cfg : Cfg) (options : UniversalOptions) :
    assignProtocol cfg options =
      { options with Protocol :=
          if cfgIndex cfg "protocol" ≠ "" then ToInt (cfgIndex cfg "protocol")
          else options.Protocol } := by
  unfold assignProtocol
  split <;> rfl

theorem assignSentinelUsername_eq (cfg : Cfg) (options : UniversalOptions) :
    assignSentinelUsername cfg options =
      { options with SentinelUsername :=
          if cfgIndex cfg "sentinelUsername" ≠ "" then ToString (cfgIndex cfg "sentinelUsername")
          else options.SentinelUsername } := by
  unfold assignSentinelUsername
  split <;> rfl

theorem assignSentinelPassword_eq (cfg : Cfg) (options : UniversalOptions) :
    assignSentinelPassword cfg options =
      { options with SentinelPassword :=
          if cfgIndex cfg "sentinelPassword" ≠ "" then ToString (cfgIndex cfg "sentinelPassword")
          else options.SentinelPassword } := by
  unfold assignSentinelPassword
  split <;> rfl

theorem assignDialer_eq (v : Option DialerFunc) (options : UniversalOptions) :
    assignDialer v options =
      { options with Dialer := match v with
          | some x => some x
          | none => options.Dialer } := by
  cases v <;> rfl

theorem assignOnConnect_eq (v : Option OnConnectFunc) (options : UniversalOptions) :
    assignOnConnect v options =
      { options with OnConnect := match v with
          | some x => some x
          | none => options.OnConnect } := by
  cases v <;> rfl

/-- The options `NewRedisConnIns` resolves, every field given by its own expression. -/
theorem NewRedisConnIns_options_eq (env : Env) (cfg : Cfg) (t : Option TLSConfig)
    (d : Option DialerFunc) (o : Option OnConnectFunc) :
    NewRedisConnIns_options env cfg t d o =
      { Addrs := Split (cfgIndex cfg "addr")
        ClientName := cfgIndex cfg "clientName"
        DB := ToInt (cfgIndex cfg "db")
        Dialer := d
        OnConnect := o
        Protocol := if cfgIndex cfg "protocol" ≠ "" then ToInt (cfgIndex cfg "protocol") else 0
        Username := cfgIndex cfg "username"
        Password := cfgIndex cfg "password"
        SentinelUsername :=
          if cfgIndex cfg "sentinelUsername" ≠ "" then cfgIndex cfg "sentinelUsername" else ""
        SentinelPassword :=
          if cfgIndex cfg "sentinelPassword" ≠ "" then cfgIndex cfg "sentinelPassword" else ""
        MaxRetries := intValue cfg "maxRetries" 3
        MinRetryBackoff := durationValue env cfg "minRetryBackoff" (8 * Millisecond)
        MaxRetryBackoff := durationValue env cfg "maxRetryBackoff" (512 * Millisecond)
        DialTimeout := durationValue env cfg "dialTimeout" (5 * Second)
        ReadTimeout := durationValue env cfg "readTimeout" (3 * Second)
        WriteTimeout := durationValue env cfg "writeTimeout" (3 * Second)
        ContextTimeoutEnabled := ToBool (cfgIndex cfg "contextTimeoutEnabled")
        PoolFIFO := ToBool (cfgIndex cfg "poolFIFO")
        PoolSize :=
          if cfgIndex cfg "poolSize" ≠ "" then
            wrapInt64 (ToInt (cfgIndex cfg "poolSize") * env.GOMAXPROCS)
          else 0
        PoolTimeout :=
          if cfgIndex cfg "poolTimeout" ≠ "" then ToDuration env (cfgIndex cfg "poolTimeout")
          else 0
        MinIdleConns :=
          if cfgIndex cfg "minIdleConns" ≠ "" then ToInt (cfgIndex cfg "minIdleConns") else 0
        MaxIdleConns :=
          if cfgIndex cfg "maxIdleConns" ≠ "" then ToInt (cfgIndex cfg "maxIdleConns") else 0
        ConnMaxIdleTime :=
          if cfgIndex cfg "connMaxIdleTime" ≠ "" then
            ToDuration env (cfgIndex cfg "connMaxIdleTime")
          else 0
        ConnMaxLifetime :=
          if cfgIndex cfg "connMaxLifetime" ≠ "" then
            ToDuration env (cfgIndex cfg "connMaxLifetime")
          else 0
        TLSConfig := t
        MaxRedirects :=
          if cfgIndex cfg "maxRedirects" ≠ "" then ToInt (cfgIndex cfg "maxRedirects") else 0
        ReadOnly := if cfgIndex cfg "readOnly" ≠ "" then ToBool (cfgIndex cfg "readOnly") else false
        RouteByLatency :=
          if cfgIndex cfg "routeByLatency" ≠ "" then ToBool (cfgIndex cfg "routeByLatency")
          else false
        RouteRandomly :=
          if cfgIndex cfg "routeRandomly" ≠ "" then ToBool (cfgIndex cfg "routeRandomly")
          else false
        MasterName := if cfgIndex cfg "masterName" ≠ "" then cfgIndex cfg "masterName" else "" } := by
  unfold NewRedisConnIns_options
  simp only [assignPoolSize_eq, assignPoolTimeout_eq, assignMinIdleConns_eq, assignMaxIdleConns_eq, assignConnMaxIdleTime_eq, assignConnMaxLifetime_eq,
    assignTLSConfig_eq, assignMaxRedirects_eq, assignReadOnly_eq, assignRouteByLatency_eq, assignRouteRandomly_eq, assignMasterName_eq,
    assignProtocol_eq, assignSentinelUsername_eq, assignSentinelPassword_eq, assignDialer_eq, assignOnConnect_eq, ToString]
  cases t <;> cases d <;> cases o <;> rfl

/-! ## `cast.ToInt` reads back the decimal text of an `int` -/

theorem digitChar_toNat (m : Nat) (hm : m < 10) : (Nat.digitChar m).toNat = 48 + m := by
  interval_cases m <;> rfl

theorem digitChar_ne_underscore (m : Nat) (hm : m < 10) : Nat.digitChar m ≠ '_' := by
  interval_cases m <;> decide

theorem parseUintLoop_digit (m a : Nat) (cs : List Char) (u : Bool) (hm : m < 10)
    (ha : a * 10 + m < 2 ^ 64) :
    parseUintLoop 10 true (Nat.digitChar m :: cs) a u = parseUintLoop 10 true cs (a * 10 + m) u := by
  have hc := digitChar_toNat m hm
  have hu := digitChar_ne_underscore m hm
  have h1 : 48 ≤ (Nat.digitChar m).toNat ∧ (Nat.digitChar m).toNat ≤ 57 := by omega
  have h2 : (Nat.digitChar m).toNat - 48 = m := by omega
  have h3 : ¬ (a ≥ (2 ^ 64 - 1) / 10 + 1) := by
    norm_num at ha ⊢
    omega
  have h4 : (a * 10 + m) % 2 ^ 64 = a * 10 + m := Nat.mod_eq_of_lt ha
  have h5 : ¬ (a * 10 + m < a * 10 ∨ a * 10 + m > 2 ^ 64 - 1) := by
    norm_num at ha ⊢
    omega
  rw [parseUintLoop]
  simp only [hu, false_and, if_false, h1, and_self, if_true, h2, h4]
  rw [if_neg (by omega), if_neg h3, if_neg h5]

theorem parseUintLoop_toDigitsCore (fuel : Nat) :
    ∀ (n : Nat) (ds : List Char) (u : Bool), n < fuel → n < 2 ^ 64 →
      parseUintLoop 10 true (Nat.toDigitsCore 10 fuel n ds) 0 u =
        parseUintLoop 10 true ds n u := by
  induction fuel with
  | zero => intro n ds u h; omega
  | succ fuel ih =>
    intro n ds u hf hn
    rw [Nat.toDigitsCore]
    by_cases h0 : n / 10 = 0
    · simp only [h0, if_true]
      have hlt : n < 10 := by omega
      have hmod : n % 10 = n := Nat.mod_eq_of_lt hlt
      rw [hmod, parseUintLoop_digit n 0 ds u hlt (by omega)]
      simp
    · simp only [h0, if_false]
      rw [ih (n / 10) _ u (by omega) (by omega)]
      rw [parseUintLoop_digit (n % 10) (n / 10) ds u (Nat.mod_lt _ (by decide)) (by omega)]
      congr 1
      omega

theorem toDigitsCore_head (fuel : Nat) :
    ∀ (n : Nat) (ds : List Char), 0 < n → n < fuel →
      ∃ c rest, Nat.toDigitsCore 10 fuel n ds = c :: rest ∧ 49 ≤ c.toNat ∧ c.toNat ≤ 57 := by
  induction fuel with
  | zero => intro n ds _ h; omega
  | succ fuel ih =>
    intro n ds hpos hf
    rw [Nat.toDigitsCore]
    by_cases h0 : n / 10 = 0
    · simp only [h0, if_true]
      have hlt : n < 10 := by omega
      have hmod : n % 10 = n := Nat.mod_eq_of_lt hlt
      have hc := digitChar_toNat n hlt
      exact ⟨_, _, rfl, by rw [hmod]; omega, by rw [hmod]; omega⟩
    · simp only [h0, if_false]
      exact ih (n / 10) _ (by omega) (by omega)

theorem toDigitsCore_mem (fuel : Nat) :
    ∀ (n : Nat) (ds : List Char) (c : Char), c ∈ Nat.toDigitsCore 10 fuel n ds →
      c ∈ ds ∨ (48 ≤ c.toNat ∧ c.toNat ≤ 57) := by
  induction fuel with
  | zero => intro n ds c h; exact Or.inl (by simpa [Nat.toDigitsCore] using h)
  | succ fuel ih =>
    intro n ds c h
    rw [Nat.toDigitsCore] at h
    have hd := digitChar_toNat (n % 10) (Nat.mod_lt _ (by decide))
    by_cases h0 : n / 10 = 0
    · simp only [h0, if_true] at h
      rcases List.mem_cons.1 h with h1 | h1
      · right; rw [h1]; omega
      · exact Or.inl h1
    · simp only [h0, if_false] at h
      rcases ih _ _ c h with h1 | h1
      · rcases List.mem_cons.1 h1 with h2 | h2
        · right; rw [h2]; omega
        · exact Or.inl h2
      · exact Or.inr h1

theorem toDigits_digits (n : Nat) (c : Char) (h : c ∈ Nat.toDigits 10 n) :
    48 ≤ c.toNat ∧ c.toNat ≤ 57 := by
  rcases toDigitsCore_mem (n + 1) n [] c h with h1 | h1
  · cases h1
  · exact h1

theorem trimZeroDecimalRev_no_point (orig : List Char) :
    ∀ (l : List Char) (foundZero : Bool), (∀ c ∈ l, c ≠ '.') →
      trimZeroDecimalRev orig l foundZero = orig := by
  intro l
  induction l with
  | nil => intro _ _; rfl
  | cons c l ih =>
    intro fz h
    have hc : c ≠ '.' := h c (List.mem_cons_self _ _)
    rw [trimZeroDecimalRev]
    simp only [hc, if_false]
    split
    · exact ih true (fun c' hc' => h c' (List.mem_cons_of_mem _ hc'))
    · rfl

theorem trimZeroDecimal_no_point (s : List Char) (h : ∀ c ∈ s, c ≠ '.') :
    trimZeroDecimal s = s :=
  trimZeroDecimalRev_no_point s s.reverse false (fun c hc => h c (List.mem_reverse.1 hc))

theorem ParseUint_toDigits (n : Nat) (hn : n < 2 ^ 64) :
    ParseUint (Nat.toDigits 10 n) = (n, none) := by
  by_cases h0 : n = 0
  · subst h0; rfl
  · obtain ⟨c, rest, hcr, hlo, hhi⟩ := toDigitsCore_head (n + 1) n [] (by omega) (by omega)
    have hloop := parseUintLoop_toDigitsCore (n + 1) n [] false (by omega) hn
    have hne : c ≠ '0' := by
      intro hEq
      rw [hEq] at hlo
      revert hlo
      decide
    unfold Nat.toDigits
    rw [hcr] at hloop ⊢
    unfold ParseUint
    simp only [hne, if_false]
    rw [hloop]
    simp [parseUintLoop]

theorem ParseInt_toDigits (n : Nat) (hn : n < 2 ^ 63) :
    ParseInt (Nat.toDigits 10 n) = ((n : Int), none) := by
  have hu := ParseUint_toDigits n (by omega)
  have hne : Nat.toDigits 10 n ≠ [] := by
    intro hnil
    rw [hnil] at hu
    cases hu
  obtain ⟨c, rest, hcr⟩ := List.exists_cons_of_ne_nil hne
  have hdig := toDigits_digits n c (by rw [hcr]; exact List.mem_cons_self _ _)
  have hplus : c ≠ '+' := by
    intro hEq; rw [hEq] at hdig; revert hdig; decide
  have hminus : c ≠ '-' := by
    intro hEq; rw [hEq] at hdig; revert hdig; decide
  rw [hcr] at hu ⊢
  rw [ParseInt]
  simp only [hplus, hminus, if_false, hu, decide_False]
  have h63 : n < 9223372036854775808 := by
    norm_num at hn
    exact hn
  simp [h63]

theorem ParseInt_neg_toDigits (n : Nat) (hpos : 0 < n) (hn : n ≤ 2 ^ 63) :
    ParseInt ('-' :: Nat.toDigits 10 n) = (-(n : Int), none) := by
  have hu := ParseUint_toDigits n (by omega)
  rw [ParseInt]
  have hpm : ('-' : Char) ≠ '+' := by decide
  simp only [hpm, if_false, if_true, hu, decide_True]
  have h63 : n ≤ 9223372036854775808 := by
    norm_num at hn
    exact hn
  simp [h63]

/-- For an integer `p` of the range of Go `int`, `cast.ToInt` reads the decimal text of `p`
back as `p`. -/
theorem ToInt_toString (p : Int) (hlo : -2 ^ 63 ≤ p) (hhi : p < 2 ^ 63) :
    ToInt (toString p) = p := by
  cases p with
  | ofNat n =>
    have hn : n < 2 ^ 63 := by
      have : (n : Int) < 2 ^ 63 := hhi
      exact_mod_cast this
    have hdata : (toString (Int.ofNat n)).data = Nat.toDigits 10 n := rfl
    have htrim := trimZeroDecimal_no_point (Nat.toDigits 10 n) (by
      intro c hc hEq
      have := toDigits_digits n c hc
      rw [hEq] at this
      revert this
      decide)
    unfold ToInt
    rw [hdata, htrim, ParseInt_toDigits n hn]
    rfl
  | negSucc m =>
    have hn : m + 1 ≤ 2 ^ 63 := by
      have h1 : -(2 : Int) ^ 63 ≤ Int.negSucc m := hlo
      rw [Int.negSucc_eq] at h1
      have h2 : ((m : Int) + 1) ≤ 2 ^ 63 := by linarith
      exact_mod_cast h2
    have hdata : (toString (Int.negSucc m)).data = '-' :: Nat.toDigits 10 (m + 1) := by
      show ("-" ++ toString (m + 1)).data = _
      rw [String.data_append]
      rfl
    have htrim := trimZeroDecimal_no_point ('-' :: Nat.toDigits 10 (m + 1)) (by
      intro c hc hEq
      rcases List.mem_cons.1 hc with h1 | h1
      · rw [hEq] at h1
        revert h1
        decide
      · have := toDigits_digits (m + 1) c h1
        rw [hEq] at this
        revert this
        decide)
    unfold ToInt
    rw [hdata, htrim, ParseInt_neg_toDigits (m + 1) (by omega) hn]
    simp only [Int.negSucc_eq]
    push_cast
    rfl

theorem wrapInt64_of_range (x : Int) (hlo : -2 ^ 63 ≤ x) (hhi : x < 2 ^ 63) :
    wrapInt64 x = x := by
  unfold wrapInt64
  norm_num at hlo hhi ⊢
  omega

theorem toString_int_ne_empty (p : Int) : toString p ≠ "" := by
  intro h
  have hd : (toString p).data = [] := by rw [h]
  cases p with
  | ofNat n =>
    have hdata : (toString (Int.ofNat n)).data = Nat.toDigitsCore 10 (n + 1) n [] := rfl
    rw [hdata, Nat.toDigitsCore] at hd
    split at hd
    · cases hd
    · have hlen := Nat.toDigitsCore_lens_eq 10 n (n / 10) (Nat.digitChar (n % 10)) []
      rw [hd] at hlen
      simp at hlen
  | negSucc m =>
    have hdata : (toString (Int.negSucc m)).data = '-' :: Nat.toDigits 10 (m + 1) := by
      show ("-" ++ toString (m + 1)).data = _
      rw [String.data_append]
      rfl
    rw [hdata] at hd
    cases hd

/-! ## `strings.Split` at commas -/

theorem splitComma_ne_nil (cs : List Char) : ∃ p ps, splitComma cs = p :: ps := by
  induction cs with
  | nil => exact ⟨[], [], rfl⟩
  | cons c cs ih =>
    obtain ⟨p, ps, h⟩ := ih
    by_cases hc : c = ','
    · exact ⟨[], splitComma cs, by simp [splitComma, hc]⟩
    · exact ⟨c :: p, ps, by simp [splitComma, hc, h]⟩

theorem splitComma_comma (cs : List Char) : splitComma (',' :: cs) = [] :: splitComma cs := by
  simp [splitComma]

theorem splitComma_other (c : Char) (cs p : List Char) (ps : List (List Char)) (hc : c ≠ ',')
    (h : splitComma cs = p :: ps) : splitComma (c :: cs) = (c :: p) :: ps := by
  simp [splitComma, hc, h]

theorem splitComma_length (cs : List Char) :
    (splitComma cs).length = cs.count ',' + 1 := by
  induction cs with
  | nil => rfl
  | cons c cs ih =>
    obtain ⟨p, ps, h⟩ := splitComma_ne_nil cs
    by_cases hc : c = ','
    · subst hc
      rw [splitComma_comma, List.length_cons, ih, List.count_cons_self]
    · rw [splitComma_other c cs p ps hc h, List.count_cons_of_ne (Ne.symm hc), ← ih, h]
      rfl

theorem splitComma_get (cs : List Char) :
    ∀ i, i ≤ cs.count ',' → (splitComma cs)[i]? = some (segment cs i) := by
  induction cs with
  | nil =>
    intro i hi
    have : i = 0 := by simpa using hi
    subst this
    rfl
  | cons c cs ih =>
    intro i hi
    obtain ⟨p, ps, h⟩ := splitComma_ne_nil cs
    by_cases hc : c = ','
    · subst hc
      rw [splitComma_comma]
      rw [List.count_cons_self] at hi
      cases i with
      | zero => simp [segment]
      | succ j =>
        simp only [List.getElem?_cons_succ, segment, if_true]
        exact ih j (by omega)
    · rw [splitComma_other c cs p ps hc h]
      rw [List.count_cons_of_ne (Ne.symm hc)] at hi
      cases i with
      | zero =>
        have h0 := ih 0 (Nat.zero_le _)
        rw [h] at h0
        simp only [List.getElem?_cons_zero, Option.some.injEq] at h0
        simp [segment, hc, h0]
      | succ j =>
        have hj := ih (j + 1) hi
        rw [h] at hj
        simp only [List.getElem?_cons_succ] at hj ⊢
        simp only [segment, hc, if_false]
        exact hj

theorem splitComma_no_comma (cs : List Char) : ∀ p ∈ splitComma cs, ',' ∉ p := by
  induction cs with
  | nil => intro p hp; simp [splitComma] at hp; subst hp; simp
  | cons c cs ih =>
    obtain ⟨q, qs, h⟩ := splitComma_ne_nil cs
    intro p hp
    by_cases hc : c = ','
    · subst hc
      rw [splitComma_comma] at hp
      rcases List.mem_cons.1 hp with h1 | h1
      · subst h1; simp
      · exact ih p h1
    · rw [splitComma_other c cs q qs hc h] at hp
      rcases List.mem_cons.1 hp with h1 | h1
      · subst h1
        have hq := ih q (by rw [h]; exact List.mem_cons_self _ _)
        intro hm
        rcases List.mem_cons.1 hm with h2 | h2
        · exact hc h2.symm
        · exact hq h2
      · exact ih p (by rw [h]; exact List.mem_cons_of_mem _ h1)

theorem intercalate_go_splitComma (cs : List Char) :
    ∀ (a p : List Char) (ps : List (List Char)), splitComma cs = p :: ps →
      String.intercalate.go (String.mk (a ++ p)) "," (ps.map String.mk) =
        String.mk (a ++ cs) := by
  induction cs with
  | nil =>
    intro a p ps h
    simp only [splitComma, List.cons.injEq] at h
    obtain ⟨h1, h2⟩ := h
    subst h1; subst h2
    rfl
  | cons c cs ih =>
    intro a p ps h
    obtain ⟨q, qs, hq⟩ := splitComma_ne_nil cs
    by_cases hc : c = ','
    · subst hc
      rw [splitComma_comma, hq] at h
      simp only [List.cons.injEq] at h
      obtain ⟨h1, h2⟩ := h
      subst h1; subst h2
      simp only [List.map_cons, String.intercalate.go, List.append_nil]
      have := ih (a ++ [',']) q qs hq
      simp only [List.append_assoc, List.singleton_append] at this
      rw [← this]
      congr 1
      apply String.ext
      simp
    · rw [splitComma_other c cs q qs hc hq] at h
      simp only [List.cons.injEq] at h
      obtain ⟨h1, h2⟩ := h
      subst h1; subst h2
      have := ih (a ++ [c]) q qs hq
      simp only [List.append_assoc, List.singleton_append] at this
      exact this

theorem intercalate_Split (s : String) : ",".intercalate (Split s) = s := by
  obtain ⟨p, ps, h⟩ := splitComma_ne_nil s.data
  unfold Split
  rw [h]
  simp only [List.map_cons, String.intercalate]
  have := intercalate_go_splitComma s.data [] p ps h
  simpa using this

theorem Split_length (s : String) : (Split s).length = s.data.count ',' + 1 := by
  unfold Split
  rw [List.length_map, splitComma_length]

theorem Split_get (s : String) (i : Nat) (hi : i ≤ s.data.count ',') :
    (Split s)[i]? = some (String.mk (segment s.data i)) := by
  unfold Split
  rw [List.getElem?_map, splitComma_get s.data i hi]
  rfl

theorem Split_no_comma (s : String) : ∀ a ∈ Split s, ',' ∉ a.data := by
  intro a ha
  unfold Split at ha
  obtain ⟨p, hp, hpa⟩ := List.mem_map.1 ha
  subst hpa
  exact splitComma_no_comma s.data p hp

/-! ## Maps that agree on the keys that are read -/

theorem cfgLookup_cfgSet (cfg : Cfg) (k v key : String) :
    cfgLookup (cfgSet cfg k v) key = if key = k then some v else cfgLookup cfg key := by
  unfold cfgLookup cfgSet
  by_cases h : key = k
  · subst h; simp [List.lookup]
  · have hb : (key == k) = false := by simpa using h
    simp [List.lookup, hb, h]

theorem cfgLookup_cfgDelete (cfg : Cfg) (k key : String) :
    cfgLookup (cfgDelete cfg k) key = if key = k then none else cfgLookup cfg key := by
  unfold cfgLookup cfgDelete
  induction cfg with
  | nil => simp
  | cons e l ih =>
    obtain ⟨a, x⟩ := e
    by_cases ha : a = k
    · subst ha
      by_cases hk : key = a
      · subst hk
        simp [List.filter, ih]
      · have hka : (key == a) = false := by simpa using hk
        simp [List.filter, ih, List.lookup, hk, hka]
    · have hne : (a != k) = true := by simpa using ha
      by_cases hk : key = a
      · subst hk
        simp [List.filter, hne, List.lookup, ha]
      · have hka : (key == a) = false := by simpa using hk
        simp [List.filter, hne, List.lookup, hka, ih]

theorem cfgIndex_of_lookup_eq (cfg1 cfg2 : Cfg) (key : String)
    (h : cfgLookup cfg1 key = cfgLookup cfg2 key) : cfgIndex cfg1 key = cfgIndex cfg2 key := by
  unfold cfgIndex
  rw [h]

/-- Two maps that give the same plain reads on the keys read plainly or behind a guard, and
the same comma-ok reads on the keys read with the comma-ok form, resolve to the same
options. -/
theorem NewRedisConnIns_options_congr (env : Env) (cfg1 cfg2 : Cfg) (t : Option TLSConfig)
    (d : Option DialerFunc) (o : Option OnConnectFunc)
    (hidx : ∀ key ∈ plainKeys ++ guardedKeys, cfgIndex cfg1 key = cfgIndex cfg2 key)
    (hpres : ∀ key ∈ presenceKeys, cfgLookup cfg1 key = cfgLookup cfg2 key) :
    NewRedisConnIns_options env cfg1 t d o = NewRedisConnIns_options env cfg2 t d o := by
  have a1 := hidx "addr" (by decide)
  have a2 := hidx "clientName" (by decide)
  have a3 := hidx "db" (by decide)
  have a4 := hidx "username" (by decide)
  have a5 := hidx "password" (by decide)
  have a6 := hidx "contextTimeoutEnabled" (by decide)
  have a7 := hidx "poolFIFO" (by decide)
  have g1 := hidx "poolSize" (by decide)
  have g2 := hidx "poolTimeout" (by decide)
  have g3 := hidx "minIdleConns" (by decide)
  have g4 := hidx "maxIdleConns" (by decide)
  have g5 := hidx "connMaxIdleTime" (by decide)
  have g6 := hidx "connMaxLifetime" (by decide)
  have g7 := hidx "maxRedirects" (by decide)
  have g8 := hidx "readOnly" (by decide)
  have g9 := hidx "routeByLatency" (by decide)
  have g10 := hidx "routeRandomly" (by decide)
  have g11 := hidx "masterName" (by decide)
  have g12 := hidx "protocol" (by decide)
  have g13 := hidx "sentinelUsername" (by decide)
  have g14 := hidx "sentinelPassword" (by decide)
  have p1 := hpres "maxRetries" (by decide)
  have p2 := hpres "minRetryBackoff" (by decide)
  have p3 := hpres "maxRetryBackoff" (by decide)
  have p4 := hpres "dialTimeout" (by decide)
  have p5 := hpres "readTimeout" (by decide)
  have p6 := hpres "writeTimeout" (by decide)
  rw [NewRedisConnIns_options_eq, NewRedisConnIns_options_eq]
  simp only [intValue, durationValue, a1, a2, a3, a4, a5, a6, a7, g1, g2, g3, g4, g5, g6, g7,
    g8, g9, g10, g11, g12, g13, g14, p1, p2, p3, p4, p5, p6]

theorem mem_recognizedKeys_of_plain_or_guarded (key : String)
    (h : key ∈ plainKeys ++ guardedKeys) : key ∈ recognizedKeys := by
  unfold recognizedKeys
  simp only [List.mem_append] at h ⊢
  rcases h with h | h
  · exact Or.inl (Or.inl h)
  · exact Or.inr h

theorem mem_recognizedKeys_of_presence (key : String) (h : key ∈ presenceKeys) :
    key ∈ recognizedKeys := by
  unfold recognizedKeys
  simp only [List.mem_append]
  exact Or.inl (Or.inr h)

theorem ToInt_eq_ToIntE (s : String) : ToInt s = (ToIntE s).getD 0 := by
  unfold ToInt ToIntE
  split <;> rfl

theorem ToDuration_eq_ToDurationE (env : Env) (s : String) :
    ToDuration env s = (ToDurationE env s).getD 0 := by
  unfold ToDuration ToDurationE
  simp only []
  split
  · rename_i heq
    rw [heq]
    rfl
  · rename_i heq
    rw [heq]
    rfl

/-! ## `cast.ToDuration` reads a decimal text without unit as nanoseconds -/

theorem leadingInt_digit (m a : Nat) (cs : List Char) (hm : m < 10)
    (ha : a * 10 + m ≤ 2 ^ 63) :
    leadingInt (Nat.digitChar m :: cs) a = leadingInt cs (a * 10 + m) := by
  have hc := digitChar_toNat m hm
  have h1 : ¬ ((Nat.digitChar m).toNat < 48 ∨ (Nat.digitChar m).toNat > 57) := by omega
  have h2 : ¬ (a > 2 ^ 63 / 10) := by
    norm_num at ha ⊢
    omega
  have h3 : a * 10 + (Nat.digitChar m).toNat - 48 = a * 10 + m := by omega
  have h4 : ¬ (a * 10 + m > 2 ^ 63) := by omega
  rw [leadingInt]
  simp only [h1, if_false, h2, h3, h4]

theorem leadingInt_toDigitsCore (fuel : Nat) :
    ∀ (n : Nat) (ds : List Char), n < fuel → n ≤ 2 ^ 63 →
      leadingInt (Nat.toDigitsCore 10 fuel n ds) 0 = leadingInt ds n := by
  induction fuel with
  | zero => intro n ds h; omega
  | succ fuel ih =>
    intro n ds hf hn
    rw [Nat.toDigitsCore]
    by_cases h0 : n / 10 = 0
    · simp only [h0, if_true]
      have hlt : n < 10 := by omega
      have hmod : n % 10 = n := Nat.mod_eq_of_lt hlt
      rw [hmod, leadingInt_digit n 0 ds hlt (by omega)]
      simp
    · simp only [h0, if_false]
      rw [ih (n / 10) _ (by omega) (by omega)]
      rw [leadingInt_digit (n % 10) (n / 10) ds (Nat.mod_lt _ (by decide)) (by omega)]
      congr 1
      omega

theorem toDigitsCore_append (fuel : Nat) :
    ∀ (n : Nat) (ds : List Char),
      Nat.toDigitsCore 10 fuel n ds = Nat.toDigitsCore 10 fuel n [] ++ ds := by
  induction fuel with
  | zero => intro n ds; simp [Nat.toDigitsCore]
  | succ fuel ih =>
    intro n ds
    rw [Nat.toDigitsCore, Nat.toDigitsCore]
    by_cases h0 : n / 10 = 0
    · simp [h0]
    · simp only [h0, if_false]
      rw [ih (n / 10) (Nat.digitChar (n % 10) :: ds), ih (n / 10) [Nat.digitChar (n % 10)]]
      simp

theorem toDigits_ne_nil (n : Nat) : Nat.toDigits 10 n ≠ [] := by
  unfold Nat.toDigits
  rw [Nat.toDigitsCore]
  split
  · simp
  · rw [toDigitsCore_append]
    simp

/-- One round of the duration loop on the digits of `n` followed by the unit `ns`. -/
theorem parseDurationTerm_digits_ns (env : Env) (n : Nat) (hn : n ≤ 2 ^ 63) :
    parseDurationTerm env (Nat.toDigits 10 n ++ ['n', 's']) 0 = some ([], n) := by
  have hli : leadingInt (Nat.toDigits 10 n ++ ['n', 's']) 0 = (n, ['n', 's'], false) := by
    unfold Nat.toDigits
    rw [← toDigitsCore_append (n + 1) n ['n', 's'],
      leadingInt_toDigitsCore (n + 1) n ['n', 's'] (by omega) hn]
    rfl
  have hne := toDigits_ne_nil n
  obtain ⟨c, rest, hcr⟩ := List.exists_cons_of_ne_nil hne
  have hdig := toDigits_digits n c (by rw [hcr]; exact List.mem_cons_self _ _)
  rw [hcr] at hli ⊢
  have hfirst : (c = '.' ∨ (48 ≤ c.toNat ∧ c.toNat ≤ 57)) := Or.inr hdig
  have hfr : fractionPart ['n', 's'] = (0, 0, ['n', 's'], false) := rfl
  have hsp : spanUnit ['n', 's'] = (['n', 's'], []) := by decide
  have hum : unitMap ['n', 's'] = some 1 := by decide
  have hv : ¬ (n > 2 ^ 63 / 1) := by
    norm_num at hn ⊢
    omega
  have hmod : (0 + n * 1) % 2 ^ 64 = n := by
    rw [Nat.zero_add, Nat.mul_one]
    apply Nat.mod_eq_of_lt
    norm_num at hn ⊢
    omega
  have hd1 : ¬ (n > 2 ^ 63) := by omega
  simp only [List.cons_append] at hli ⊢
  unfold parseDurationTerm
  simp only [hfirst, not_true_eq_false, if_false, hli, hfr, hsp, hum, hv, hmod, hd1,
    List.length_cons, List.length_append, List.length_nil]
  simp

theorem parseDurationLoop_digits_ns (env : Env) (n : Nat) (hn : n ≤ 2 ^ 63) :
    parseDurationLoop env (Nat.toDigits 10 n ++ ['n', 's']).length
      (Nat.toDigits 10 n ++ ['n', 's']) 0 = some n := by
  have hterm := parseDurationTerm_digits_ns env n hn
  have hne : Nat.toDigits 10 n ++ ['n', 's'] ≠ [] := by simp
  obtain ⟨c, rest, hcr⟩ := List.exists_cons_of_ne_nil hne
  rw [hcr] at hterm ⊢
  rw [List.length_cons, parseDurationLoop, hterm]
  simp only []
  cases rest.length <;> rfl

theorem ParseDuration_digits_ns (env : Env) (n : Nat) (hn : n < 2 ^ 63) :
    ParseDuration env (String.mk (Nat.toDigits 10 n ++ ['n', 's'])) = some (n : Int) := by
  have hloop := parseDurationLoop_digits_ns env n (by omega)
  obtain ⟨c, rest, hcr⟩ := List.exists_cons_of_ne_nil (toDigits_ne_nil n)
  have hdig := toDigits_digits n c (by rw [hcr]; exact List.mem_cons_self _ _)
  have hminus : c ≠ '-' := by
    intro hEq; rw [hEq] at hdig; revert hdig; decide
  have hplus : c ≠ '+' := by
    intro hEq; rw [hEq] at hdig; revert hdig; decide
  rw [hcr] at hloop ⊢
  simp only [List.cons_append] at hloop ⊢
  have hzero : (c :: (rest ++ ['n', 's'])) ≠ ['0'] := by
    intro hEq
    have := congrArg List.length hEq
    simp at this
  have hbig : n ≤ 9223372036854775807 := by
    norm_num at hn
    omega
  unfold ParseDuration
  simp only [hminus, hplus, or_self, if_false, hzero, decide_False, hloop]
  simp [hbig]

theorem ParseDuration_minus_digits_ns (env : Env) (n : Nat) (hpos : 0 < n) (hn : n ≤ 2 ^ 63) :
    ParseDuration env (String.mk ('-' :: (Nat.toDigits 10 n ++ ['n', 's']))) =
      some (-(n : Int)) := by
  have hloop := parseDurationLoop_digits_ns env n hn
  have hzero : (Nat.toDigits 10 n ++ ['n', 's']) ≠ ['0'] := by
    intro hEq
    have hl := congrArg List.length hEq
    have hne := List.length_pos.2 (toDigits_ne_nil n)
    simp at hl
  have hnil : (Nat.toDigits 10 n ++ ['n', 's']) ≠ [] := by simp
  have hwrap : wrapInt64 (-(n : Int)) = -(n : Int) := by
    apply wrapInt64_of_range
    · have : (n : Int) ≤ 2 ^ 63 := by exact_mod_cast hn
      linarith
    · have : (0 : Int) < n := by exact_mod_cast hpos
      have h2 : (0 : Int) < 2 ^ 63 := by norm_num
      linarith
  unfold ParseDuration
  simp only [true_or, if_true, hzero, if_false, hnil, hloop, decide_True, hwrap]

theorem unit_char_test_false (c : Char)
    (h : (48 ≤ c.toNat ∧ c.toNat ≤ 57) ∨ c = '-') :
    decide (c = 'n' ∨ c = 's' ∨ c = 'u' ∨ c = Char.ofNat 0xB5 ∨ c = 'm' ∨ c = 'h') = false := by
  rw [decide_eq_false_iff_not]
  intro hc
  rcases hc with hc | hc | hc | hc | hc | hc <;>
    (subst hc; revert h; decide)

/-- For an integer `p` of the range of `time.Duration`, `cast.ToDuration` reads the decimal
text of `p`, which has no unit, as `p` nanoseconds. -/
theorem ToDuration_toString (env : Env) (p : Int) (hlo : -2 ^ 63 ≤ p) (hhi : p < 2 ^ 63) :
    ToDuration env (toString p) = p := by
  cases p with
  | ofNat n =>
    have hn : n < 2 ^ 63 := by
      have : (n : Int) < 2 ^ 63 := hhi
      exact_mod_cast this
    have hdata : (toString (Int.ofNat n)).data = Nat.toDigits 10 n := rfl
    have hany : (toString (Int.ofNat n)).data.any
        (fun c => decide (c = 'n' ∨ c = 's' ∨ c = 'u' ∨ c = Char.ofNat 0xB5 ∨ c = 'm' ∨ c = 'h'))
        = false := by
      rw [List.any_eq_false]
      intro c hc
      rw [hdata] at hc
      rw [unit_char_test_false c (Or.inl (toDigits_digits n c hc))]
      simp
    have happ : toString (Int.ofNat n) ++ "ns" = String.mk (Nat.toDigits 10 n ++ ['n', 's']) := by
      apply String.ext
      rw [String.data_append, hdata]
    unfold ToDuration
    simp only [hany, happ, ParseDuration_digits_ns env n hn]
    rfl
  | negSucc m =>
    have hn : m + 1 ≤ 2 ^ 63 := by
      have h1 : -(2 : Int) ^ 63 ≤ Int.negSucc m := hlo
      rw [Int.negSucc_eq] at h1
      have h2 : ((m : Int) + 1) ≤ 2 ^ 63 := by linarith
      exact_mod_cast h2
    have hdata : (toString (Int.negSucc m)).data = '-' :: Nat.toDigits 10 (m + 1) := by
      show ("-" ++ toString (m + 1)).data = _
      rw [String.data_append]
      rfl
    have hany : (toString (Int.negSucc m)).data.any
        (fun c => decide (c = 'n' ∨ c = 's' ∨ c = 'u' ∨ c = Char.ofNat 0xB5 ∨ c = 'm' ∨ c = 'h'))
        = false := by
      rw [List.any_eq_false]
      intro c hc
      rw [hdata] at hc
      have hcase : (48 ≤ c.toNat ∧ c.toNat ≤ 57) ∨ c = '-' := by
        rcases List.mem_cons.1 hc with h1 | h1
        · exact Or.inr h1
        · exact Or.inl (toDigits_digits (m + 1) c h1)
      rw [unit_char_test_false c hcase]
      simp
    have happ : toString (Int.negSucc m) ++ "ns" =
        String.mk ('-' :: (Nat.toDigits 10 (m + 1) ++ ['n', 's'])) := by
      apply String.ext
      rw [String.data_append, hdata]
      rfl
    unfold ToDuration
    simp only [hany, happ, ParseDuration_minus_digits_ns env (m + 1) (by omega) hn]
    simp only [Int.negSucc_eq]
    push_cast
    rfl

/-! ## What a value that is present resolves to -/

theorem ToBool_eq (v : String) :
    ToBool v = decide (v ∈ ["1", "t", "T", "TRUE", "true", "True"]) := by
  unfold ToBool ParseBool
  by_cases h : v = "1" ∨ v = "t" ∨ v = "T" ∨ v = "TRUE" ∨ v = "true" ∨ v = "True"
  · rw [if_pos h]
    simp only [List.mem_cons, List.mem_singleton, List.not_mem_nil, or_false]
    simp [h]
  · rw [if_neg h]
    have hm : ¬ (v ∈ ["1", "t", "T", "TRUE", "true", "True"]) := by
      simpa [List.mem_cons] using h
    split <;> simp [hm]

theorem guarded_string_eq (v : String) : (if v ≠ "" then v else "") = v := by
  by_cases h : v = ""
  · simp [h]
  · simp [h]

theorem guarded_bool_eq (v : String) :
    (if v ≠ "" then ToBool v else false) =
      decide (v ∈ ["1", "t", "T", "TRUE", "true", "True"]) := by
  by_cases h : v = ""
  · subst h
    decide
  · rw [if_pos h]
    exact ToBool_eq v

theorem cfgIndex_of_some (cfg : Cfg) (key v : String) (h : cfgLookup cfg key = some v) :
    cfgIndex cfg key = v := by
  unfold cfgIndex
  rw [h]
  rfl

theorem cfgIndex_of_none (cfg : Cfg) (key : String) (h : cfgLookup cfg key = none) :
    cfgIndex cfg key = "" := by
  unfold cfgIndex
  rw [h]
  rfl

/-! ## Calls that return, calls that panic -/

/-- A call of `AddRedisInstanceArgs` that returns no error found the name unregistered. -/
theorem not_registered_of_added (env : Env) (db : String) (cfg : Cfg) (t : Option TLSConfig)
    (d : Option DialerFunc) (o : Option OnConnectFunc) (w : World)
    (h : (AddRedisInstanceArgs env db cfg t d o w).1 = .returned none) :
    HasRedisInstance db w = false := by
  have hret := newClientPanic_of_returned env db cfg t d o w none h
  by_cases hd : HasRedisInstance db w = true
  · rw [AddRedisInstanceArgs_dup env db cfg t d o w hret hd] at h
    simp at h
  · simpa using hd

/-- The batch panics as soon as `redis.NewUniversalClient` panics on one of its entries. -/
theorem batch_panics (env : Env) (t : Option TLSConfig) (d : Option DialerFunc)
    (o : Option OnConnectFunc) (dbs : List (String × Cfg)) :
    ∀ (w : World),
      (∃ e ∈ dbs, newClientPanic env (NewRedisConnIns_options env e.2 t d o) ≠ none) →
      ∃ msg, (AddRedisInstancesArgs env dbs t d o w).1.2 = .panicked msg := by
  induction dbs with
  | nil =>
    intro w hex
    obtain ⟨e, he, _⟩ := hex
    cases he
  | cons e rest ih =>
    obtain ⟨db, cfg⟩ := e
    intro w hex
    cases hp : newClientPanic env (NewRedisConnIns_options env cfg t d o) with
    | some msg =>
      rw [AddRedisInstancesArgs_cons_panic env db cfg rest t d o w msg hp]
      exact ⟨msg, rfl⟩
    | none =>
      have hrest : ∃ e ∈ rest,
          newClientPanic env (NewRedisConnIns_options env e.2 t d o) ≠ none := by
        obtain ⟨e, he, hne⟩ := hex
        rcases List.mem_cons.1 he with heq | hin
        · subst heq
          exact absurd hp hne
        · exact ⟨e, hin, hne⟩
      by_cases hd : HasRedisInstance db w = true
      · rw [AddRedisInstancesArgs_cons_dup env db cfg rest t d o w hp hd]
        exact ih _ hrest
      · have hf : HasRedisInstance db w = false := by simpa using hd
        rw [AddRedisInstancesArgs_cons_fresh env db cfg rest t d o w hp hf]
        exact ih _ hrest

/-! ## Claims about the registry functions of helper.go -/

/-- C1, as the code has it: after `AddRedisInstanceArgs(name, cfg, nil, nil, nil)` returned
no error, `GetRedisClient(name)` returns the client that call made, whose options are those
`NewRedisConnIns` resolves from `cfg`. For a key that is present they hold the value of the
map: the addr string split at its commas, a string as it is, true for exactly the texts Go
reads as true, and for the decimal text of an integer `p` of the range of Go `int` the
integer `p` (a duration of `p` nanoseconds; for poolSize `p × g` reduced to 64 bits). For a
key that is absent they hold the documented default, which for addr is the list `[""]` and
for the keys with a library default the zero value. For the map of the test (addr
"xxxxxx", db "2", password "xxxxx") the options have Addrs = ["xxxxxx"], DB = 2,
Password = "xxxxx", MaxRetries = 3 and DialTimeout = 5s. -/
theorem C1_add_then_get (env : Env) (w : World) (name : String) (cfg : Cfg)
    (hadd : (AddRedisInstanceArgs env name cfg none none none w).1 = .returned none) :
    ∃ client,
      GetRedisClient name (AddRedisInstanceArgs env name cfg none none none w).2 =
        .returned client ∧
      client.id = w.clients ∧
      client.options = NewRedisConnIns_options env cfg none none none ∧
      (∀ v, cfgLookup cfg "addr" = some v →
        ",".intercalate client.options.Addrs = v ∧
        client.options.Addrs.length = v.data.count ',' + 1) ∧
      (∀ v,
        (cfgLookup cfg "clientName" = some v → client.options.ClientName = v) ∧
        (cfgLookup cfg "username" = some v → client.options.Username = v) ∧
        (cfgLookup cfg "password" = some v → client.options.Password = v) ∧
        (cfgLookup cfg "masterName" = some v → client.options.MasterName = v) ∧
        (cfgLookup cfg "sentinelUsername" = some v → client.options.SentinelUsername = v) ∧
        (cfgLookup cfg "sentinelPassword" = some v → client.options.SentinelPassword = v)) ∧
      (∀ p : Int, -2 ^ 63 ≤ p → p < 2 ^ 63 →
        (cfgLookup cfg "db" = some (toString p) → client.options.DB = p) ∧
        (cfgLookup cfg "maxRetries" = some (toString p) → client.options.MaxRetries = p) ∧
        (cfgLookup cfg "minIdleConns" = some (toString p) → client.options.MinIdleConns = p) ∧
        (cfgLookup cfg "maxIdleConns" = some (toString p) → client.options.MaxIdleConns = p) ∧
        (cfgLookup cfg "maxRedirects" = some (toString p) → client.options.MaxRedirects = p) ∧
        (cfgLookup cfg "protocol" = some (toString p) → client.options.Protocol = p) ∧
        (cfgLookup cfg "minRetryBackoff" = some (toString p) → client.options.MinRetryBackoff = p) ∧
        (cfgLookup cfg "maxRetryBackoff" = some (toString p) → client.options.MaxRetryBackoff = p) ∧
        (cfgLookup cfg "dialTimeout" = some (toString p) → client.options.DialTimeout = p) ∧
        (cfgLookup cfg "readTimeout" = some (toString p) → client.options.ReadTimeout = p) ∧
        (cfgLookup cfg "writeTimeout" = some (toString p) → client.options.WriteTimeout = p) ∧
        (cfgLookup cfg "poolTimeout" = some (toString p) → client.options.PoolTimeout = p) ∧
        (cfgLookup cfg "connMaxIdleTime" = some (toString p) → client.options.ConnMaxIdleTime = p) ∧
        (cfgLookup cfg "connMaxLifetime" = some (toString p) → client.options.ConnMaxLifetime = p) ∧
        (cfgLookup cfg "poolSize" = some (toString p) →
          client.options.PoolSize = wrapInt64 (p * env.GOMAXPROCS))) ∧
      (∀ v,
        (cfgLookup cfg "contextTimeoutEnabled" = some v →
          client.options.ContextTimeoutEnabled = decide (v ∈ ["1", "t", "T", "TRUE", "true", "True"])) ∧
        (cfgLookup cfg "poolFIFO" = some v →
          client.options.PoolFIFO = decide (v ∈ ["1", "t", "T", "TRUE", "true", "True"])) ∧
        (cfgLookup cfg "readOnly" = some v →
          client.options.ReadOnly = decide (v ∈ ["1", "t", "T", "TRUE", "true", "True"])) ∧
        (cfgLookup cfg "routeByLatency" = some v →
          client.options.RouteByLatency = decide (v ∈ ["1", "t", "T", "TRUE", "true", "True"])) ∧
        (cfgLookup cfg "routeRandomly" = some v →
          client.options.RouteRandomly = decide (v ∈ ["1", "t", "T", "TRUE", "true", "True"]))) ∧
      (cfgLookup cfg "addr" = none → client.options.Addrs = [""]) ∧
      (cfgLookup cfg "clientName" = none → client.options.ClientName = "") ∧
      (cfgLookup cfg "username" = none → client.options.Username = "") ∧
      (cfgLookup cfg "password" = none → client.options.Password = "") ∧
      (cfgLookup cfg "db" = none → client.options.DB = 0) ∧
      (cfgLookup cfg "maxRetries" = none → client.options.MaxRetries = 3) ∧
      (cfgLookup cfg "minRetryBackoff" = none → client.options.MinRetryBackoff = 8 * Millisecond) ∧
      (cfgLookup cfg "maxRetryBackoff" = none → client.options.MaxRetryBackoff = 512 * Millisecond) ∧
      (cfgLookup cfg "dialTimeout" = none → client.options.DialTimeout = 5 * Second) ∧
      (cfgLookup cfg "readTimeout" = none → client.options.ReadTimeout = 3 * Second) ∧
      (cfgLookup cfg "writeTimeout" = none → client.options.WriteTimeout = 3 * Second) ∧
      (cfgLookup cfg "contextTimeoutEnabled" = none → client.options.ContextTimeoutEnabled = false) ∧
      (cfgLookup cfg "poolFIFO" = none → client.options.PoolFIFO = false) ∧
      (cfgLookup cfg "poolSize" = none → client.options.PoolSize = 0) ∧
      (cfgLookup cfg "poolTimeout" = none → client.options.PoolTimeout = 0) ∧
      (cfgLookup cfg "minIdleConns" = none → client.options.MinIdleConns = 0) ∧
      (cfgLookup cfg "maxIdleConns" = none → client.options.MaxIdleConns = 0) ∧
      (cfgLookup cfg "connMaxIdleTime" = none → client.options.ConnMaxIdleTime = 0) ∧
      (cfgLookup cfg "connMaxLifetime" = none → client.options.ConnMaxLifetime = 0) ∧
      (cfgLookup cfg "maxRedirects" = none → client.options.MaxRedirects = 0) ∧
      (cfgLookup cfg "readOnly" = none → client.options.ReadOnly = false) ∧
      (cfgLookup cfg "routeByLatency" = none → client.options.RouteByLatency = false) ∧
      (cfgLookup cfg "routeRandomly" = none → client.options.RouteRandomly = false) ∧
      (cfgLookup cfg "masterName" = none → client.options.MasterName = "") ∧
      (cfgLookup cfg "protocol" = none → client.options.Protocol = 0) ∧
      (cfgLookup cfg "sentinelUsername" = none → client.options.SentinelUsername = "") ∧
      (cfgLookup cfg "sentinelPassword" = none → client.options.SentinelPassword = "") ∧
      (cfg = testCfg →
        client.options.Addrs = ["xxxxxx"] ∧ client.options.DB = 2 ∧
        client.options.Password = "xxxxx" ∧ client.options.MaxRetries = 3 ∧
        client.options.DialTimeout = 5 * Second) := by
  have hret := newClientPanic_of_returned env name cfg none none none w none hadd
  have h := not_registered_of_added env name cfg none none none w hadd
  rw [AddRedisInstanceArgs_fresh env name cfg none none none w hret h]
  refine ⟨_, GetRedisClient_cons_self _ _ _ _, rfl, rfl, ?_⟩
  simp only []
  rw [NewRedisConnIns_options_eq]
  refine ⟨?_, ?_, ?_, ?_, ?_, ?_, ?_, ?_, ?_, ?_, ?_, ?_, ?_, ?_, ?_, ?_, ?_, ?_, ?_, ?_, ?_, ?_, ?_, ?_, ?_, ?_, ?_, ?_, ?_, ?_, ?_, ?_⟩
  · intro v hv
    simp only [cfgIndex_of_some cfg _ v hv]
    exact ⟨intercalate_Split v, Split_length v⟩
  · intro v
    refine ⟨?_, ?_, ?_, ?_, ?_, ?_⟩ <;> intro hv <;>
      simp only [cfgIndex_of_some cfg _ v hv, guarded_string_eq]
  · intro p hlo hhi
    refine ⟨?_, ?_, ?_, ?_, ?_, ?_, ?_, ?_, ?_, ?_, ?_, ?_, ?_, ?_, ?_⟩ <;> intro hv <;>
      simp only [cfgIndex_of_some cfg _ _ hv, intValue, durationValue, hv,
        if_pos (toString_int_ne_empty p), ToInt_toString p hlo hhi,
        ToDuration_toString env p hlo hhi]
  · intro v
    refine ⟨?_, ?_, ?_, ?_, ?_⟩ <;> intro hv <;>
      simp only [cfgIndex_of_some cfg _ v hv] <;>
      first
        | exact ToBool_eq v
        | exact guarded_bool_eq v
  · intro hk
    simp only [cfgIndex_of_none cfg _ hk]
    rfl
  · intro hk
    simp only [cfgIndex_of_none cfg _ hk, intValue, durationValue, hk]
  · intro hk
    simp only [cfgIndex_of_none cfg _ hk, intValue, durationValue, hk]
  · intro hk
    simp only [cfgIndex_of_none cfg _ hk, intValue, durationValue, hk]
  · intro hk
    simp only [cfgIndex_of_none cfg _ hk, intValue, durationValue, hk]
    rfl
  · intro hk
    simp only [cfgIndex_of_none cfg _ hk, intValue, durationValue, hk]
  · intro hk
    simp only [cfgIndex_of_none cfg _ hk, intValue, durationValue, hk]
  · intro hk
    simp only [cfgIndex_of_none cfg _ hk, intValue, durationValue, hk]
  · intro hk
    simp only [cfgIndex_of_none cfg _ hk, intValue, durationValue, hk]
  · intro hk
    simp only [cfgIndex_of_none cfg _ hk, intValue, durationValue, hk]
  · intro hk
    simp only [cfgIndex_of_none cfg _ hk, intValue, durationValue, hk]
  · intro hk
    simp only [cfgIndex_of_none cfg _ hk, intValue, durationValue, hk]
    rfl
  · intro hk
    simp only [cfgIndex_of_none cfg _ hk, intValue, durationValue, hk]
    rfl
  · intro hk
    simp only [cfgIndex_of_none cfg _ hk, intValue, durationValue, hk]
    rfl
  · intro hk
    simp only [cfgIndex_of_none cfg _ hk, intValue, durationValue, hk]
    rfl
  · intro hk
    simp only [cfgIndex_of_none cfg _ hk, intValue, durationValue, hk]
    rfl
  · intro hk
    simp only [cfgIndex_of_none cfg _ hk, intValue, durationValue, hk]
    rfl
  · intro hk
    simp only [cfgIndex_of_none cfg _ hk, intValue, durationValue, hk]
    rfl
  · intro hk
    simp only [cfgIndex_of_none cfg _ hk, intValue, durationValue, hk]
    rfl
  · intro hk
    simp only [cfgIndex_of_none cfg _ hk, intValue, durationValue, hk]
    rfl
  · intro hk
    simp only [cfgIndex_of_none cfg _ hk, intValue, durationValue, hk]
    rfl
  · intro hk
    simp only [cfgIndex_of_none cfg _ hk, intValue, durationValue, hk]
    rfl
  · intro hk
    simp only [cfgIndex_of_none cfg _ hk, intValue, durationValue, hk]
    rfl
  · intro hk
    simp only [cfgIndex_of_none cfg _ hk, intValue, durationValue, hk]
    rfl
  · intro hk
    simp only [cfgIndex_of_none cfg _ hk, intValue, durationValue, hk]
    rfl
  · intro hk
    simp only [cfgIndex_of_none cfg _ hk, intValue, durationValue, hk]
    rfl
  · intro hk
    simp only [cfgIndex_of_none cfg _ hk, intValue, durationValue, hk]
    rfl
  · intro hcfg
    subst hcfg
    exact ⟨rfl, rfl, rfl, rfl, rfl⟩

/-- Witness of C1 as amended: the call of the test, `AddRedisInstanceArgs("aa", ...)` on the
empty registry. -/
theorem C1_add_then_get_witness :
    (AddRedisInstanceArgs hostFour "aa" testCfg none none none World.init).1 =
      .returned none ∧
    (∃ client,
      GetRedisClient "aa"
          (AddRedisInstanceArgs hostFour "aa" testCfg none none none World.init).2 =
        .returned client ∧
      client.id = 0 ∧
      client.options.Addrs = ["xxxxxx"] ∧ client.options.DB = 2 ∧
      client.options.Password = "xxxxx" ∧ client.options.MaxRetries = 3 ∧
      client.options.DialTimeout = 5 * Second) :=
  ⟨by decide,
   (C1_add_then_get hostFour World.init "aa" testCfg (by decide)).elim
     (fun client hc =>
       ⟨client, hc.1, hc.2.1, (hc.2.2.2.2.2.2.2.2.2.2.2.2.2.2.2.2.2.2.2.2.2.2.2.2.2.2.2.2.2.2.2.2.2.2 rfl)⟩)⟩

/-- C1 as stated fails. The map with db "9223372036854775808" is added without error, db is
present, and the client `GetRedisClient` returns has DB = 0, not the value of the map. The
empty map is added without error, addr is absent, and the client has the address list
`[""]`, not the documented "no endpoints". -/
theorem C1_add_then_get_counterexample :
    (¬ ∀ (env : Env) (w : World) (name : String) (cfg : Cfg) (p : Int),
        (AddRedisInstanceArgs env name cfg none none none w).1 = .returned none →
        cfgLookup cfg "db" = some (toString p) →
        ∃ client,
          GetRedisClient name (AddRedisInstanceArgs env name cfg none none none w).2 =
            .returned client ∧
          client.options.DB = p) ∧
    (¬ ∀ (env : Env) (w : World) (name : String) (cfg : Cfg),
        (AddRedisInstanceArgs env name cfg none none none w).1 = .returned none →
        cfgLookup cfg "addr" = none →
        ∃ client,
          GetRedisClient name (AddRedisInstanceArgs env name cfg none none none w).2 =
            .returned client ∧
          client.options.Addrs = []) := by
  constructor
  · intro hall
    obtain ⟨client, hget, hdb⟩ := hall hostFour World.init "aa"
      [("db", "9223372036854775808")] 9223372036854775808 (by decide) (by decide)
    have h0 : GetRedisClient "aa"
        (AddRedisInstanceArgs hostFour "aa" [("db", "9223372036854775808")] none none none
          World.init).2 =
        .returned { id := 0,
                    options := NewRedisConnIns_options hostFour
                      [("db", "9223372036854775808")] none none none } := by decide
    rw [h0] at hget
    injection hget with hc
    subst hc
    revert hdb
    decide
  · intro hall
    obtain ⟨client, hget, haddrs⟩ := hall hostFour World.init "aa" [] (by decide) (by decide)
    have h0 : GetRedisClient "aa"
        (AddRedisInstanceArgs hostFour "aa" [] none none none World.init).2 =
        .returned { id := 0, options := NewRedisConnIns_options hostFour [] none none none } := by
      decide
    rw [h0] at hget
    injection hget with hc
    subst hc
    revert haddrs
    decide

/-- C2, as the code has it: from a registry without `name`, when `redis.NewUniversalClient`
does not panic on the options of `cfg1`, the first `AddRedisInstance(name, cfg1)` returns no
error; the second `AddRedisInstance(name, cfg2)` returns the duplicate-name error when the
constructor does not panic on the options of `cfg2` and panics otherwise; either way it
leaves the registry as the first call made it, and the handle under `name` is still the
client made from `cfg1`. -/
theorem C2_second_add_is_rejected (env : Env) (w : World) (name : String) (cfg1 cfg2 : Cfg)
    (h : HasRedisInstance name w = false)
    (hret1 : newClientPanic env (NewRedisConnIns_options env cfg1 none none none) = none) :
    (AddRedisInstance env name cfg1 w).1 = .returned none ∧
    (newClientPanic env (NewRedisConnIns_options env cfg2 none none none) = none →
      (AddRedisInstance env name cfg2 (AddRedisInstance env name cfg1 w).2).1 =
        .returned (some (RegistryError.DuplicateNameError name))) ∧
    (∀ msg, newClientPanic env (NewRedisConnIns_options env cfg2 none none none) = some msg →
      (AddRedisInstance env name cfg2 (AddRedisInstance env name cfg1 w).2).1 =
        .panicked msg) ∧
    (AddRedisInstance env name cfg2 (AddRedisInstance env name cfg1 w).2).2.redispool =
      (AddRedisInstance env name cfg1 w).2.redispool ∧
    GetRedisClient name (AddRedisInstance env name cfg2 (AddRedisInstance env name cfg1 w).2).2 =
      .returned { id := w.clients,
                  options := NewRedisConnIns_options env cfg1 none none none } := by
  unfold AddRedisInstance
  rw [AddRedisInstanceArgs_fresh env name cfg1 none none none w hret1 h]
  refine ⟨rfl, ?_, ?_, ?_, ?_⟩
  · intro hret2
    rw [AddRedisInstanceArgs_dup env name cfg2 none none none _ hret2
      (HasRedisInstance_cons_self _ _ _ _)]
  · intro msg hp
    rw [AddRedisInstanceArgs_panic env name cfg2 none none none _ msg hp]
  · cases hp : newClientPanic env (NewRedisConnIns_options env cfg2 none none none) with
    | none =>
      rw [AddRedisInstanceArgs_dup env name cfg2 none none none _ hp
        (HasRedisInstance_cons_self _ _ _ _)]
    | some msg =>
      rw [AddRedisInstanceArgs_panic env name cfg2 none none none _ msg hp]
  · cases hp : newClientPanic env (NewRedisConnIns_options env cfg2 none none none) with
    | none =>
      rw [AddRedisInstanceArgs_dup env name cfg2 none none none _ hp
        (HasRedisInstance_cons_self _ _ _ _)]
      exact GetRedisClient_cons_self _ _ _ _
    | some msg =>
      rw [AddRedisInstanceArgs_panic env name cfg2 none none none _ msg hp]
      exact GetRedisClient_cons_self _ _ _ _

/-- Witness of C2 as amended: name "aa" added twice to the empty registry, with two
different maps. -/
theorem C2_second_add_is_rejected_witness :
    (HasRedisInstance "aa" World.init = false ∧
      newClientPanic hostFour (NewRedisConnIns_options hostFour testCfg none none none) =
        none ∧
      newClientPanic hostFour
        (NewRedisConnIns_options hostFour [("db", "1")] none none none) = none) ∧
    (AddRedisInstance hostFour "aa" [("db", "1")]
        (AddRedisInstance hostFour "aa" testCfg World.init).2).1 =
      .returned (some (RegistryError.DuplicateNameError "aa")) :=
  ⟨⟨by decide, by decide, by decide⟩,
   (C2_second_add_is_rejected hostFour World.init "aa" testCfg [("db", "1")] (by decide)
      (by decide)).2.1 (by decide)⟩

/-- C2 as stated fails: on the empty registry the first `AddRedisInstance("aa", cfg1)` with
poolSize "-3" returns nothing, it panics; and after "aa" was added with the map of the test,
the second `AddRedisInstance("aa", cfg2)` with poolSize "-3" panics and returns no
duplicate-name error. -/
theorem C2_second_add_counterexample :
    (¬ ∀ (env : Env) (w : World) (name : String) (cfg1 : Cfg),
        HasRedisInstance name w = false →
        (AddRedisInstance env name cfg1 w).1 = .returned none) ∧
    (¬ ∀ (env : Env) (w : World) (name : String) (cfg1 cfg2 : Cfg),
        HasRedisInstance name w = false →
        (AddRedisInstance env name cfg1 w).1 = .returned none →
        (AddRedisInstance env name cfg2 (AddRedisInstance env name cfg1 w).2).1 =
          .returned (some (RegistryError.DuplicateNameError name))) := by
  constructor
  · intro hall
    have h := hall hostFour World.init "aa" negativePoolCfg (by decide)
    revert h
    decide
  · intro hall
    have h := hall hostFour World.init "aa" testCfg negativePoolCfg (by decide) (by decide)
    revert h
    decide

/-- C3, as the code has it: for a name with no registered instance the registry lookup
fails with `NotFoundError`, yet `GetRedisClient(name)` has no error result to carry it: the
nil handle meets the unchecked type assertion and the call panics, returning neither a
handle nor an error. -/
theorem C3_get_missing_panics (w : World) (name : String)
    (h : HasRedisInstance name w = false) :
    w.redispool.Get name = .error (RegistryError.NotFoundError name) ∧
    GetRedisClient name w =
      .panicked "interface conversion: interface is nil, not redis.UniversalClient" := by
  have hl : List.lookup name w.redispool.instances = none :=
    (Has_eq_false_iff _ _).1 h
  simp [GetRedisClient, DbPool.Handle, DbPool.Get, hl]

/-- Witness of C3 as amended: name "aa" on the empty registry. -/
theorem C3_get_missing_panics_witness :
    HasRedisInstance "aa" World.init = false ∧
    GetRedisClient "aa" World.init =
      .panicked "interface conversion: interface is nil, not redis.UniversalClient" :=
  ⟨by decide, (C3_get_missing_panics World.init "aa" (by decide)).2⟩

/-- C3 as stated fails: on the empty registry the name "aa" is not registered and
`GetRedisClient("aa")` does not return at all, it crashes. -/
theorem C3_get_missing_counterexample :
    ¬ (∀ (w : World) (name : String), HasRedisInstance name w = false →
        (GetRedisClient name w).isPanic = false) := by
  intro hall
  have h := hall World.init "aa" (by decide)
  revert h
  decide

/-- C4, as the code has it: after `AddRedisInstancesArgs(dbs, ...)`, in whatever order
`dbs'` the entries of the batch `dbs` are visited, a name registered before keeps
its instance and no name outside the previous ones and the keys of the batch is registered.
When `redis.NewUniversalClient` panics on an entry the call panics. When it panics on none,
the call returns, the registered names are the previous ones and the keys of the batch, a
key that was not registered gets the client made from its own map, and the registry grows
by the number of keys that were new, one warning being logged for each key that was taken;
so a batch of three with one taken name adds exactly two instances. -/
theorem C4_batch_add (env : Env) (w : World) (dbs dbs' : List (String × Cfg))
    (t : Option TLSConfig) (d : Option DialerFunc) (o : Option OnConnectFunc)
    (hnd : (dbs.map Prod.fst).Nodup) (hperm : dbs'.Perm dbs) :
    (∀ n, HasRedisInstance n w = true →
        (AddRedisInstancesArgs env dbs' t d o w).2.redispool.Get n = w.redispool.Get n) ∧
    (∀ n, HasRedisInstance n w = false → n ∉ dbs.map Prod.fst →
        HasRedisInstance n (AddRedisInstancesArgs env dbs' t d o w).2 = false) ∧
    ((∃ e ∈ dbs, newClientPanic env (NewRedisConnIns_options env e.2 t d o) ≠ none) →
        ∃ msg, (AddRedisInstancesArgs env dbs' t d o w).1.2 = .panicked msg) ∧
    ((∀ e ∈ dbs, newClientPanic env (NewRedisConnIns_options env e.2 t d o) = none) →
      (AddRedisInstancesArgs env dbs' t d o w).1.2 = .returned () ∧
      (∀ n, HasRedisInstance n (AddRedisInstancesArgs env dbs' t d o w).2 =
          (HasRedisInstance n w || decide (n ∈ dbs.map Prod.fst))) ∧
      (∀ n cfg, (n, cfg) ∈ dbs → HasRedisInstance n w = false →
          ∃ id, GetRedisClient n (AddRedisInstancesArgs env dbs' t d o w).2 =
            .returned { id := id, options := NewRedisConnIns_options env cfg t d o }) ∧
      (AddRedisInstancesArgs env dbs' t d o w).2.redispool.size =
          w.redispool.size + (dbs.filter (fun e => !HasRedisInstance e.1 w)).length ∧
      (AddRedisInstancesArgs env dbs' t d o w).1.1.length =
          (dbs.filter (fun e => HasRedisInstance e.1 w)).length ∧
      (dbs.length = 3 → (dbs.filter (fun e => HasRedisInstance e.1 w)).length = 1 →
          (AddRedisInstancesArgs env dbs' t d o w).2.redispool.size =
            w.redispool.size + 2)) := by
  have hnd' : (dbs'.map Prod.fst).Nodup := (hperm.map Prod.fst).nodup_iff.2 hnd
  have hkeys : ∀ n, n ∈ dbs'.map Prod.fst ↔ n ∈ dbs.map Prod.fst :=
    fun n => (hperm.map Prod.fst).mem_iff
  have hkeep : ∀ n, HasRedisInstance n w = true →
      List.lookup n (AddRedisInstancesArgs env dbs' t d o w).2.redispool.instances =
        List.lookup n w.redispool.instances := by
    intro n hn
    obtain ⟨ins, hins⟩ := (Has_eq_true_iff _ _).1 hn
    rw [batch_keeps env t d o dbs' w n ins hins, hins]
  have hother : ∀ n, HasRedisInstance n w = false → n ∉ dbs.map Prod.fst →
      HasRedisInstance n (AddRedisInstancesArgs env dbs' t d o w).2 = false :=
    fun n hf hm =>
      (Has_eq_false_iff _ _).2
        (batch_adds_no_other env t d o dbs' w n ((Has_eq_false_iff _ _).1 hf)
          (fun hc => hm ((hkeys n).1 hc)))
  refine ⟨?_, hother, ?_, ?_⟩
  · intro n hn
    unfold DbPool.Get
    rw [hkeep n hn]
  · intro hex
    apply batch_panics env t d o dbs' w
    obtain ⟨e, he, hne⟩ := hex
    exact ⟨e, hperm.mem_iff.2 he, hne⟩
  · intro hall
    have hall' : ∀ e ∈ dbs',
        newClientPanic env (NewRedisConnIns_options env e.2 t d o) = none :=
      fun e he => hall e (hperm.mem_iff.1 he)
    have hcount := batch_counts env t d o dbs' w hall' hnd'
    have hlen1 : (dbs'.filter (fun e => !HasRedisInstance e.1 w)).length =
        (dbs.filter (fun e => !HasRedisInstance e.1 w)).length := (hperm.filter _).length_eq
    have hlen2 : (dbs'.filter (fun e => HasRedisInstance e.1 w)).length =
        (dbs.filter (fun e => HasRedisInstance e.1 w)).length := (hperm.filter _).length_eq
    have hnew : ∀ n cfg, (n, cfg) ∈ dbs → HasRedisInstance n w = false →
        ∃ id, List.lookup n (AddRedisInstancesArgs env dbs' t d o w).2.redispool.instances =
          some { name := n,
                 ins := { id := id, options := NewRedisConnIns_options env cfg t d o } } :=
      fun n cfg hm hn =>
        batch_adds_key env t d o dbs' w n cfg hall' hnd' (hperm.mem_iff.2 hm)
          ((Has_eq_false_iff _ _).1 hn)
    refine ⟨(batch_every_entry_reaches_Add env t d o dbs' w hall').1, ?_, ?_, ?_, ?_, ?_⟩
    · intro n
      by_cases hn : HasRedisInstance n w = true
      · have h1 : HasRedisInstance n (AddRedisInstancesArgs env dbs' t d o w).2 = true := by
          unfold HasRedisInstance DbPool.Has
          rw [hkeep n hn]
          exact hn
        rw [h1, hn]; rfl
      · have hf : HasRedisInstance n w = false := by simpa using hn
        by_cases hm : n ∈ dbs.map Prod.fst
        · obtain ⟨e, he, hen⟩ := List.mem_map.1 hm
          obtain ⟨k, cfg⟩ := e
          simp only at hen
          subst hen
          obtain ⟨id, hid⟩ := hnew k cfg he hf
          have h1 : HasRedisInstance k (AddRedisInstancesArgs env dbs' t d o w).2 = true :=
            (Has_eq_true_iff _ _).2 ⟨_, hid⟩
          rw [h1, hf]; simp [hm]
        · rw [hother n hf hm, hf]; simp [hm]
    · intro n cfg hm hn
      obtain ⟨id, hid⟩ := hnew n cfg hm hn
      exact ⟨id, by
        simp [GetRedisClient, DbPool.Handle, DbPool.Get, hid, RedisConnIns.GetInstance]⟩
    · rw [hcount.1, hlen1]
    · rw [hcount.2, hlen2]
    · intro h3 h1
      have hs := length_filter_split (fun e => HasRedisInstance e.1 w) dbs
      rw [hcount.1, hlen1]
      omega

/-- Witness of C4 as amended: the registry holds "a"; the batch has the keys "a", "b" and
"c" and is visited in the order "c", "a", "b". -/
theorem C4_batch_add_witness :
    ((([("a", testCfg), ("b", []), ("c", [("db", "1")])] : List (String × Cfg)).map
        Prod.fst).Nodup ∧
      ∀ e ∈ ([("a", testCfg), ("b", []), ("c", [("db", "1")])] : List (String × Cfg)),
        newClientPanic hostFour (NewRedisConnIns_options hostFour e.2 none none none) =
          none) ∧
    (AddRedisInstancesArgs hostFour [("c", [("db", "1")]), ("a", testCfg), ("b", [])]
        none none none (AddRedisInstance hostFour "a" [] World.init).2).1.2 = .returned () ∧
    (AddRedisInstancesArgs hostFour [("c", [("db", "1")]), ("a", testCfg), ("b", [])]
        none none none (AddRedisInstance hostFour "a" [] World.init).2).2.redispool.size =
      (AddRedisInstance hostFour "a" [] World.init).2.redispool.size + 2 :=
  ⟨⟨by decide, by decide⟩,
   ((C4_batch_add hostFour (AddRedisInstance hostFour "a" [] World.init).2
      [("a", testCfg), ("b", []), ("c", [("db", "1")])]
      [("c", [("db", "1")]), ("a", testCfg), ("b", [])] none none none
      (by decide) (by decide)).2.2.2 (by decide)).1,
   ((C4_batch_add hostFour (AddRedisInstance hostFour "a" [] World.init).2
      [("a", testCfg), ("b", []), ("c", [("db", "1")])]
      [("c", [("db", "1")]), ("a", testCfg), ("b", [])] none none none
      (by decide) (by decide)).2.2.2 (by decide)).2.2.2.2.2 (by decide) (by decide)⟩

/-- C4 as stated fails: on the empty registry the batch with the entries "a" (poolSize
"-3") and "b" (the empty map), visited in this order, panics at "a"; the call fails as a
whole and the key "b" is not registered afterwards. -/
theorem C4_batch_add_counterexample :
    ¬ ∀ (env : Env) (w : World) (dbs : List (String × Cfg)), (dbs.map Prod.fst).Nodup →
        (AddRedisInstancesArgs env dbs none none none w).1.2 = .returned () ∨
        ∀ n, HasRedisInstance n (AddRedisInstancesArgs env dbs none none none w).2 =
          (HasRedisInstance n w || decide (n ∈ dbs.map Prod.fst)) := by
  intro hall
  rcases hall hostFour World.init [("a", negativePoolCfg), ("b", [])] (by decide) with h | h
  · revert h
    decide
  · have hb := h "b"
    revert hb
    decide

/-- C5: a name that no call so far has added is not registered; `RemoveRedisInstance(name)`
then leaves the registry as it is, nothing is reported, the name is not registered
afterwards either, and removing a second time changes nothing more. -/
theorem C5_remove_never_added (env : Env) (calls : List Call) (name : String)
    (h : ∀ c ∈ calls, Call.adds name c = false) :
    HasRedisInstance name (runCalls env calls World.init) = false ∧
    RemoveRedisInstance env name (runCalls env calls World.init) =
      runCalls env calls World.init ∧
    ((runCalls env calls World.init).redispool.Remove env name).2 = none ∧
    HasRedisInstance name
      (RemoveRedisInstance env name (runCalls env calls World.init)) = false ∧
    RemoveRedisInstance env name
        (RemoveRedisInstance env name (runCalls env calls World.init)) =
      RemoveRedisInstance env name (runCalls env calls World.init) := by
  have h0 : HasRedisInstance name (runCalls env calls World.init) = false :=
    runCalls_keeps_absent env name calls World.init h (by rfl)
  have h1 := RemoveRedisInstance_absent env name _ h0
  refine ⟨h0, h1, ?_, ?_, ?_⟩
  · have hl := (Has_eq_false_iff _ _).1 h0
    simp [DbPool.Remove, hl]
  · rw [h1]; exact h0
  · rw [h1, h1]

/-- Witness of C5: "aa" is added and "bb" is removed, "bb" itself is never added. -/
theorem C5_remove_never_added_witness :
    (∀ c ∈ [Call.AddArgs "aa" testCfg none none none, Call.Remove "bb"],
        Call.adds "bb" c = false) ∧
    RemoveRedisInstance hostFour "bb"
        (runCalls hostFour [Call.AddArgs "aa" testCfg none none none, Call.Remove "bb"]
          World.init) =
      runCalls hostFour [Call.AddArgs "aa" testCfg none none none, Call.Remove "bb"]
        World.init :=
  ⟨by decide,
   (C5_remove_never_added hostFour
      [Call.AddArgs "aa" testCfg none none none, Call.Remove "bb"] "bb" (by decide)).2.1⟩

/-- C6: for a registered name, `HasRedisInstance(name)` is false after
`RemoveRedisInstance(name)`, whatever `Close` of the registered handle returns: a close
error is only what the registry reports, the mapping is gone all the same; every other
name keeps its instance. -/
theorem C6_remove_registered (env : Env) (w : World) (name : String)
    (h : HasRedisInstance name w = true) :
    HasRedisInstance name (RemoveRedisInstance env name w) = false ∧
    (∃ ins, w.redispool.Get name = .ok ins ∧
        (w.redispool.Remove env name).2 =
          (ins.Close env).map (RegistryError.CloseError name)) ∧
    (∀ other, other ≠ name →
        (RemoveRedisInstance env name w).redispool.Get other = w.redispool.Get other) := by
  refine ⟨?_, ?_, ?_⟩
  · apply (Has_eq_false_iff _ _).2
    rw [lookup_RemoveRedisInstance]
    simp
  · obtain ⟨ins, hins⟩ := (Has_eq_true_iff _ _).1 h
    exact ⟨ins, by simp [DbPool.Get, hins], by simp [DbPool.Remove, hins]⟩
  · intro other hne
    unfold DbPool.Get
    rw [lookup_RemoveRedisInstance]
    simp [hne]

/-- Witness of C6: "aa" is registered on a host where `Close` fails. -/
theorem C6_remove_registered_witness :
    HasRedisInstance "aa" (AddRedisInstance hostCloseFails "aa" testCfg World.init).2 = true ∧
    RedisConnIns.Close hostCloseFails
        { name := "aa",
          ins := { id := 0,
                   options := NewRedisConnIns_options hostCloseFails testCfg none none none } } =
      some "use of closed network connection" ∧
    HasRedisInstance "aa"
      (RemoveRedisInstance hostCloseFails "aa"
        (AddRedisInstance hostCloseFails "aa" testCfg World.init).2) = false :=
  ⟨by decide, by decide,
   (C6_remove_registered hostCloseFails
      (AddRedisInstance hostCloseFails "aa" testCfg World.init).2 "aa" (by decide)).1⟩

/-- C7, as the code has it: after `AddRedisInstance(name, cfg1)` returned no error and
`RemoveRedisInstance(name)` was called, `AddRedisInstance(name, cfg2)` returns no error
when `redis.NewUniversalClient` does not panic on the options of `cfg2`, and then
`GetRedisClient(name)` returns the client made from the options of `cfg2`, a client other
than the one that was made from `cfg1`; when the constructor panics on the options of
`cfg2` the call panics and `name` stays unregistered. -/
theorem C7_remove_then_add (env : Env) (w : World) (name : String) (cfg1 cfg2 : Cfg)
    (hadd : (AddRedisInstance env name cfg1 w).1 = .returned none) :
    (newClientPanic env (NewRedisConnIns_options env cfg2 none none none) = none →
      (AddRedisInstance env name cfg2
          (RemoveRedisInstance env name (AddRedisInstance env name cfg1 w).2)).1 =
        .returned none ∧
      GetRedisClient name
          (AddRedisInstance env name cfg2
            (RemoveRedisInstance env name (AddRedisInstance env name cfg1 w).2)).2 =
        .returned { id := w.clients + 1,
                    options := NewRedisConnIns_options env cfg2 none none none } ∧
      GetRedisClient name
          (AddRedisInstance env name cfg2
            (RemoveRedisInstance env name (AddRedisInstance env name cfg1 w).2)).2 ≠
        GetRedisClient name (AddRedisInstance env name cfg1 w).2) ∧
    (∀ msg, newClientPanic env (NewRedisConnIns_options env cfg2 none none none) = some msg →
      (AddRedisInstance env name cfg2
          (RemoveRedisInstance env name (AddRedisInstance env name cfg1 w).2)).1 =
        .panicked msg ∧
      HasRedisInstance name
          (AddRedisInstance env name cfg2
            (RemoveRedisInstance env name (AddRedisInstance env name cfg1 w).2)).2 =
        false) := by
  have hret1 := newClientPanic_of_returned env name cfg1 none none none w none hadd
  have h := not_registered_of_added env name cfg1 none none none w hadd
  have hgone : HasRedisInstance name
      (RemoveRedisInstance env name (AddRedisInstance env name cfg1 w).2) = false := by
    apply (Has_eq_false_iff _ _).2
    rw [lookup_RemoveRedisInstance]
    simp
  have hclients : (RemoveRedisInstance env name (AddRedisInstance env name cfg1 w).2).clients
      = w.clients + 1 := by
    unfold AddRedisInstance
    rw [AddRedisInstanceArgs_fresh env name cfg1 none none none w hret1 h]
    rfl
  have hget1 : GetRedisClient name (AddRedisInstance env name cfg1 w).2 =
      .returned { id := w.clients,
                  options := NewRedisConnIns_options env cfg1 none none none } := by
    unfold AddRedisInstance
    rw [AddRedisInstanceArgs_fresh env name cfg1 none none none w hret1 h]
    exact GetRedisClient_cons_self _ _ _ _
  constructor
  · intro hret2
    have hadd2 := AddRedisInstanceArgs_fresh env name cfg2 none none none _ hret2 hgone
    have hget2 : GetRedisClient name
          (AddRedisInstance env name cfg2
            (RemoveRedisInstance env name (AddRedisInstance env name cfg1 w).2)).2 =
        .returned { id := w.clients + 1,
                    options := NewRedisConnIns_options env cfg2 none none none } := by
      show GetRedisClient name (AddRedisInstanceArgs env name cfg2 none none none _).2 = _
      rw [hadd2, hclients]
      exact GetRedisClient_cons_self _ _ _ _
    refine ⟨?_, hget2, ?_⟩
    · show (AddRedisInstanceArgs env name cfg2 none none none _).1 = _
      rw [hadd2]
    · rw [hget2, hget1]
      intro hEq
      injection hEq with hc
      have hid := congrArg UniversalClient.id hc
      simp at hid
  · intro msg hp
    have hadd2 := AddRedisInstanceArgs_panic env name cfg2 none none none
      (RemoveRedisInstance env name (AddRedisInstance env name cfg1 w).2) msg hp
    constructor
    · show (AddRedisInstanceArgs env name cfg2 none none none _).1 = _
      rw [hadd2]
    · show HasRedisInstance name (AddRedisInstanceArgs env name cfg2 none none none _).2 = _
      rw [hadd2]
      exact hgone

/-- Witness of C7 as amended: "aa" is added with db 2, removed, and added again with
db 1. -/
theorem C7_remove_then_add_witness :
    ((AddRedisInstance hostFour "aa" testCfg World.init).1 = .returned none ∧
      newClientPanic hostFour
        (NewRedisConnIns_options hostFour [("db", "1")] none none none) = none) ∧
    GetRedisClient "aa"
        (AddRedisInstance hostFour "aa" [("db", "1")]
          (RemoveRedisInstance hostFour "aa"
            (AddRedisInstance hostFour "aa" testCfg World.init).2)).2 =
      .returned { id := 0 + 1,
                  options := NewRedisConnIns_options hostFour [("db", "1")] none none none } :=
  ⟨⟨by decide, by decide⟩,
   ((C7_remove_then_add hostFour World.init "aa" testCfg [("db", "1")] (by decide)).1
      (by decide)).2.1⟩

/-- C7 as stated fails: "aa" is added with the map of the test and removed; the map with
poolSize "-3" differs from it, and `AddRedisInstance("aa", ...)` with that map returns
nothing, it panics. -/
theorem C7_remove_then_add_counterexample :
    ¬ ∀ (env : Env) (w : World) (name : String) (cfg1 cfg2 : Cfg), cfg1 ≠ cfg2 →
        (AddRedisInstance env name cfg1 w).1 = .returned none →
        (AddRedisInstance env name cfg2
            (RemoveRedisInstance env name (AddRedisInstance env name cfg1 w).2)).1 =
          .returned none := by
  intro hall
  have h := hall hostFour World.init "aa" testCfg negativePoolCfg (by decide) (by decide)
  revert h
  decide

/-! ## Claims about the translation of redis.go -/

/-- C8, as the code has it: when the value of `poolSize` is the decimal text of an integer
`p` of the range of Go `int`, the resolved PoolSize is `p × g` reduced to 64 bits, which is
`p × g` itself whenever that product is in the range of `int`. -/
theorem C8_pool_size (env : Env) (cfg : Cfg) (t : Option TLSConfig) (d : Option DialerFunc)
    (o : Option OnConnectFunc) (p : Int) (hlo : -2 ^ 63 ≤ p) (hhi : p < 2 ^ 63)
    (h : cfgLookup cfg "poolSize" = some (toString p)) :
    (NewRedisConnIns_options env cfg t d o).PoolSize = wrapInt64 (p * env.GOMAXPROCS) ∧
    (-2 ^ 63 ≤ p * env.GOMAXPROCS → p * env.GOMAXPROCS < 2 ^ 63 →
      (NewRedisConnIns_options env cfg t d o).PoolSize = p * env.GOMAXPROCS) := by
  have hidx : cfgIndex cfg "poolSize" = toString p := by
    simp only [cfgIndex, h, Option.getD_some]
  have hval : (NewRedisConnIns_options env cfg t d o).PoolSize =
      wrapInt64 (p * env.GOMAXPROCS) := by
    rw [NewRedisConnIns_options_eq]
    simp only [hidx]
    rw [if_pos (toString_int_ne_empty p), ToInt_toString p hlo hhi]
  exact ⟨hval, fun h1 h2 => by rw [hval, wrapInt64_of_range _ h1 h2]⟩

/-- Witness of C8 as amended: poolSize "2" on a host with four logical processors gives 8. -/
theorem C8_pool_size_witness :
    (-2 ^ 63 ≤ (2 : Int) ∧ (2 : Int) < 2 ^ 63 ∧
      cfgLookup [("poolSize", "2")] "poolSize" = some (toString (2 : Int))) ∧
    (NewRedisConnIns_options hostFour [("poolSize", "2")] none none none).PoolSize = 8 :=
  ⟨⟨by decide, by decide, by decide⟩,
   (C8_pool_size hostFour [("poolSize", "2")] none none none 2 (by decide) (by decide)
      (by decide)).2 (by decide) (by decide)⟩

/-- C8 as stated fails: the decimal text of `p = 2 ^ 62` is read back as `p`, and with four
logical processors the product `p × 4` overflows Go `int`, so that PoolSize is 0. -/
theorem C8_pool_size_counterexample :
    ¬ (∀ (env : Env) (cfg : Cfg) (p : Int), cfgLookup cfg "poolSize" = some (toString p) →
        (NewRedisConnIns_options env cfg none none none).PoolSize = p * env.GOMAXPROCS) := by
  intro hall
  have h := hall hostFour [("poolSize", "4611686018427387904")] 4611686018427387904 (by decide)
  have h0 : (NewRedisConnIns_options hostFour [("poolSize", "4611686018427387904")]
      none none none).PoolSize = 0 := by decide
  rw [h0] at h
  revert h
  decide

/-- C9: for a map without the key `dialTimeout` the resolved DialTimeout is exactly 5
seconds, and for a map whose `dialTimeout` is "10s" it is exactly 10 seconds. -/
theorem C9_dial_timeout (env : Env) (cfg : Cfg) (t : Option TLSConfig)
    (d : Option DialerFunc) (o : Option OnConnectFunc) :
    (cfgLookup cfg "dialTimeout" = none →
      (NewRedisConnIns_options env cfg t d o).DialTimeout = 5 * Second) ∧
    (cfgLookup cfg "dialTimeout" = some "10s" →
      (NewRedisConnIns_options env cfg t d o).DialTimeout = 10 * Second) := by
  rw [NewRedisConnIns_options_eq]
  constructor
  · intro h
    simp only [durationValue, h]
  · intro h
    simp only [durationValue, h]
    rfl

/-- Witness of C9: the map of the test has no `dialTimeout`; a map with "10s". -/
theorem C9_dial_timeout_witness :
    (cfgLookup testCfg "dialTimeout" = none ∧
      (NewRedisConnIns_options hostFour testCfg none none none).DialTimeout = 5000000000) ∧
    (cfgLookup [("dialTimeout", "10s")] "dialTimeout" = some "10s" ∧
      (NewRedisConnIns_options hostFour [("dialTimeout", "10s")] none none none).DialTimeout =
        10000000000) :=
  ⟨⟨by decide, (C9_dial_timeout hostFour testCfg none none none).1 (by decide)⟩,
   ⟨by decide,
    (C9_dial_timeout hostFour [("dialTimeout", "10s")] none none none).2 (by decide)⟩⟩

/-- C10: in the options built by `NewRedisConnIns`, each of these keys that is absent from
the map resolves to its default: maxRetries to 3, minRetryBackoff to 8ms, maxRetryBackoff
to 512ms, readTimeout and writeTimeout to 3s, db to 0, contextTimeoutEnabled and poolFIFO
to false, clientName, username and password to the empty string. -/
theorem C10_defaults (env : Env) (cfg : Cfg) (t : Option TLSConfig)
    (d : Option DialerFunc) (o : Option OnConnectFunc) :
    (cfgLookup cfg "maxRetries" = none →
      (NewRedisConnIns_options env cfg t d o).MaxRetries = 3) ∧
    (cfgLookup cfg "minRetryBackoff" = none →
      (NewRedisConnIns_options env cfg t d o).MinRetryBackoff = 8 * Millisecond) ∧
    (cfgLookup cfg "maxRetryBackoff" = none →
      (NewRedisConnIns_options env cfg t d o).MaxRetryBackoff = 512 * Millisecond) ∧
    (cfgLookup cfg "readTimeout" = none →
      (NewRedisConnIns_options env cfg t d o).ReadTimeout = 3 * Second) ∧
    (cfgLookup cfg "writeTimeout" = none →
      (NewRedisConnIns_options env cfg t d o).WriteTimeout = 3 * Second) ∧
    (cfgLookup cfg "db" = none → (NewRedisConnIns_options env cfg t d o).DB = 0) ∧
    (cfgLookup cfg "contextTimeoutEnabled" = none →
      (NewRedisConnIns_options env cfg t d o).ContextTimeoutEnabled = false) ∧
    (cfgLookup cfg "poolFIFO" = none →
      (NewRedisConnIns_options env cfg t d o).PoolFIFO = false) ∧
    (cfgLookup cfg "clientName" = none →
      (NewRedisConnIns_options env cfg t d o).ClientName = "") ∧
    (cfgLookup cfg "username" = none →
      (NewRedisConnIns_options env cfg t d o).Username = "") ∧
    (cfgLookup cfg "password" = none →
      (NewRedisConnIns_options env cfg t d o).Password = "") := by
  rw [NewRedisConnIns_options_eq]
  refine ⟨?_, ?_, ?_, ?_, ?_, ?_, ?_, ?_, ?_, ?_, ?_⟩ <;> intro h
  · simp only [intValue, h]
  · simp only [durationValue, h]
  · simp only [durationValue, h]
  · simp only [durationValue, h]
  · simp only [durationValue, h]
  · simp only [cfgIndex, h, Option.getD_none]; rfl
  · simp only [cfgIndex, h, Option.getD_none]; rfl
  · simp only [cfgIndex, h, Option.getD_none]; rfl
  · simp only [cfgIndex, h, Option.getD_none]
  · simp only [cfgIndex, h, Option.getD_none]
  · simp only [cfgIndex, h, Option.getD_none]

/-- Witness of C10: the empty map has none of the keys, so each of them has its default. -/
theorem C10_defaults_witness :
    (cfgLookup [] "maxRetries" = none ∧ cfgLookup [] "minRetryBackoff" = none ∧
      cfgLookup [] "maxRetryBackoff" = none ∧ cfgLookup [] "readTimeout" = none ∧
      cfgLookup [] "writeTimeout" = none ∧ cfgLookup [] "db" = none ∧
      cfgLookup [] "contextTimeoutEnabled" = none ∧ cfgLookup [] "poolFIFO" = none ∧
      cfgLookup [] "clientName" = none ∧ cfgLookup [] "username" = none ∧
      cfgLookup [] "password" = none) ∧
    (NewRedisConnIns_options hostFour [] none none none).MaxRetries = 3 ∧
    (NewRedisConnIns_options hostFour [] none none none).MinRetryBackoff = 8000000 ∧
    (NewRedisConnIns_options hostFour [] none none none).MaxRetryBackoff = 512000000 ∧
    (NewRedisConnIns_options hostFour [] none none none).ReadTimeout = 3000000000 ∧
    (NewRedisConnIns_options hostFour [] none none none).WriteTimeout = 3000000000 ∧
    (NewRedisConnIns_options hostFour [] none none none).DB = 0 ∧
    (NewRedisConnIns_options hostFour [] none none none).ContextTimeoutEnabled = false ∧
    (NewRedisConnIns_options hostFour [] none none none).PoolFIFO = false ∧
    (NewRedisConnIns_options hostFour [] none none none).ClientName = "" ∧
    (NewRedisConnIns_options hostFour [] none none none).Username = "" ∧
    (NewRedisConnIns_options hostFour [] none none none).Password = "" :=
  ⟨by decide,
   (C10_defaults hostFour [] none none none).1 (by decide),
   (C10_defaults hostFour [] none none none).2.1 (by decide),
   (C10_defaults hostFour [] none none none).2.2.1 (by decide),
   (C10_defaults hostFour [] none none none).2.2.2.1 (by decide),
   (C10_defaults hostFour [] none none none).2.2.2.2.1 (by decide),
   (C10_defaults hostFour [] none none none).2.2.2.2.2.1 (by decide),
   (C10_defaults hostFour [] none none none).2.2.2.2.2.2.1 (by decide),
   (C10_defaults hostFour [] none none none).2.2.2.2.2.2.2.1 (by decide),
   (C10_defaults hostFour [] none none none).2.2.2.2.2.2.2.2.1 (by decide),
   (C10_defaults hostFour [] none none none).2.2.2.2.2.2.2.2.2.1 (by decide),
   (C10_defaults hostFour [] none none none).2.2.2.2.2.2.2.2.2.2 (by decide)⟩

/-- C11: the address list `NewRedisConnIns` resolves is the sequence of comma-separated
segments of `cfg["addr"]` in their order: an addr with `n` commas gives `n + 1` endpoints,
endpoint `i` is segment `i`, no endpoint holds a comma, and joining the list with ","
gives back the addr string. -/
theorem C11_addrs_are_the_segments (env : Env) (cfg : Cfg) (t : Option TLSConfig)
    (d : Option DialerFunc) (o : Option OnConnectFunc) :
    (NewRedisConnIns_options env cfg t d o).Addrs.length =
      (cfgIndex cfg "addr").data.count ',' + 1 ∧
    (∀ i, i ≤ (cfgIndex cfg "addr").data.count ',' →
      (NewRedisConnIns_options env cfg t d o).Addrs[i]? =
        some (String.mk (segment (cfgIndex cfg "addr").data i))) ∧
    (∀ a ∈ (NewRedisConnIns_options env cfg t d o).Addrs, ',' ∉ a.data) ∧
    ",".intercalate (NewRedisConnIns_options env cfg t d o).Addrs = cfgIndex cfg "addr" := by
  rw [NewRedisConnIns_options_eq]
  exact ⟨Split_length _, fun i hi => Split_get _ i hi, Split_no_comma _, intercalate_Split _⟩

/-- Witness of C11: an addr with two commas resolves to its three segments. -/
theorem C11_addrs_are_the_segments_witness :
    (0 ≤ (cfgIndex [("addr", "h1:6379,h2:6379,h3:6379")] "addr").data.count ',' ∧
      (NewRedisConnIns_options hostFour [("addr", "h1:6379,h2:6379,h3:6379")]
        none none none).Addrs[0]? = some "h1:6379") ∧
    (NewRedisConnIns_options hostFour [("addr", "h1:6379,h2:6379,h3:6379")]
        none none none).Addrs = ["h1:6379", "h2:6379", "h3:6379"] :=
  ⟨⟨by decide,
    (C11_addrs_are_the_segments hostFour [("addr", "h1:6379,h2:6379,h3:6379")]
      none none none).2.1 0 (by decide)⟩,
   by decide⟩

/-- C12, as the code has it: when addr is absent or is the empty string, the address list
`NewRedisConnIns` resolves has exactly one endpoint, the empty string, since
`strings.Split("", ",")` is a slice holding the one string it was given. -/
theorem C12_empty_addr_one_endpoint (env : Env) (cfg : Cfg) (t : Option TLSConfig)
    (d : Option DialerFunc) (o : Option OnConnectFunc)
    (h : cfgLookup cfg "addr" = none ∨ cfgLookup cfg "addr" = some "") :
    (NewRedisConnIns_options env cfg t d o).Addrs = [""] := by
  have hidx : cfgIndex cfg "addr" = "" := by
    unfold cfgIndex
    rcases h with h | h <;> rw [h] <;> rfl
  rw [NewRedisConnIns_options_eq]
  simp only [hidx]
  rfl

/-- Witness of C12 as amended: the empty map, and a map whose addr is the empty string. -/
theorem C12_empty_addr_one_endpoint_witness :
    ((cfgLookup [] "addr" = none ∨ cfgLookup [] "addr" = some "") ∧
      (NewRedisConnIns_options hostFour [] none none none).Addrs = [""]) ∧
    ((cfgLookup [("addr", "")] "addr" = none ∨ cfgLookup [("addr", "")] "addr" = some "") ∧
      (NewRedisConnIns_options hostFour [("addr", "")] none none none).Addrs = [""]) :=
  ⟨⟨by decide, C12_empty_addr_one_endpoint hostFour [] none none none (by decide)⟩,
   ⟨by decide,
    C12_empty_addr_one_endpoint hostFour [("addr", "")] none none none (by decide)⟩⟩

/-- C12 as stated fails: for the empty map, where addr is absent, the address list is not
the empty list. -/
theorem C12_empty_addr_counterexample :
    ¬ (∀ (env : Env) (cfg : Cfg),
        (cfgLookup cfg "addr" = none ∨ cfgLookup cfg "addr" = some "") →
        (NewRedisConnIns_options env cfg none none none).Addrs = []) := by
  intro hall
  have h := hall hostFour [] (by decide)
  revert h
  decide

/-- C13, as the code has it: when an integer or duration key (maxRetries, db,
minRetryBackoff, maxRetryBackoff, dialTimeout, readTimeout, writeTimeout) is present with a
value that cast cannot parse, the field is the zero value 0; for the six keys with a
non-zero default that is not their default, for db it is the default, the map without db
resolving to the same DB. `NewRedisConnIns` then returns a handle with these options when
`redis.NewUniversalClient` does not panic on them, and panics when it does. -/
theorem C13_malformed_value_resolves_to_zero (env : Env) (name : String) (cfg : Cfg)
    (t : Option TLSConfig) (d : Option DialerFunc) (o : Option OnConnectFunc) (w : World) :
    (newClientPanic env (NewRedisConnIns_options env cfg t d o) = none →
      ∃ ins, (NewRedisConnIns env name cfg t d o w).1 = .returned (some ins) ∧
        ins.ins.options = NewRedisConnIns_options env cfg t d o) ∧
    (∀ msg, newClientPanic env (NewRedisConnIns_options env cfg t d o) = some msg →
      (NewRedisConnIns env name cfg t d o w).1 = .panicked msg) ∧
    (∀ v, cfgLookup cfg "maxRetries" = some v → ToIntE v = none →
      (NewRedisConnIns_options env cfg t d o).MaxRetries = 0 ∧
      (NewRedisConnIns_options env cfg t d o).MaxRetries ≠ 3) ∧
    (∀ v, cfgLookup cfg "db" = some v → ToIntE v = none →
      (NewRedisConnIns_options env cfg t d o).DB = 0 ∧
      (NewRedisConnIns_options env cfg t d o).DB =
        (NewRedisConnIns_options env (cfgDelete cfg "db") t d o).DB) ∧
    (∀ v, cfgLookup cfg "minRetryBackoff" = some v → ToDurationE env v = none →
      (NewRedisConnIns_options env cfg t d o).MinRetryBackoff = 0 ∧
      (NewRedisConnIns_options env cfg t d o).MinRetryBackoff ≠ 8 * Millisecond) ∧
    (∀ v, cfgLookup cfg "maxRetryBackoff" = some v → ToDurationE env v = none →
      (NewRedisConnIns_options env cfg t d o).MaxRetryBackoff = 0 ∧
      (NewRedisConnIns_options env cfg t d o).MaxRetryBackoff ≠ 512 * Millisecond) ∧
    (∀ v, cfgLookup cfg "dialTimeout" = some v → ToDurationE env v = none →
      (NewRedisConnIns_options env cfg t d o).DialTimeout = 0 ∧
      (NewRedisConnIns_options env cfg t d o).DialTimeout ≠ 5 * Second) ∧
    (∀ v, cfgLookup cfg "readTimeout" = some v → ToDurationE env v = none →
      (NewRedisConnIns_options env cfg t d o).ReadTimeout = 0 ∧
      (NewRedisConnIns_options env cfg t d o).ReadTimeout ≠ 3 * Second) ∧
    (∀ v, cfgLookup cfg "writeTimeout" = some v → ToDurationE env v = none →
      (NewRedisConnIns_options env cfg t d o).WriteTimeout = 0 ∧
      (NewRedisConnIns_options env cfg t d o).WriteTimeout ≠ 3 * Second) := by
  have hint : ∀ v, ToIntE v = none → ToInt v = 0 := by
    intro v hv
    rw [ToInt_eq_ToIntE, hv]
    rfl
  have hdur : ∀ v, ToDurationE env v = none → ToDuration env v = 0 := by
    intro v hv
    rw [ToDuration_eq_ToDurationE, hv]
    rfl
  refine ⟨?_, ?_, ?_, ?_, ?_, ?_, ?_, ?_, ?_⟩
  · intro hret
    rw [NewRedisConnIns_returns env name cfg t d o w hret]
    exact ⟨_, rfl, rfl⟩
  · intro msg hp
    rw [NewRedisConnIns_panics env name cfg t d o w msg hp]
  · intro v hk hv
    have h0 : (NewRedisConnIns_options env cfg t d o).MaxRetries = 0 := by
      rw [NewRedisConnIns_options_eq]
      simp only [intValue, hk, hint v hv]
    exact ⟨h0, by rw [h0]; decide⟩
  · intro v hk hv
    have h0 : (NewRedisConnIns_options env cfg t d o).DB = 0 := by
      rw [NewRedisConnIns_options_eq]
      simp only [cfgIndex, hk, Option.getD_some, hint v hv]
    have h1 : (NewRedisConnIns_options env (cfgDelete cfg "db") t d o).DB = 0 := by
      rw [NewRedisConnIns_options_eq]
      simp only [cfgIndex, cfgLookup_cfgDelete, if_true, Option.getD_none]
      rfl
    exact ⟨h0, by rw [h0, h1]⟩
  · intro v hk hv
    have h0 : (NewRedisConnIns_options env cfg t d o).MinRetryBackoff = 0 := by
      rw [NewRedisConnIns_options_eq]
      simp only [durationValue, hk, hdur v hv]
    exact ⟨h0, by rw [h0]; decide⟩
  · intro v hk hv
    have h0 : (NewRedisConnIns_options env cfg t d o).MaxRetryBackoff = 0 := by
      rw [NewRedisConnIns_options_eq]
      simp only [durationValue, hk, hdur v hv]
    exact ⟨h0, by rw [h0]; decide⟩
  · intro v hk hv
    have h0 : (NewRedisConnIns_options env cfg t d o).DialTimeout = 0 := by
      rw [NewRedisConnIns_options_eq]
      simp only [durationValue, hk, hdur v hv]
    exact ⟨h0, by rw [h0]; decide⟩
  · intro v hk hv
    have h0 : (NewRedisConnIns_options env cfg t d o).ReadTimeout = 0 := by
      rw [NewRedisConnIns_options_eq]
      simp only [durationValue, hk, hdur v hv]
    exact ⟨h0, by rw [h0]; decide⟩
  · intro v hk hv
    have h0 : (NewRedisConnIns_options env cfg t d o).WriteTimeout = 0 := by
      rw [NewRedisConnIns_options_eq]
      simp only [durationValue, hk, hdur v hv]
    exact ⟨h0, by rw [h0]; decide⟩

/-- Witness of C13 as amended: a map whose seven integer and duration keys all hold text that does
not parse. -/
theorem C13_malformed_value_resolves_to_zero_witness :
    (newClientPanic hostFour (NewRedisConnIns_options hostFour malformedCfg none none none) =
        none ∧
      ∃ ins, (NewRedisConnIns hostFour "aa" malformedCfg none none none World.init).1 =
          .returned (some ins) ∧
        ins.ins.options = NewRedisConnIns_options hostFour malformedCfg none none none) ∧
    ((cfgLookup malformedCfg "maxRetries" = some "three" ∧ ToIntE "three" = none) ∧
      (NewRedisConnIns_options hostFour malformedCfg none none none).MaxRetries = 0) ∧
    ((cfgLookup malformedCfg "db" = some "1.5" ∧ ToIntE "1.5" = none) ∧
      (NewRedisConnIns_options hostFour malformedCfg none none none).DB = 0) ∧
    ((cfgLookup malformedCfg "minRetryBackoff" = some "8 ms" ∧
        ToDurationE hostFour "8 ms" = none) ∧
      (NewRedisConnIns_options hostFour malformedCfg none none none).MinRetryBackoff = 0) ∧
    ((cfgLookup malformedCfg "maxRetryBackoff" = some "fast" ∧
        ToDurationE hostFour "fast" = none) ∧
      (NewRedisConnIns_options hostFour malformedCfg none none none).MaxRetryBackoff = 0) ∧
    ((cfgLookup malformedCfg "dialTimeout" = some "5x" ∧ ToDurationE hostFour "5x" = none) ∧
      (NewRedisConnIns_options hostFour malformedCfg none none none).DialTimeout = 0) ∧
    ((cfgLookup malformedCfg "readTimeout" = some "3sec" ∧
        ToDurationE hostFour "3sec" = none) ∧
      (NewRedisConnIns_options hostFour malformedCfg none none none).ReadTimeout = 0) ∧
    ((cfgLookup malformedCfg "writeTimeout" = some "--1" ∧
        ToDurationE hostFour "--1" = none) ∧
      (NewRedisConnIns_options hostFour malformedCfg none none none).WriteTimeout = 0) :=
  ⟨⟨by decide,
    (C13_malformed_value_resolves_to_zero hostFour "aa" malformedCfg none none none
      World.init).1 (by decide)⟩,
   ⟨⟨by decide, by decide⟩,
    ((C13_malformed_value_resolves_to_zero hostFour "aa" malformedCfg none none none
      World.init).2.2.1 "three" (by decide) (by decide)).1⟩,
   ⟨⟨by decide, by decide⟩,
    ((C13_malformed_value_resolves_to_zero hostFour "aa" malformedCfg none none none
      World.init).2.2.2.1 "1.5" (by decide) (by decide)).1⟩,
   ⟨⟨by decide, by decide⟩,
    ((C13_malformed_value_resolves_to_zero hostFour "aa" malformedCfg none none none
      World.init).2.2.2.2.1 "8 ms" (by decide) (by decide)).1⟩,
   ⟨⟨by decide, by decide⟩,
    ((C13_malformed_value_resolves_to_zero hostFour "aa" malformedCfg none none none
      World.init).2.2.2.2.2.1 "fast" (by decide) (by decide)).1⟩,
   ⟨⟨by decide, by decide⟩,
    ((C13_malformed_value_resolves_to_zero hostFour "aa" malformedCfg none none none
      World.init).2.2.2.2.2.2.1 "5x" (by decide) (by decide)).1⟩,
   ⟨⟨by decide, by decide⟩,
    ((C13_malformed_value_resolves_to_zero hostFour "aa" malformedCfg none none none
      World.init).2.2.2.2.2.2.2.1 "3sec" (by decide) (by decide)).1⟩,
   ⟨⟨by decide, by decide⟩,
    ((C13_malformed_value_resolves_to_zero hostFour "aa" malformedCfg none none none
      World.init).2.2.2.2.2.2.2.2 "--1" (by decide) (by decide)).1⟩⟩

/-- C13 as stated fails. The map with maxRetries "three" and poolSize "-3" holds a value
that does not parse, and `NewRedisConnIns` returns no handle, it panics. The map with db
"1.5" holds a value that does not parse, and DB is 0, which is the documented default of
db. -/
theorem C13_malformed_value_counterexample :
    (¬ ∀ (env : Env) (name : String) (cfg : Cfg) (w : World) (v : String),
        cfgLookup cfg "maxRetries" = some v → ToIntE v = none →
        ∃ ins, (NewRedisConnIns env name cfg none none none w).1 = .returned (some ins)) ∧
    (¬ ∀ (env : Env) (cfg : Cfg) (v : String),
        cfgLookup cfg "db" = some v → ToIntE v = none →
        (NewRedisConnIns_options env cfg none none none).DB ≠ 0) := by
  constructor
  · intro hall
    obtain ⟨ins, hins⟩ := hall hostFour "aa" [("maxRetries", "three"), ("poolSize", "-3")]
      World.init "three" (by decide) (by decide)
    have hp : (NewRedisConnIns hostFour "aa" [("maxRetries", "three"), ("poolSize", "-3")]
        none none none World.init).1 = .panicked "makechan: size out of range" := by decide
    rw [hp] at hins
    cases hins
  · intro hall
    have h := hall hostFour malformedCfg "1.5" (by decide) (by decide)
    revert h
    decide

/-- C14: for a key `k` that is not a recognized option name and any value `v`,
`NewRedisConnIns` resolves the same options from the map with `k` set to `v` as from the map
without `k`, and as from the map it started from. -/
theorem C14_unrecognized_key_ignored (env : Env) (cfg : Cfg) (k v : String)
    (t : Option TLSConfig) (d : Option DialerFunc) (o : Option OnConnectFunc)
    (hk : k ∉ recognizedKeys) :
    NewRedisConnIns_options env (cfgSet cfg k v) t d o =
      NewRedisConnIns_options env (cfgDelete cfg k) t d o ∧
    NewRedisConnIns_options env (cfgSet cfg k v) t d o = NewRedisConnIns_options env cfg t d o := by
  have hset : ∀ key ∈ recognizedKeys, cfgLookup (cfgSet cfg k v) key = cfgLookup cfg key := by
    intro key hkey
    have hne : key ≠ k := by
      intro hEq
      rw [hEq] at hkey
      exact hk hkey
    rw [cfgLookup_cfgSet, if_neg hne]
  have hdel : ∀ key ∈ recognizedKeys, cfgLookup (cfgDelete cfg k) key = cfgLookup cfg key := by
    intro key hkey
    have hne : key ≠ k := by
      intro hEq
      rw [hEq] at hkey
      exact hk hkey
    rw [cfgLookup_cfgDelete, if_neg hne]
  constructor
  · apply NewRedisConnIns_options_congr
    · intro key hkey
      have hr := mem_recognizedKeys_of_plain_or_guarded key hkey
      exact cfgIndex_of_lookup_eq _ _ key ((hset key hr).trans (hdel key hr).symm)
    · intro key hkey
      have hr := mem_recognizedKeys_of_presence key hkey
      exact (hset key hr).trans (hdel key hr).symm
  · apply NewRedisConnIns_options_congr
    · intro key hkey
      exact cfgIndex_of_lookup_eq _ _ key
        (hset key (mem_recognizedKeys_of_plain_or_guarded key hkey))
    · intro key hkey
      exact hset key (mem_recognizedKeys_of_presence key hkey)

/-- Witness of C14: the key "database" is not an option name; setting it on the map of the
test changes nothing. -/
theorem C14_unrecognized_key_ignored_witness :
    "database" ∉ recognizedKeys ∧
    NewRedisConnIns_options hostFour (cfgSet testCfg "database" "7") none none none =
      NewRedisConnIns_options hostFour (cfgDelete testCfg "database") none none none :=
  ⟨by decide,
   (C14_unrecognized_key_ignored hostFour testCfg "database" "7" none none none
      (by decide)).1⟩

/-- C15: the resolved TLSConfig, Dialer and OnConnect are the three overrides as they were
supplied, the override where it is not nil and nil where it is nil, whatever the map
holds and whatever the other two overrides are. -/
theorem C15_transport_overrides (env : Env) (cfg : Cfg) (t : Option TLSConfig)
    (d : Option DialerFunc) (o : Option OnConnectFunc) :
    (NewRedisConnIns_options env cfg t d o).TLSConfig = t ∧
    (NewRedisConnIns_options env cfg t d o).Dialer = d ∧
    (NewRedisConnIns_options env cfg t d o).OnConnect = o := by
  rw [NewRedisConnIns_options_eq]
  exact ⟨rfl, rfl, rfl⟩

/-- C16, as the code has it: for every name and every map, the empty and the nil map (both
`[]`) included, `NewRedisConnIns` never returns a nil handle: when `redis.NewUniversalClient`
does not panic on the resolved options it returns a handle whose `GetName()` is the name,
and otherwise it panics and returns nothing. So the loop of `AddRedisInstancesArgs` never
takes the `ins == nil` branch, and when the constructor panics on no entry it returns after
making one client per entry, each entry either registering an instance or having its `Add`
error logged. -/
theorem C16_handle_never_nil (env : Env) (name : String) (cfg : Cfg) (t : Option TLSConfig)
    (d : Option DialerFunc) (o : Option OnConnectFunc) (w : World)
    (dbs : List (String × Cfg)) :
    (NewRedisConnIns env name cfg t d o w).1 ≠ .returned none ∧
    (newClientPanic env (NewRedisConnIns_options env cfg t d o) = none →
      ∃ ins, (NewRedisConnIns env name cfg t d o w).1 = .returned (some ins) ∧
        ins.GetName = name) ∧
    (newClientPanic env (NewRedisConnIns_options env [] t d o) = none →
      ∃ ins, (NewRedisConnIns env name [] t d o w).1 = .returned (some ins) ∧
        ins.GetName = name) ∧
    (∀ msg, newClientPanic env (NewRedisConnIns_options env cfg t d o) = some msg →
      (NewRedisConnIns env name cfg t d o w).1 = .panicked msg) ∧
    ((∀ e ∈ dbs, newClientPanic env (NewRedisConnIns_options env e.2 t d o) = none) →
      (AddRedisInstancesArgs env dbs t d o w).1.2 = .returned () ∧
      (AddRedisInstancesArgs env dbs t d o w).1.1.length +
          (AddRedisInstancesArgs env dbs t d o w).2.redispool.size =
        w.redispool.size + dbs.length ∧
      (AddRedisInstancesArgs env dbs t d o w).2.clients = w.clients + dbs.length) := by
  refine ⟨?_, ?_, ?_, ?_, batch_every_entry_reaches_Add env t d o dbs w⟩
  · cases hp : newClientPanic env (NewRedisConnIns_options env cfg t d o) with
    | none =>
      rw [NewRedisConnIns_returns env name cfg t d o w hp]
      intro hEq
      cases hEq
    | some msg =>
      rw [NewRedisConnIns_panics env name cfg t d o w msg hp]
      intro hEq
      cases hEq
  · intro hret
    rw [NewRedisConnIns_returns env name cfg t d o w hret]
    exact ⟨_, rfl, rfl⟩
  · intro hret
    rw [NewRedisConnIns_returns env name [] t d o w hret]
    exact ⟨_, rfl, rfl⟩
  · intro msg hp
    rw [NewRedisConnIns_panics env name cfg t d o w msg hp]

/-- Witness of C16 as amended: the map of the test and the empty map give a handle named
"aa"; a batch of two entries makes two clients. -/
theorem C16_handle_never_nil_witness :
    (newClientPanic hostFour (NewRedisConnIns_options hostFour testCfg none none none) =
        none ∧
      ∃ ins, (NewRedisConnIns hostFour "aa" testCfg none none none World.init).1 =
          .returned (some ins) ∧ ins.GetName = "aa") ∧
    (newClientPanic hostFour (NewRedisConnIns_options hostFour [] none none none) = none ∧
      ∃ ins, (NewRedisConnIns hostFour "aa" [] none none none World.init).1 =
          .returned (some ins) ∧ ins.GetName = "aa") ∧
    ((∀ e ∈ ([("a", testCfg), ("b", [])] : List (String × Cfg)),
        newClientPanic hostFour (NewRedisConnIns_options hostFour e.2 none none none) =
          none) ∧
      (AddRedisInstancesArgs hostFour [("a", testCfg), ("b", [])] none none none
        World.init).2.clients = World.init.clients + 2) :=
  ⟨⟨by decide,
    (C16_handle_never_nil hostFour "aa" testCfg none none none World.init
      [("a", testCfg), ("b", [])]).2.1 (by decide)⟩,
   ⟨by decide,
    (C16_handle_never_nil hostFour "aa" testCfg none none none World.init
      [("a", testCfg), ("b", [])]).2.2.1 (by decide)⟩,
   ⟨by decide,
    ((C16_handle_never_nil hostFour "aa" testCfg none none none World.init
      [("a", testCfg), ("b", [])]).2.2.2.2 (by decide)).2.2⟩⟩

/-- C16 as stated fails: for the name "aa" and the map with poolSize "-3"
`NewRedisConnIns` returns no handle, it panics; and in the batch with the entries "a"
(poolSize "-3") and "b" (the empty map) neither entry reaches `Add`: nothing is registered
and nothing is logged. -/
theorem C16_handle_never_nil_counterexample :
    (¬ ∀ (env : Env) (name : String) (cfg : Cfg) (w : World),
        ∃ ins, (NewRedisConnIns env name cfg none none none w).1 = .returned (some ins) ∧
          ins.GetName = name) ∧
    (¬ ∀ (env : Env) (w : World) (dbs : List (String × Cfg)),
        (AddRedisInstancesArgs env dbs none none none w).1.1.length +
            (AddRedisInstancesArgs env dbs none none none w).2.redispool.size =
          w.redispool.size + dbs.length) := by
  constructor
  · intro hall
    obtain ⟨ins, hins, _⟩ := hall hostFour "aa" negativePoolCfg World.init
    have hp : (NewRedisConnIns hostFour "aa" negativePoolCfg none none none World.init).1 =
        .panicked "makechan: size out of range" := by decide
    rw [hp] at hins
    cases hins
  · intro hall
    have h := hall hostFour World.init [("a", negativePoolCfg), ("b", [])]
    revert h
    decide

/-- C18, as the code has it: for readTimeout and writeTimeout the sentinel values pass
through unchanged: the value "0" resolves to 0, "-1" to exactly -1 and "-2" to exactly -2;
more generally the decimal text of an integer `p` of the range of `time.Duration`, written
without a unit, resolves to `p` nanoseconds, which for `p ≠ 0` is not `p` seconds. -/
theorem C18_timeout_sentinels (env : Env) (cfg : Cfg) (t : Option TLSConfig)
    (d : Option DialerFunc) (o : Option OnConnectFunc) :
    (cfgLookup cfg "readTimeout" = some "0" →
      (NewRedisConnIns_options env cfg t d o).ReadTimeout = 0) ∧
    (cfgLookup cfg "readTimeout" = some "-1" →
      (NewRedisConnIns_options env cfg t d o).ReadTimeout = -1) ∧
    (cfgLookup cfg "readTimeout" = some "-2" →
      (NewRedisConnIns_options env cfg t d o).ReadTimeout = -2) ∧
    (cfgLookup cfg "writeTimeout" = some "0" →
      (NewRedisConnIns_options env cfg t d o).WriteTimeout = 0) ∧
    (cfgLookup cfg "writeTimeout" = some "-1" →
      (NewRedisConnIns_options env cfg t d o).WriteTimeout = -1) ∧
    (cfgLookup cfg "writeTimeout" = some "-2" →
      (NewRedisConnIns_options env cfg t d o).WriteTimeout = -2) ∧
    (∀ p : Int, -2 ^ 63 ≤ p → p < 2 ^ 63 →
      cfgLookup cfg "readTimeout" = some (toString p) →
      (NewRedisConnIns_options env cfg t d o).ReadTimeout = p ∧
      (p ≠ 0 → (NewRedisConnIns_options env cfg t d o).ReadTimeout ≠ p * Second)) ∧
    (∀ p : Int, -2 ^ 63 ≤ p → p < 2 ^ 63 →
      cfgLookup cfg "writeTimeout" = some (toString p) →
      (NewRedisConnIns_options env cfg t d o).WriteTimeout = p ∧
      (p ≠ 0 → (NewRedisConnIns_options env cfg t d o).WriteTimeout ≠ p * Second)) := by
  have hsec : ∀ p : Int, p ≠ 0 → p ≠ p * Second := by
    intro p hp hEq
    unfold Second at hEq
    omega
  rw [NewRedisConnIns_options_eq]
  refine ⟨?_, ?_, ?_, ?_, ?_, ?_, ?_, ?_⟩
  · intro h
    simp only [durationValue, h]
    rfl
  · intro h
    simp only [durationValue, h]
    rfl
  · intro h
    simp only [durationValue, h]
    rfl
  · intro h
    simp only [durationValue, h]
    rfl
  · intro h
    simp only [durationValue, h]
    rfl
  · intro h
    simp only [durationValue, h]
    rfl
  · intro p hlo hhi h
    simp only [durationValue, h, ToDuration_toString env p hlo hhi]
    exact ⟨trivial, hsec p⟩
  · intro p hlo hhi h
    simp only [durationValue, h, ToDuration_toString env p hlo hhi]
    exact ⟨trivial, hsec p⟩

/-- Witness of C18 as amended: maps holding the three sentinels, and the unit-less value "1500". -/
theorem C18_timeout_sentinels_witness :
    ((cfgLookup [("readTimeout", "0"), ("writeTimeout", "0")] "readTimeout" = some "0" ∧
      cfgLookup [("readTimeout", "0"), ("writeTimeout", "0")] "writeTimeout" = some "0") ∧
      (NewRedisConnIns_options hostFour [("readTimeout", "0"), ("writeTimeout", "0")]
        none none none).ReadTimeout = 0 ∧
      (NewRedisConnIns_options hostFour [("readTimeout", "0"), ("writeTimeout", "0")]
        none none none).WriteTimeout = 0) ∧
    ((cfgLookup [("readTimeout", "-1"), ("writeTimeout", "-1")] "readTimeout" = some "-1" ∧
      cfgLookup [("readTimeout", "-1"), ("writeTimeout", "-1")] "writeTimeout" = some "-1") ∧
      (NewRedisConnIns_options hostFour [("readTimeout", "-1"), ("writeTimeout", "-1")]
        none none none).ReadTimeout = -1 ∧
      (NewRedisConnIns_options hostFour [("readTimeout", "-1"), ("writeTimeout", "-1")]
        none none none).WriteTimeout = -1) ∧
    ((cfgLookup [("readTimeout", "-2"), ("writeTimeout", "-2")] "readTimeout" = some "-2" ∧
      cfgLookup [("readTimeout", "-2"), ("writeTimeout", "-2")] "writeTimeout" = some "-2") ∧
      (NewRedisConnIns_options hostFour [("readTimeout", "-2"), ("writeTimeout", "-2")]
        none none none).ReadTimeout = -2 ∧
      (NewRedisConnIns_options hostFour [("readTimeout", "-2"), ("writeTimeout", "-2")]
        none none none).WriteTimeout = -2) ∧
    ((-2 ^ 63 ≤ (1500 : Int) ∧ (1500 : Int) < 2 ^ 63 ∧
      cfgLookup [("readTimeout", "1500"), ("writeTimeout", "1500")] "readTimeout" =
        some (toString (1500 : Int)) ∧
      cfgLookup [("readTimeout", "1500"), ("writeTimeout", "1500")] "writeTimeout" =
        some (toString (1500 : Int))) ∧
      (NewRedisConnIns_options hostFour [("readTimeout", "1500"), ("writeTimeout", "1500")]
        none none none).ReadTimeout = 1500 ∧
      (NewRedisConnIns_options hostFour [("readTimeout", "1500"), ("writeTimeout", "1500")]
        none none none).WriteTimeout = 1500) :=
  ⟨⟨⟨by decide, by decide⟩,
    (C18_timeout_sentinels hostFour [("readTimeout", "0"), ("writeTimeout", "0")]
      none none none).1 (by decide),
    (C18_timeout_sentinels hostFour [("readTimeout", "0"), ("writeTimeout", "0")]
      none none none).2.2.2.1 (by decide)⟩,
   ⟨⟨by decide, by decide⟩,
    (C18_timeout_sentinels hostFour [("readTimeout", "-1"), ("writeTimeout", "-1")]
      none none none).2.1 (by decide),
    (C18_timeout_sentinels hostFour [("readTimeout", "-1"), ("writeTimeout", "-1")]
      none none none).2.2.2.2.1 (by decide)⟩,
   ⟨⟨by decide, by decide⟩,
    (C18_timeout_sentinels hostFour [("readTimeout", "-2"), ("writeTimeout", "-2")]
      none none none).2.2.1 (by decide),
    (C18_timeout_sentinels hostFour [("readTimeout", "-2"), ("writeTimeout", "-2")]
      none none none).2.2.2.2.2.1 (by decide)⟩,
   ⟨⟨by decide, by decide, by decide, by decide⟩,
    ((C18_timeout_sentinels hostFour [("readTimeout", "1500"), ("writeTimeout", "1500")]
      none none none).2.2.2.2.2.2.1 1500 (by decide) (by decide) (by decide)).1,
    ((C18_timeout_sentinels hostFour [("readTimeout", "1500"), ("writeTimeout", "1500")]
      none none none).2.2.2.2.2.2.2 1500 (by decide) (by decide) (by decide)).1⟩⟩

/-- C18 as stated fails: the unit-less integer text "9223372036854775808" (2^63) is no
`time.Duration`; readTimeout with this value resolves to 0, not to 2^63 nanoseconds. -/
theorem C18_timeout_sentinels_counterexample :
    ¬ ∀ (env : Env) (cfg : Cfg) (p : Int),
        cfgLookup cfg "readTimeout" = some (toString p) →
        (NewRedisConnIns_options env cfg none none none).ReadTimeout = p := by
  intro hall
  have h := hall hostFour [("readTimeout", "9223372036854775808")] 9223372036854775808
    (by decide)
  have h0 : (NewRedisConnIns_options hostFour [("readTimeout", "9223372036854775808")]
      none none none).ReadTimeout = 0 := by decide
  rw [h0] at h
  revert h
  decide

/-- C19: the empty string is treated in two ways. For each key read behind `!= ""` the map
holding the key with value "" resolves to the same options as the map with the key
removed, the field being left at its zero value; for each key read with the comma-ok form
the value "" resolves to 0 and not to the default of the key. -/
theorem C19_empty_string_value (env : Env) (cfg : Cfg) (t : Option TLSConfig)
    (d : Option DialerFunc) (o : Option OnConnectFunc) :
    (∀ k ∈ guardedKeys,
      NewRedisConnIns_options env (cfgSet cfg k "") t d o =
        NewRedisConnIns_options env (cfgDelete cfg k) t d o) ∧
    ((cfgLookup cfg "poolSize" = some "" →
        (NewRedisConnIns_options env cfg t d o).PoolSize = 0) ∧
      (cfgLookup cfg "poolTimeout" = some "" →
        (NewRedisConnIns_options env cfg t d o).PoolTimeout = 0) ∧
      (cfgLookup cfg "minIdleConns" = some "" →
        (NewRedisConnIns_options env cfg t d o).MinIdleConns = 0) ∧
      (cfgLookup cfg "maxIdleConns" = some "" →
        (NewRedisConnIns_options env cfg t d o).MaxIdleConns = 0) ∧
      (cfgLookup cfg "connMaxIdleTime" = some "" →
        (NewRedisConnIns_options env cfg t d o).ConnMaxIdleTime = 0) ∧
      (cfgLookup cfg "connMaxLifetime" = some "" →
        (NewRedisConnIns_options env cfg t d o).ConnMaxLifetime = 0) ∧
      (cfgLookup cfg "maxRedirects" = some "" →
        (NewRedisConnIns_options env cfg t d o).MaxRedirects = 0) ∧
      (cfgLookup cfg "readOnly" = some "" →
        (NewRedisConnIns_options env cfg t d o).ReadOnly = false) ∧
      (cfgLookup cfg "routeByLatency" = some "" →
        (NewRedisConnIns_options env cfg t d o).RouteByLatency = false) ∧
      (cfgLookup cfg "routeRandomly" = some "" →
        (NewRedisConnIns_options env cfg t d o).RouteRandomly = false) ∧
      (cfgLookup cfg "masterName" = some "" →
        (NewRedisConnIns_options env cfg t d o).MasterName = "") ∧
      (cfgLookup cfg "protocol" = some "" →
        (NewRedisConnIns_options env cfg t d o).Protocol = 0) ∧
      (cfgLookup cfg "sentinelUsername" = some "" →
        (NewRedisConnIns_options env cfg t d o).SentinelUsername = "") ∧
      (cfgLookup cfg "sentinelPassword" = some "" →
        (NewRedisConnIns_options env cfg t d o).SentinelPassword = "")) ∧
    ((cfgLookup cfg "maxRetries" = some "" →
        (NewRedisConnIns_options env cfg t d o).MaxRetries = 0 ∧
        (NewRedisConnIns_options env cfg t d o).MaxRetries ≠ 3) ∧
      (cfgLookup cfg "minRetryBackoff" = some "" →
        (NewRedisConnIns_options env cfg t d o).MinRetryBackoff = 0 ∧
        (NewRedisConnIns_options env cfg t d o).MinRetryBackoff ≠ 8 * Millisecond) ∧
      (cfgLookup cfg "maxRetryBackoff" = some "" →
        (NewRedisConnIns_options env cfg t d o).MaxRetryBackoff = 0 ∧
        (NewRedisConnIns_options env cfg t d o).MaxRetryBackoff ≠ 512 * Millisecond) ∧
      (cfgLookup cfg "dialTimeout" = some "" →
        (NewRedisConnIns_options env cfg t d o).DialTimeout = 0 ∧
        (NewRedisConnIns_options env cfg t d o).DialTimeout ≠ 5 * Second) ∧
      (cfgLookup cfg "readTimeout" = some "" →
        (NewRedisConnIns_options env cfg t d o).ReadTimeout = 0 ∧
        (NewRedisConnIns_options env cfg t d o).ReadTimeout ≠ 3 * Second) ∧
      (cfgLookup cfg "writeTimeout" = some "" →
        (NewRedisConnIns_options env cfg t d o).WriteTimeout = 0 ∧
        (NewRedisConnIns_options env cfg t d o).WriteTimeout ≠ 3 * Second)) := by
  have hidx : ∀ key, cfgLookup cfg key = some "" → cfgIndex cfg key = "" := by
    intro key h
    unfold cfgIndex
    rw [h]
    rfl
  have hdur0 : ToDuration env "" = 0 := rfl
  have hint0 : ToInt "" = 0 := rfl
  refine ⟨?_, ?_, ?_⟩
  · intro k hk
    have hdisj : k ∉ presenceKeys := by
      revert k
      decide
    apply NewRedisConnIns_options_congr
    · intro key _
      unfold cfgIndex
      rw [cfgLookup_cfgSet, cfgLookup_cfgDelete]
      by_cases hEq : key = k
      · simp [hEq]
      · simp [hEq]
    · intro key hkey
      have hne : key ≠ k := by
        intro hEq
        rw [hEq] at hkey
        exact hdisj hkey
      rw [cfgLookup_cfgSet, cfgLookup_cfgDelete, if_neg hne, if_neg hne]
  · rw [NewRedisConnIns_options_eq]
    refine ⟨?_, ?_, ?_, ?_, ?_, ?_, ?_, ?_, ?_, ?_, ?_, ?_, ?_, ?_⟩ <;>
      (intro h; simp only [hidx _ h, ne_eq, not_true_eq_false, if_false])
  · rw [NewRedisConnIns_options_eq]
    refine ⟨?_, ?_, ?_, ?_, ?_, ?_⟩
    · intro h
      simp only [intValue, h, hint0]
      exact ⟨trivial, by decide⟩
    · intro h
      simp only [durationValue, h, hdur0]
      exact ⟨trivial, by decide⟩
    · intro h
      simp only [durationValue, h, hdur0]
      exact ⟨trivial, by decide⟩
    · intro h
      simp only [durationValue, h, hdur0]
      exact ⟨trivial, by decide⟩
    · intro h
      simp only [durationValue, h, hdur0]
      exact ⟨trivial, by decide⟩
    · intro h
      simp only [durationValue, h, hdur0]
      exact ⟨trivial, by decide⟩

/-- Witness of C19: poolSize set to "" on the map of the test, and a map whose maxRetries
is "". -/
theorem C19_empty_string_value_witness :
    ("poolSize" ∈ guardedKeys ∧
      NewRedisConnIns_options hostFour (cfgSet testCfg "poolSize" "") none none none =
        NewRedisConnIns_options hostFour (cfgDelete testCfg "poolSize") none none none) ∧
    (cfgLookup (cfgSet testCfg "poolSize" "") "poolSize" = some "" ∧
      (NewRedisConnIns_options hostFour (cfgSet testCfg "poolSize" "")
        none none none).PoolSize = 0) ∧
    (cfgLookup [("maxRetries", "")] "maxRetries" = some "" ∧
      (NewRedisConnIns_options hostFour [("maxRetries", "")] none none none).MaxRetries = 0 ∧
      (NewRedisConnIns_options hostFour [("maxRetries", "")] none none none).MaxRetries ≠ 3) :=
  ⟨⟨by decide,
    (C19_empty_string_value hostFour testCfg none none none).1 "poolSize" (by decide)⟩,
   ⟨by decide,
    (C19_empty_string_value hostFour (cfgSet testCfg "poolSize" "") none none none).2.1.1
      (by decide)⟩,
   ⟨by decide,
    (C19_empty_string_value hostFour [("maxRetries", "")] none none none).2.2.1 (by decide)⟩⟩

end GoRedis
